import Mathlib

/-!
Personal Control System: streaks, expense totals and weekly time totals.

A shallow embedding of the computations in `habits.js`, `expenses.js`, `time.js`, `app.js`
and `storage.js`, followed by theorems about them.

Conventions of the embedding.

* A JavaScript object used as a dictionary is an association list in key insertion order
  (`Obj`); reading a missing key gives `none` (JS `undefined`), writing replaces the entry of
  an existing key in place and appends a new key at the end.
* A well-formed calendar date `YYYY-MM-DD` of the habit history and of the time logs is its
  day number (an `Int`, days since 1970-01-01): `new Date(s)` is `86400000 * day` milliseconds.
* "today" is an explicit argument instead of a reading of the wall clock. `toISOString()` gives
  the UTC date, while `setDate(getDate() - 1)` moves back one local day: the two agree
  (`day - 1`) where the local UTC offset is constant, which is what `walkBack` and
  `calculateStreaks` assume; `walkBackZoned` and `calculateStreaksZoned` take the time zone
  as an argument and cover the general case.
* Amounts, hours and the budget are rationals (exact arithmetic).
-/

namespace PCS

/-! ## JavaScript objects as association lists -/

/-- A JS object with keys `κ` and values `α`, in key insertion order. -/
abbrev Obj (κ α : Type) := List (κ × α)

/-- Property read `obj[k]`: `none` stands for `undefined`. -/
def objGet {κ α : Type} [DecidableEq κ] : Obj κ α → κ → Option α
  | [], _ => none
  | (k', v) :: rest, k => if k' = k then some v else objGet rest k

/-- Property write `obj[k] = v`. -/
def objSet {κ α : Type} [DecidableEq κ] : Obj κ α → κ → α → Obj κ α
  | [], k, v => [(k, v)]
  | (k', w) :: rest, k, v => if k' = k then (k', v) :: rest else (k', w) :: objSet rest k v

/-- The list `Object.keys(obj)`. -/
def objKeys {κ α : Type} (obj : Obj κ α) : List κ := obj.map Prod.fst

/-- The keys of a JS object are pairwise distinct. -/
def ObjWF {κ α : Type} (obj : Obj κ α) : Prop := (objKeys obj).Nodup

instance {κ α : Type} [DecidableEq κ] (obj : Obj κ α) : Decidable (ObjWF obj) := by
  unfold ObjWF; infer_instance

/-! ## habits.js -/

/-- The `history` object of a habit: date (as a day number) to boolean. -/
abbrev History := Obj Int Bool

/-- Truthiness of `history[d]`: the entry exists and is `true`. -/
def truthy (history : History) (d : Int) : Bool :=
  match objGet history d with
  | some v => v
  | none => false

/-- The pair returned by `calculateStreaks`. -/
structure Streaks where
  current : Nat
  longest : Nat
  deriving DecidableEq, Repr

/-- The variables of the forward pass of `calculateStreaks`. -/
structure ScanState where
  tempStreak : Nat
  longest : Nat
  lastDate : Option Int
  deriving DecidableEq, Repr

/-- The body of `sortedDatesAsc.forEach(dateStr => ...)`. -/
def scanStep (history : History) (s : ScanState) (dateStr : Int) : ScanState :=
  if truthy history dateStr = false then
    ⟨0, s.longest, some dateStr⟩
  else
    let tempStreak : Nat :=
      match s.lastDate with
      | some lastDate => if dateStr - lastDate = 1 then s.tempStreak + 1 else 1
      | none => 1
    ⟨tempStreak, if tempStreak > s.longest then tempStreak else s.longest, some dateStr⟩

/-- The loop `while (true) { if (history[checkStr]) { current++; checkDate-- } else break }`,
started at `checkDate` with the counter at `current`, in an environment whose local UTC offset
is constant, so that one local day back is the previous UTC date (`walkBackZoned` is the loop
for any time zone). Each turn that continues has found the key `checkDate` in `history`, so
the number of keys at or before `checkDate` decreases. -/
def walkBack (history : History) (checkDate : Int) (current : Nat) : Nat :=
  if h : truthy history checkDate = true then
    walkBack history (checkDate - 1) (current + 1)
  else
    current
termination_by (history.filter (fun p => decide (p.1 ≤ checkDate))).length
decreasing_by
  have key : ∀ (hist : History) (d : Int), truthy hist d = true →
      (hist.filter (fun p => decide (p.1 ≤ d - 1))).length
        < (hist.filter (fun p => decide (p.1 ≤ d))).length := by
    intro hist d hd
    induction hist with
    | nil => simp [truthy, objGet] at hd
    | cons p rest ih =>
      obtain ⟨k, v⟩ := p
      by_cases hk : k = d
      · subst hk
        have h1 : ¬ (k ≤ k - 1) := by omega
        have hle : (rest.filter (fun p => decide (p.1 ≤ k - 1))).length
            ≤ (rest.filter (fun p => decide (p.1 ≤ k))).length := by
          rw [← List.countP_eq_length_filter, ← List.countP_eq_length_filter]
          apply List.countP_mono_left
          intro x _ hx
          simp only [decide_eq_true_eq] at hx ⊢
          omega
        simp only [List.filter_cons, h1, decide_False, le_refl, decide_True, if_true, if_false,
          List.length_cons, Bool.false_eq_true]
        omega
      · have h2 : truthy rest d = true := by
          simpa [truthy, objGet, hk] using hd
        have := ih h2
        simp only [List.filter_cons]
        by_cases c1 : k ≤ d - 1
        · have c2 : k ≤ d := by omega
          simpa [c1, c2] using this
        · have c2 : ¬ k ≤ d := by omega
          simpa [c1, c2] using this
  exact key history checkDate h

/-- The function `calculateStreaks(history)`, evaluated on the day `today` in an environment
whose local UTC offset is constant (`calculateStreaksZoned` is the function for any time
zone). -/
def calculateStreaks (today : Int) (history : History) : Streaks :=
  let dates := (objKeys history).insertionSort (fun a b => b ≤ a)
  if dates.length = 0 then ⟨0, 0⟩
  else
    let sortedDatesAsc := dates.insertionSort (fun a b => a ≤ b)
    let s := sortedDatesAsc.foldl (scanStep history) ⟨0, 0, none⟩
    let current := walkBack history today 0
    ⟨current, s.longest⟩

/-- One habit: its history and the two cached streak fields. -/
structure HabitState where
  history : History
  streak : Nat
  longest : Nat
  deriving DecidableEq, Repr

/-- The `habits` object: habit key to habit state. -/
abbrev Habits := Obj String HabitState

/-- The function `toggleHabit(habitKey)` on the in-memory `habits`; `none` is the `TypeError`
of reading `habit.history` when `habits[habitKey]` is `undefined`. -/
def toggleHabit (today : Int) (habitKey : String) (habits : Habits) : Option Habits :=
  match objGet habits habitKey with
  | none => none
  | some habit =>
    let history := objSet habit.history today (!(truthy habit.history today))
    let r := calculateStreaks today history
    some (objSet habits habitKey ⟨history, r.current, r.longest⟩)

/-- The recomputation of the `DOMContentLoaded` handler:
`Object.keys(habits).forEach(key => ...)` overwrites both cached fields of every habit. -/
def recomputeOnLoad (today : Int) (habits : Habits) : Habits :=
  habits.map (fun p =>
    (p.1, ⟨p.2.history, (calculateStreaks today p.2.history).current,
      (calculateStreaks today p.2.history).longest⟩))

/-! ## Records and the key-value store (storage.js) -/

/-- One expense record `{ id, amount, category, note, date }`; `date` is the text of the date
input, `YYYY-MM-DD`. -/
structure ExpenseRecord where
  id : String
  amount : ℚ
  category : String
  note : String
  date : String
  deriving DecidableEq

/-- One time log `{ screen, productive }`, in hours. -/
structure TimeLog where
  screen : ℚ
  productive : ℚ
  deriving DecidableEq

/-- The `timeLogs` object: date (as a day number) to time log. -/
abbrev TimeLogs := Obj Int TimeLog

/-- A value held by `localStorage` under one key. The JSON text written by `saveData` is
identified with the value it encodes; `text` is a string written by `localStorage.setItem`
directly. -/
inductive Blob where
  | num (q : ℚ)
  | text (s : String)
  | expenses (l : List ExpenseRecord)
  | habits (h : Habits)
  | timeLogs (t : TimeLogs)
  deriving DecidableEq

/-- The browser's `localStorage`. -/
abbrev Store := Obj String Blob

/-- The key `STORAGE_KEYS.EXPENSES`. -/
def KEY_EXPENSES : String := "pcs_expenses"

/-- The key `STORAGE_KEYS.HABITS`. -/
def KEY_HABITS : String := "pcs_habits"

/-- The key `STORAGE_KEYS.TIME_LOGS`. -/
def KEY_TIME_LOGS : String := "pcs_timeLogs"

/-- The function `saveData(key, value)`. -/
def saveData (store : Store) (key : String) (value : Blob) : Store :=
  objSet store key value

/-- The function `getData(key)`; `none` is `null`. -/
def getData (store : Store) (key : String) : Option Blob :=
  objGet store key

/-- The function `removeData(key)`. -/
def removeData (store : Store) (key : String) : Store :=
  store.filter (fun p => decide (p.1 ≠ key))

/-- The storage effect of `clearAllAppData()`:
`Object.values(STORAGE_KEYS).forEach(key => removeData(key))`. -/
def clearAllAppData (store : Store) : Store :=
  [KEY_EXPENSES, KEY_HABITS, KEY_TIME_LOGS].foldl removeData store

/-- The expression `parseInt(localStorage.getItem(key))`; `none` is `NaN`. The text of a stored
number parses to its integer part, every other text the program writes parses to `NaN`. -/
def parseIntItem (store : Store) (key : String) : Option Int :=
  match objGet store key with
  | some (Blob.num q) => some (if 0 ≤ q then Int.floor q else Int.ceil q)
  | _ => none

/-- The expression `parseInt(localStorage.getItem('monthlyBudget')) || 10000` of `habits.js`
and `app.js`. -/
def storedBudgetOrDefault (store : Store) : ℚ :=
  match parseIntItem store "monthlyBudget" with
  | some n => if n = 0 then 10000 else (n : ℚ)
  | none => 10000

/-- Milliseconds in a day. -/
def MS_PER_DAY : Int := 1000 * 60 * 60 * 24

/-- The date part of `new Date().toISOString()` as a day number, for the clock reading `now`
(milliseconds since the epoch). -/
def todayOf (now : Int) : Int := now / MS_PER_DAY

/-! ## expenses.js -/

/-- The test `s.startsWith(p)`. -/
def startsWith (s p : String) : Bool := p.toList.isPrefixOf s.toList

/-- What `renderExpenses` computes and shows. -/
structure ExpenseView where
  rows : List ExpenseRecord
  monthlyTotal : ℚ
  wasteTotal : ℚ
  warningIssues : List String
  criticalIssues : List String
  criticalWasteLimit : ℚ
  remainingAmount : ℚ
  expenses : List ExpenseRecord

/-- The function `renderExpenses()` for the in-memory `expenses` and `monthlyBudget` and the
value `filterMonth` of the month input. `dateValue s` is the time value of `new Date(s)`.
The field `expenses` of the result is the in-memory array afterwards: without a filter
`filtered` is the array itself, which `sort` reorders in place. The two issue lists are empty
when nothing is listed, as the code collects them only in the other branch. -/
def renderExpenses (dateValue : String → Int) (expenses : List ExpenseRecord)
    (monthlyBudget : ℚ) (filterMonth : String) : ExpenseView :=
  let filtered :=
    if filterMonth ≠ "" then expenses.filter (fun exp => startsWith exp.date filterMonth)
    else expenses
  let sorted := filtered.insertionSort (fun a b => dateValue b.date ≤ dateValue a.date)
  let monthlyTotal := sorted.foldl (fun acc exp => acc + exp.amount) 0
  let wasteTotal :=
    sorted.foldl (fun acc exp => if exp.category = "Waste" then acc + exp.amount else acc) 0
  let wasteLimit := monthlyBudget * (15 / 100)
  let criticalWasteLimit := monthlyBudget * (2 / 10)
  let warningIssues : List String :=
    if sorted.length = 0 then []
    else if wasteTotal > wasteLimit ∧ wasteTotal ≤ monthlyBudget * (2 / 10) then
      ["Waste spending is high"]
    else []
  let criticalIssues : List String :=
    if sorted.length = 0 then []
    else if wasteTotal > criticalWasteLimit then ["Waste spending exceeded limit"]
    else []
  ⟨sorted, monthlyTotal, wasteTotal, warningIssues, criticalIssues, criticalWasteLimit,
    monthlyBudget - monthlyTotal, if filterMonth ≠ "" then expenses else sorted⟩

/-- The in-memory variables of the three modules together with `localStorage`. -/
structure AppState where
  expenses : List ExpenseRecord
  monthlyBudget : ℚ
  habits : Habits
  timeLogs : TimeLogs
  store : Store

/-- The object `defaultHabits`. -/
def defaultHabits : Habits :=
  [("study", ⟨[], 0, 0⟩), ("exercise", ⟨[], 0, 0⟩), ("coding", ⟨[], 0, 0⟩),
    ("noJunkFood", ⟨[], 0, 0⟩)]

/-- The module initialisers: `getData(STORAGE_KEYS.EXPENSES) || []`,
`getData('MONTHLY_BUDGET') || 10000`, `getData(STORAGE_KEYS.HABITS) || defaultHabits` and
`getData(STORAGE_KEYS.TIME_LOGS) || {}`. -/
def loadApp (store : Store) : AppState :=
  ⟨match getData store KEY_EXPENSES with
    | some (Blob.expenses l) => l
    | _ => [],
   match getData store "MONTHLY_BUDGET" with
    | some (Blob.num q) => if q = 0 then 10000 else q
    | _ => 10000,
   match getData store KEY_HABITS with
    | some (Blob.habits h) => h
    | _ => defaultHabits,
   match getData store KEY_TIME_LOGS with
    | some (Blob.timeLogs t) => t
    | _ => [],
   store⟩

/-- The function `setBudget()`; `newBudget` is `parseFloat(budgetInput.value)`, `none` for
`NaN`. -/
def setBudget (newBudget : Option ℚ) (st : AppState) : AppState :=
  match newBudget with
  | some b =>
    if b > 0 then
      ⟨st.expenses, b, st.habits, st.timeLogs, saveData st.store "MONTHLY_BUDGET" (Blob.num b)⟩
    else st
  | none => st

/-! ## time.js -/

/-- What `renderTimeSummary` computes. -/
structure TimeSummary where
  totalScreen : ℚ
  totalProductive : ℚ
  wastedHours : ℚ
  deriving DecidableEq

/-- The array `last7Days` of `renderTimeSummary`: the dates of `now - i` days, `i = 0..6`. -/
def last7Days (now : Int) : List Int :=
  (List.range 7).map (fun i => todayOf now - (i : Int))

/-- The function `renderTimeSummary()` for the in-memory `timeLogs`. -/
def renderTimeSummary (now : Int) (timeLogs : TimeLogs) : TimeSummary :=
  let totals := (last7Days now).foldl
    (fun (acc : ℚ × ℚ) dateStr =>
      match objGet timeLogs dateStr with
      | some log => (acc.1 + log.screen, acc.2 + log.productive)
      | none => acc)
    (0, 0)
  ⟨totals.1, totals.2, totals.1 - totals.2⟩

/-! ## The state panels of habits.js and the summary cards of app.js -/

/-- The array `weekLogs`: the entries of `timeLogs` with
`new Date(date) >= weekStart`, where `weekStart` is `now` minus seven days. -/
def weekLogs (now : Int) (timeLogs : TimeLogs) : List (Int × TimeLog) :=
  let weekStart := now - 7 * MS_PER_DAY
  timeLogs.filter (fun p => decide (p.1 * MS_PER_DAY ≥ weekStart))

/-- The loop `weekLogs.forEach(([date, log]) => { totalProductive += ...; totalScreen += ... })`;
the result is the pair `(totalProductive, totalScreen)`. -/
def weekTotals (logs : List (Int × TimeLog)) : ℚ × ℚ :=
  logs.foldl (fun acc p => (acc.1 + p.2.productive, acc.2 + p.2.screen)) (0, 0)

/-- What `updateHabitStates` computes. -/
structure HabitStatesView where
  completedToday : Bool
  totalProductive : ℚ
  totalScreen : ℚ
  productivity : ℚ
  wasteHours : ℚ
  wasteTotal : ℚ
  warningIssues : List String
  criticalIssues : List String
  wasteLimit : ℚ

/-- The function `updateHabitStates()` for the in-memory `habits`, the clock reading `now`,
the text `currentMonth` of its month (`YYYY-MM`) and `localStorage`. -/
def updateHabitStates (now : Int) (currentMonth : String) (habits : Habits) (store : Store) :
    HabitStatesView :=
  let today := todayOf now
  let completedToday := habits.any (fun p => truthy p.2.history today)
  let timeLogs : TimeLogs :=
    match getData store KEY_TIME_LOGS with
    | some (Blob.timeLogs t) => t
    | _ => []
  let totals := weekTotals (weekLogs now timeLogs)
  let totalProductive := totals.1
  let totalScreen := totals.2
  let productivity := if totalScreen > 0 then totalProductive / totalScreen else 1
  let wasteHours := max 0 (totalScreen - totalProductive)
  let expenses : List ExpenseRecord :=
    match getData store KEY_EXPENSES with
    | some (Blob.expenses l) => l
    | _ => []
  let monthlyExpenses := expenses.filter (fun exp => startsWith exp.date currentMonth)
  let wasteTotal := (monthlyExpenses.filter (fun exp => decide (exp.category = "Waste"))).foldl
    (fun sum exp => sum + exp.amount) 0
  let warningIssues : List String :=
    (if productivity < 5 / 10 then ["Productivity down (below 50% this week)"] else [])
      ++ (if wasteTotal > 5000 then ["Waste spending is high"] else [])
  let brokenIssues : List String :=
    (habits.filter (fun p => decide (p.2.streak = 0) && !(truthy p.2.history today))).map
      (fun p => p.1 ++ " streak is broken")
  let monthlyBudget := storedBudgetOrDefault store
  let wasteLimit := monthlyBudget * (2 / 10)
  let criticalIssues : List String :=
    brokenIssues ++ (if wasteTotal > wasteLimit then ["Waste exceeded limit"] else [])
  ⟨completedToday, totalProductive, totalScreen, productivity, wasteHours, wasteTotal,
    warningIssues, criticalIssues, wasteLimit⟩

/-- The line `const wasteLimit = budget * 0.2` of `updatePriorityWidget`. -/
def priorityWasteLimit (budget : ℚ) : ℚ := budget * (2 / 10)

/-- What `updateTruthSummaryCards` computes, with the waste limit that `updatePriorityWidget`
derives from the `budget` it is handed. -/
structure TruthSummary where
  totalMonthly : ℚ
  budget : ℚ
  leak : ℚ
  totalProductive : ℚ
  totalScreen : ℚ
  productivity : Int
  timeWasted : ℚ
  wasteLimit : ℚ

/-- The function `updateTruthSummaryCards()` for the clock reading `now`, the text
`currentMonth` of its month and `localStorage`. `Math.round(x)` is `floor (x + 1/2)`. -/
def updateTruthSummaryCards (now : Int) (currentMonth : String) (store : Store) :
    TruthSummary :=
  let expenses : List ExpenseRecord :=
    match getData store KEY_EXPENSES with
    | some (Blob.expenses l) => l
    | _ => []
  let timeLogs : TimeLogs :=
    match getData store KEY_TIME_LOGS with
    | some (Blob.timeLogs t) => t
    | _ => []
  let monthlyExpenses := expenses.filter (fun exp => startsWith exp.date currentMonth)
  let totalMonthly := monthlyExpenses.foldl (fun sum exp => sum + exp.amount) 0
  let budget := storedBudgetOrDefault store
  let leak := max 0 (totalMonthly - budget)
  let totals := weekTotals (weekLogs now timeLogs)
  let totalProductive := totals.1
  let totalScreen := totals.2
  let productivity : Int :=
    if totalScreen > 0 then Int.floor (totalProductive / totalScreen * 100 + 1 / 2) else 0
  let timeWasted := max 0 (totalScreen - totalProductive)
  ⟨totalMonthly, budget, leak, totalProductive, totalScreen, productivity, timeWasted,
    priorityWasteLimit budget⟩

/-! ## expenses.js: adding and deleting -/

/-- The function `addExpense(e)`. `amount` is `parseFloat` of the amount input (`none` for
`NaN`), `id` the identifier drawn for the new record, `filterMonth` the value of the month
input. The collection is saved before `renderExpenses` runs, so the store keeps the order of
insertion while the in-memory array is left as `renderExpenses` leaves it. -/
def addExpense (dateValue : String → Int) (filterMonth : String) (id : String)
    (amount : Option ℚ) (category note date : String) (st : AppState) : AppState :=
  match amount with
  | none => st
  | some a =>
    if a = 0 ∨ category = "" ∨ date = "" then st
    else
      let pushed := st.expenses ++ [⟨id, a, category, note, date⟩]
      ⟨(renderExpenses dateValue pushed st.monthlyBudget filterMonth).expenses,
        st.monthlyBudget, st.habits, st.timeLogs,
        saveData st.store KEY_EXPENSES (Blob.expenses pushed)⟩

/-- The function `deleteExpense(id)`. -/
def deleteExpense (dateValue : String → Int) (filterMonth : String) (id : String)
    (st : AppState) : AppState :=
  let kept := st.expenses.filter (fun exp => decide (exp.id ≠ id))
  ⟨(renderExpenses dateValue kept st.monthlyBudget filterMonth).expenses,
    st.monthlyBudget, st.habits, st.timeLogs,
    saveData st.store KEY_EXPENSES (Blob.expenses kept)⟩

/-- The function `clearSelectedMonth()`. -/
def clearSelectedMonth (dateValue : String → Int) (filterMonth : String) (st : AppState) :
    AppState :=
  if filterMonth = "" then st
  else
    let kept := st.expenses.filter (fun exp => !(startsWith exp.date filterMonth))
    ⟨(renderExpenses dateValue kept st.monthlyBudget filterMonth).expenses,
      st.monthlyBudget, st.habits, st.timeLogs,
      saveData st.store KEY_EXPENSES (Blob.expenses kept)⟩

/-- One user action on the expense collection, with the value of the month input at the time. -/
inductive ExpenseOp where
  | add (filterMonth id : String) (amount : Option ℚ) (category note date : String)
  | delete (filterMonth id : String)
  | clear (filterMonth : String)

/-- The effect of one action. -/
def applyExpenseOp (dateValue : String → Int) (st : AppState) : ExpenseOp → AppState
  | ExpenseOp.add filterMonth id amount category note date =>
      addExpense dateValue filterMonth id amount category note date st
  | ExpenseOp.delete filterMonth id => deleteExpense dateValue filterMonth id st
  | ExpenseOp.clear filterMonth => clearSelectedMonth dateValue filterMonth st

/-- The amount an action submits, if it is an `addExpense` with a numeric amount. -/
def ExpenseOp.submitted : ExpenseOp → Option ℚ
  | ExpenseOp.add _ _ amount _ _ _ => amount
  | _ => none

/-- Repeated calls of `renderExpenses`, one for each value the month input takes in turn; the
result is the in-memory array at the end. -/
def renderRepeatedly (dateValue : String → Int) (monthlyBudget : ℚ)
    (expenses : List ExpenseRecord) (filterMonths : List String) : List ExpenseRecord :=
  filterMonths.foldl
    (fun current filterMonth =>
      (renderExpenses dateValue current monthlyBudget filterMonth).expenses)
    expenses

/-! ## time.js: logging and the state panel -/

/-- The function `logTime(e)`; `date` is the value of the date input (`none` when empty),
`screen` and `productive` are `parseFloat` of the two hour inputs (`none` for `NaN`). -/
def logTime (date : Option Int) (screen productive : Option ℚ) (st : AppState) : AppState :=
  match date, screen, productive with
  | some d, some s, some p =>
    ⟨st.expenses, st.monthlyBudget, st.habits, objSet st.timeLogs d ⟨s, p⟩,
      saveData st.store KEY_TIME_LOGS (Blob.timeLogs (objSet st.timeLogs d ⟨s, p⟩))⟩
  | _, _, _ => st

/-- The state container a panel shows. -/
inductive Panel where
  | empty
  | critical
  | warning
  | normal
  deriving DecidableEq, Repr

/-- What `updateTimeStates` computes. `productivity` is its `productivityRatio`, which exists
only when a log exists. -/
structure TimeStates where
  hasTimeLogs : Bool
  productivity : Option ℚ
  warningIssues : List String
  criticalIssues : List String
  shown : Panel

/-- The function `updateTimeStates(totalScreen, totalProductive, wastedHours, daysLogged)` for
the in-memory `timeLogs`; the fourth argument is not used by the code. -/
def updateTimeStates (timeLogs : TimeLogs) (totalScreen totalProductive wastedHours : ℚ) :
    TimeStates :=
  let hasTimeLogs : Bool := decide ((objKeys timeLogs).length > 0)
  let productivityValue : ℚ := if totalScreen > 0 then totalProductive / totalScreen else 1
  let warningIssues : List String :=
    if hasTimeLogs then
      (if wastedHours > 10 then ["You wasted hours this week"] else [])
        ++ (if productivityValue < 5 / 10 ∧ totalScreen > 5 then ["Productivity is below 50%"]
            else [])
    else []
  let criticalIssues : List String :=
    if hasTimeLogs then
      (if wastedHours > 20 then ["You wasted hours this week, per day"] else [])
        ++ (if productivityValue < 25 / 100 ∧ totalScreen > 10 then
              ["Productivity is critically low"]
            else [])
    else []
  let shown : Panel :=
    if hasTimeLogs = false then Panel.empty
    else if criticalIssues.length > 0 then Panel.critical
    else if warningIssues.length > 0 then Panel.warning
    else Panel.normal
  ⟨hasTimeLogs, if hasTimeLogs then some productivityValue else none, warningIssues,
    criticalIssues, shown⟩

/-- The last line of `renderTimeSummary`: `updateTimeStates` on the totals just computed. -/
def renderTimeStates (now : Int) (timeLogs : TimeLogs) : TimeStates :=
  updateTimeStates timeLogs (renderTimeSummary now timeLogs).totalScreen
    (renderTimeSummary now timeLogs).totalProductive
    (renderTimeSummary now timeLogs).wastedHours

/-! ## app.js: best streak and the priority widget -/

/-- The property read `habit[name]` of a number-valued field of a habit state: the object has
the fields `history`, `streak` and `longest` and no other, so any other name reads
`undefined` (`none`). -/
def habitNumField (habit : HabitState) (name : String) : Option Nat :=
  if name = "streak" then some habit.streak
  else if name = "longest" then some habit.longest
  else none

/-- The loop of `updateTruthSummaryCards` that computes `bestStreak`, with
`habit.currentStreak || 0` read from each habit. -/
def bestStreak (habits : Habits) : Nat :=
  habits.foldl
    (fun best p =>
      let currentStreak := (habitNumField p.2 "currentStreak").getD 0
      if currentStreak > best then currentStreak else best)
    0

/-- The expression `getData(STORAGE_KEYS.HABITS) || {}`. -/
def storedHabits (store : Store) : Habits :=
  match getData store KEY_HABITS with
  | some (Blob.habits h) => h
  | _ => []

/-- The expression `getData(STORAGE_KEYS.EXPENSES) || []`. -/
def storedExpenses (store : Store) : List ExpenseRecord :=
  match getData store KEY_EXPENSES with
  | some (Blob.expenses l) => l
  | _ => []

/-- One entry `{ priority, icon, text }` of the priority widget. The numbers the code formats
into some texts are left out of `text`. -/
structure Issue where
  priority : Nat
  icon : String
  text : String
  deriving DecidableEq, Repr

/-- The issue pushed when no habit is completed today. -/
def noHabitIssue : Issue := ⟨1, "🔴", "No habits completed yet today"⟩

/-- The issue pushed when waste spending is over the limit. -/
def wasteIssue : Issue := ⟨1, "💸", "Reduce waste spending"⟩

/-- The issue pushed when productivity is low. -/
def productivityIssue : Issue := ⟨2, "⚡", "Improve productivity"⟩

/-- The issue pushed when much time was wasted. -/
def timeWastedIssue : Issue := ⟨2, "⏳", "You wasted hours this week"⟩

/-- The issue pushed when some streak is broken; `names` are the capitalised habit keys. -/
def brokenStreakIssue (names : List String) : Issue :=
  ⟨1, "🔥", "Rebuild streak: " ++ ", ".intercalate names⟩

/-- The issue pushed when nothing else was. -/
def fallbackIssue : Issue := ⟨3, "✨", "You\x27re doing great! Keep it up!"⟩

/-- The array `brokenStreaks` of `updatePriorityWidget`. -/
def brokenStreaks (habits : Habits) : List String :=
  (habits.filter (fun p => decide (p.2.streak = 0) && decide (p.2.longest > 0))).map
    (fun p => p.1.capitalize)

/-- The waste total `updatePriorityWidget` computes for the current month. -/
def priorityWasteTotal (currentMonth : String) (expenses : List ExpenseRecord) : ℚ :=
  ((expenses.filter (fun exp => startsWith exp.date currentMonth)).filter
    (fun exp => decide (exp.category = "Waste"))).foldl (fun sum exp => sum + exp.amount) 0

/-- The array `issues` of `updatePriorityWidget` after its five checks, in the order of the
pushes, before the fallback, the sort and the cut. -/
def collectIssues (today : Int) (currentMonth : String) (expenses : List ExpenseRecord)
    (habits : Habits) (budget : ℚ) (productivity : Int) (timeWasted : ℚ) : List Issue :=
  let completedHabitsToday := (habits.filter (fun p => truthy p.2.history today)).length
  let totalHabits := (objKeys habits).length
  let wasteTotal := priorityWasteTotal currentMonth expenses
  let wasteLimit := priorityWasteLimit budget
  (if completedHabitsToday = 0 ∧ totalHabits > 0 then [noHabitIssue] else [])
    ++ (if wasteTotal > wasteLimit then [wasteIssue] else [])
    ++ (if productivity < 40 then [productivityIssue] else [])
    ++ (if timeWasted > 5 then [timeWastedIssue] else [])
    ++ (if (brokenStreaks habits).length > 0 then [brokenStreakIssue (brokenStreaks habits)]
        else [])

/-- The function `updatePriorityWidget(expenses, habits, budget, productivity, timeWasted)`:
the list `topIssues` it renders. -/
def updatePriorityWidget (today : Int) (currentMonth : String) (expenses : List ExpenseRecord)
    (habits : Habits) (budget : ℚ) (productivity : Int) (timeWasted : ℚ) : List Issue :=
  let collected := collectIssues today currentMonth expenses habits budget productivity
    timeWasted
  let issues := if collected.length = 0 then [fallbackIssue] else collected
  (issues.insertionSort (fun a b => a.priority ≤ b.priority)).take 3

/-- The call of `updatePriorityWidget` at the end of `updateTruthSummaryCards`. -/
def priorityWidgetOfCards (now : Int) (currentMonth : String) (store : Store) : List Issue :=
  updatePriorityWidget (todayOf now) currentMonth (storedExpenses store) (storedHabits store)
    (updateTruthSummaryCards now currentMonth store).budget
    (updateTruthSummaryCards now currentMonth store).productivity
    (updateTruthSummaryCards now currentMonth store).timeWasted

/-- A stand-in for the time value of `new Date(s)` in examples: the number spelled by the
digits of `s`, which orders well-formed dates `YYYY-MM-DD` as the calendar does. -/
def dateDigits (s : String) : Int :=
  (s.toList.filter Char.isDigit).foldl (fun n c => 10 * n + ((c.toNat : Int) - 48)) 0

/-- The issues of tier 1 in a list of issues, in the order of the list. -/
def tierOnes (issues : List Issue) : List Issue :=
  issues.filter (fun i => decide (i.priority = 1))

/-- The issues of tier 2 in a list of issues, in the order of the list. -/
def tierTwos (issues : List Issue) : List Issue :=
  issues.filter (fun i => decide (i.priority = 2))

/-! ## habits.js: the backward walk in a time zone -/

/-- The time zone of the browser as far as `Date` uses it, on time values in milliseconds:
`toLocal t` is the local time value of the instant `t`, and `fromLocal l` is the instant that
has the local time value `l`. -/
structure Zone where
  toLocal : Int → Int
  fromLocal : Int → Int

/-- A time zone with the constant UTC offset `offset` (in milliseconds). -/
def Zone.fixed (offset : Int) : Zone :=
  ⟨fun t => t + offset, fun l => l - offset⟩

/-- The zone America/New_York around 2024-03-10: UTC-5 before the instant 2024-03-10T07:00Z
(local 02:00, which becomes 03:00), UTC-4 from then on. A local time before 03:00 of that day
is read with the offset UTC-5, a later one with UTC-4. -/
def newYorkMarch2024 : Zone :=
  ⟨fun t => if t < 1710054000000 then t - 18000000 else t - 14400000,
   fun l => if l < 1710039600000 then l + 18000000 else l + 14400000⟩

/-- The statement `checkDate.setDate(checkDate.getDate() - 1)`: the same local time of day on
the previous local date. -/
def previousLocalDay (zone : Zone) (checkDate : Int) : Int :=
  zone.fromLocal (zone.toLocal checkDate - MS_PER_DAY)

/-- The loop `while (true) { ... }` of `calculateStreaks` in the time zone `zone`, on the time
value `checkDate`: `checkStr` is the UTC date of `checkDate`, and a turn that continues moves
`checkDate` back one local day. `none` means that `fuel` turns were not enough. -/
def walkBackZoned (zone : Zone) (history : History) : Nat → Int → Nat → Option Nat
  | 0, _, _ => none
  | fuel + 1, checkDate, current =>
    if truthy history (todayOf checkDate) = true then
      walkBackZoned zone history fuel (previousLocalDay zone checkDate) (current + 1)
    else
      some current

/-- The function `calculateStreaks(history)` in the time zone `zone` at the clock reading
`now`; `none` means that `fuel` turns of the backward walk were not enough. -/
def calculateStreaksZoned (zone : Zone) (fuel : Nat) (now : Int) (history : History) :
    Option Streaks :=
  let dates := (objKeys history).insertionSort (fun a b => b ≤ a)
  if dates.length = 0 then some ⟨0, 0⟩
  else
    let sortedDatesAsc := dates.insertionSort (fun a b => a ≤ b)
    let s := sortedDatesAsc.foldl (scanStep history) ⟨0, 0, none⟩
    match walkBackZoned zone history fuel now 0 with
    | some current => some ⟨current, s.longest⟩
    | none => none

/-! ## expenses.js: the page and its events -/

/-- The expense part of the page: the value of the month input and the module state. -/
structure ExpensePage where
  filterMonth : String
  app : AppState

/-- The events that run code of `expenses.js`. The month input changes only through its
`change` listener. -/
inductive ExpenseEvent where
  | changeFilter (filterMonth : String)
  | add (id : String) (amount : Option ℚ) (category note date : String)
  | delete (id : String)
  | clearMonth
  | setBudget (newBudget : Option ℚ)

/-- The page after loading: the module initialisers, then the `renderExpenses()` of the
`DOMContentLoaded` handler, with `filterAtLoad` in the month input. -/
def pageLoad (dateValue : String → Int) (store : Store) (filterAtLoad : String) :
    ExpensePage :=
  ⟨filterAtLoad,
    ⟨(renderExpenses dateValue (loadApp store).expenses (loadApp store).monthlyBudget
        filterAtLoad).expenses,
      (loadApp store).monthlyBudget, (loadApp store).habits, (loadApp store).timeLogs, store⟩⟩

/-- The effect of one event on the page. The `change` listener of the month input is
`renderExpenses`; `setBudget` calls `renderExpenses()` when it accepts the value. -/
def pageStep (dateValue : String → Int) (pg : ExpensePage) : ExpenseEvent → ExpensePage
  | ExpenseEvent.changeFilter filterMonth =>
    ⟨filterMonth,
      ⟨(renderExpenses dateValue pg.app.expenses pg.app.monthlyBudget filterMonth).expenses,
        pg.app.monthlyBudget, pg.app.habits, pg.app.timeLogs, pg.app.store⟩⟩
  | ExpenseEvent.add id amount category note date =>
    ⟨pg.filterMonth, addExpense dateValue pg.filterMonth id amount category note date pg.app⟩
  | ExpenseEvent.delete id =>
    ⟨pg.filterMonth, deleteExpense dateValue pg.filterMonth id pg.app⟩
  | ExpenseEvent.clearMonth =>
    ⟨pg.filterMonth, clearSelectedMonth dateValue pg.filterMonth pg.app⟩
  | ExpenseEvent.setBudget newBudget =>
    match newBudget with
    | some b =>
      if b > 0 then
        ⟨pg.filterMonth,
          ⟨(renderExpenses dateValue pg.app.expenses b pg.filterMonth).expenses,
            b, pg.app.habits, pg.app.timeLogs,
            (setBudget (some b) pg.app).store⟩⟩
      else pg
    | none => pg

/-- The pages reached from loading the page on the store `store` by any number of events. -/
inductive PageReachable (dateValue : String → Int) (store : Store) (filterAtLoad : String) :
    ExpensePage → Prop where
  | load : PageReachable dateValue store filterAtLoad (pageLoad dateValue store filterAtLoad)
  | step (pg : ExpensePage) (ev : ExpenseEvent) :
      PageReachable dateValue store filterAtLoad pg →
      PageReachable dateValue store filterAtLoad (pageStep dateValue pg ev)

/-- The in-memory list is in display order whenever no month filter is set. -/
def DisplayOrdered (dateValue : String → Int) (pg : ExpensePage) : Prop :=
  pg.filterMonth = "" →
    pg.app.expenses.Sorted (fun a b => dateValue b.date ≤ dateValue a.date)

/-! ## Notions used to state the streak properties -/

/-- The `n` consecutive calendar days `start, start+1, ..., start+(n-1)` are all present in
`history` with value `true`. -/
def TrueBlock (history : History) (start : Int) (n : Nat) : Prop :=
  ∀ i : Nat, i < n → objGet history (start + i) = some true

/-- The `n` days `today, today-1, ..., today-(n-1)` are all present in `history` with a truthy
value. -/
def TrueBack (history : History) (today : Int) (n : Nat) : Prop :=
  ∀ i : Nat, i < n → objGet history (today - i) = some true

/-- The number of turns of the backward walk started at day `d`. -/
def runLen (history : History) (d : Int) : Nat := walkBack history d 0

/-- What the forward pass has established after the dates before `rest`: the run length at the
last date seen, that the dates still to come are later, and that every truthy date is either
not after the last date seen or still to come. -/
def ScanInv (history : History) (s : ScanState) (rest : List Int) : Prop :=
  (∀ d, s.lastDate = some d → s.tempStreak = runLen history d ∧ ∀ x ∈ rest, d < x) ∧
  (∀ x, truthy history x = true → (∃ d, s.lastDate = some d ∧ x ≤ d) ∨ x ∈ rest)

/-- Every cached pair `streak`, `longest` is what `calculateStreaks` gives for the history
next to it. -/
def CacheOK (today : Int) (habits : Habits) : Prop :=
  ∀ k habit, (k, habit) ∈ habits →
    habit.streak = (calculateStreaks today habit.history).current ∧
    habit.longest = (calculateStreaks today habit.history).longest

/-- The states of `habits` during one page session on the day `today`: the stored object after
the recomputation on load, then any number of `toggleHabit` calls that return. -/
inductive Reachable (today : Int) (stored : Habits) : Habits → Prop where
  | load : Reachable today stored (recomputeOnLoad today stored)
  | toggle (k : String) (habits habits' : Habits) :
      Reachable today stored habits → toggleHabit today k habits = some habits' →
      Reachable today stored habits'

/-! ## Lemmas on objects -/

theorem objGet_objSet {κ α : Type} [DecidableEq κ] (obj : Obj κ α) (k k' : κ) (v : α) :
    objGet (objSet obj k v) k' = if k = k' then some v else objGet obj k' := by
  induction obj with
  | nil => simp [objSet, objGet]
  | cons p rest ih =>
    obtain ⟨a, w⟩ := p
    by_cases h : a = k
    · subst h
      by_cases h2 : a = k' <;> simp [objSet, objGet, h2]
    · by_cases h2 : a = k'
      · subst h2
        simp [objSet, objGet, h, Ne.symm h]
      · simp [objSet, objGet, h, h2, ih]

theorem objKeys_objSet_subset {κ α : Type} [DecidableEq κ] (obj : Obj κ α) (k : κ) (v : α) :
    ∀ x ∈ objKeys obj, x ∈ objKeys (objSet obj k v) := by
  induction obj with
  | nil => intro x hx; simp [objKeys] at hx
  | cons p rest ih =>
    obtain ⟨a, w⟩ := p
    intro x hx
    by_cases h : a = k
    · simpa [objSet, objKeys, h] using hx
    · simp only [objSet, h, if_false, objKeys, List.map_cons, List.mem_cons] at hx ⊢
      rcases hx with hx | hx
      · exact Or.inl hx
      · exact Or.inr (ih x hx)

theorem mem_objKeys_objSet {κ α : Type} [DecidableEq κ] (obj : Obj κ α) (k : κ) (v : α) :
    ∀ x ∈ objKeys (objSet obj k v), x = k ∨ x ∈ objKeys obj := by
  induction obj with
  | nil => intro x hx; simpa [objKeys, objSet] using hx
  | cons p rest ih =>
    obtain ⟨a, w⟩ := p
    intro x hx
    by_cases h : a = k
    · right; simpa [objSet, objKeys, h] using hx
    · simp only [objSet, h, if_false, objKeys, List.map_cons, List.mem_cons] at hx ⊢
      rcases hx with hx | hx
      · exact Or.inr (Or.inl hx)
      · rcases ih x hx with h1 | h1
        · exact Or.inl h1
        · exact Or.inr (Or.inr h1)

theorem objWF_objSet {κ α : Type} [DecidableEq κ] (obj : Obj κ α) (k : κ) (v : α)
    (h : ObjWF obj) : ObjWF (objSet obj k v) := by
  induction obj with
  | nil => simp [ObjWF, objKeys, objSet]
  | cons p rest ih =>
    obtain ⟨a, w⟩ := p
    by_cases hk : a = k
    · simpa [objSet, hk, ObjWF, objKeys] using h
    · have h' : a ∉ objKeys rest ∧ ObjWF rest := by
        simpa [ObjWF, objKeys] using h
      have h3 : a ∉ objKeys (objSet rest k v) := by
        intro hmem
        rcases mem_objKeys_objSet rest k v a hmem with h4 | h4
        · exact hk h4
        · exact h'.1 h4
      have h5 := ih h'.2
      simp only [objSet, hk, if_false, ObjWF, objKeys, List.map_cons, List.nodup_cons]
      exact ⟨h3, h5⟩

theorem mem_objKeys_of_objGet {κ α : Type} [DecidableEq κ] (obj : Obj κ α) (k : κ) (v : α)
    (h : objGet obj k = some v) : k ∈ objKeys obj := by
  induction obj with
  | nil => simp [objGet] at h
  | cons p rest ih =>
    obtain ⟨a, w⟩ := p
    by_cases hk : a = k
    · simp [objKeys, hk]
    · simp only [objGet, hk, if_false] at h
      simp only [objKeys, List.map_cons, List.mem_cons]
      exact Or.inr (ih h)

theorem mem_objKeys_of_truthy (history : History) (d : Int) (h : truthy history d = true) :
    d ∈ objKeys history := by
  unfold truthy at h
  cases hg : objGet history d with
  | none => simp [hg] at h
  | some v => exact mem_objKeys_of_objGet history d v hg

/-! ## The backward walk -/

theorem walkBack_of_truthy (history : History) (d : Int) (c : Nat)
    (h : truthy history d = true) :
    walkBack history d c = walkBack history (d - 1) (c + 1) := by
  rw [walkBack]; simp [h]

theorem walkBack_of_not_truthy (history : History) (d : Int) (c : Nat)
    (h : truthy history d = false) : walkBack history d c = c := by
  rw [walkBack]; simp [h]

/-- The walk started at `d` with counter `c` stops with `c + n`, where the `n` days
`d, d-1, ..., d-(n-1)` are truthy and the day `d-n` is not. -/
theorem walkBack_spec (history : History) (d : Int) (c : Nat) :
    ∃ n : Nat, walkBack history d c = c + n ∧
      (∀ i : Nat, i < n → truthy history (d - i) = true) ∧
      truthy history (d - n) = false := by
  induction d, c using walkBack.induct history with
  | case1 d c h ih =>
    obtain ⟨n, h1, h2, h3⟩ := ih
    refine ⟨n + 1, ?_, ?_, ?_⟩
    · rw [walkBack_of_truthy history d c h, h1]; omega
    · intro i hi
      cases i with
      | zero => simpa using h
      | succ j =>
        have := h2 j (by omega)
        have e : d - ((j + 1 : Nat) : Int) = d - 1 - (j : Int) := by push_cast; ring
        rw [e]; exact this
    · have e : d - ((n + 1 : Nat) : Int) = d - 1 - (n : Int) := by push_cast; ring
      rw [e]; exact h3
  | case2 d c h =>
    refine ⟨0, ?_, ?_, ?_⟩
    · rw [walkBack_of_not_truthy history d c (by simpa using h)]; rfl
    · intro i hi; omega
    · simpa using h

theorem truthy_iff (history : History) (d : Int) :
    truthy history d = true ↔ objGet history d = some true := by
  unfold truthy
  cases objGet history d with
  | none => simp
  | some v => simp

theorem trueBack_runLen (history : History) (d : Int) :
    TrueBack history d (runLen history d) := by
  obtain ⟨n, h1, h2, _⟩ := walkBack_spec history d 0
  have e : runLen history d = n := by unfold runLen; omega
  intro i hi
  rw [e] at hi
  exact (truthy_iff history _).1 (h2 i hi)

theorem not_truthy_sub_runLen (history : History) (d : Int) :
    truthy history (d - (runLen history d : Nat)) = false := by
  obtain ⟨n, h1, _, h3⟩ := walkBack_spec history d 0
  have e : runLen history d = n := by unfold runLen; omega
  rw [e]; exact h3

theorem le_runLen (history : History) (d : Int) (n : Nat) (h : TrueBack history d n) :
    n ≤ runLen history d := by
  by_contra hlt
  have h1 := h (runLen history d) (by omega)
  have h2 := not_truthy_sub_runLen history d
  rw [(truthy_iff history _).2 h1] at h2
  exact Bool.noConfusion h2

theorem runLen_unique (history : History) (d : Int) (n : Nat) (h : TrueBack history d n)
    (hn : truthy history (d - (n : Nat)) = false) : runLen history d = n := by
  apply le_antisymm
  · by_contra hlt
    have h1 := trueBack_runLen history d n (by omega)
    rw [(truthy_iff history _).2 h1] at hn
    exact Bool.noConfusion hn
  · exact le_runLen history d n h

theorem runLen_of_not_truthy (history : History) (d : Int) (h : truthy history d = false) :
    runLen history d = 0 :=
  runLen_unique history d 0 (fun i hi => absurd hi (Nat.not_lt_zero i)) (by simpa using h)

theorem runLen_of_truthy (history : History) (d : Int) (h : truthy history d = true) :
    runLen history d = runLen history (d - 1) + 1 := by
  apply runLen_unique
  · intro i hi
    cases i with
    | zero => simpa using (truthy_iff history d).1 h
    | succ j =>
      have := trueBack_runLen history (d - 1) j (by omega)
      have e : d - ((j + 1 : Nat) : Int) = d - 1 - (j : Int) := by push_cast; ring
      rw [e]; exact this
  · have := not_truthy_sub_runLen history (d - 1)
    have e : d - ((runLen history (d - 1) + 1 : Nat) : Int)
        = d - 1 - (runLen history (d - 1) : Int) := by push_cast; ring
    rw [e]; exact this

theorem walkBack_eq (history : History) (d : Int) (c : Nat) :
    walkBack history d c = c + runLen history d := by
  obtain ⟨n, h1, h2, h3⟩ := walkBack_spec history d c
  have : runLen history d = n :=
    runLen_unique history d n (fun i hi => (truthy_iff history _).1 (h2 i hi)) h3
  omega

theorem truthy_of_runLen_pos (history : History) (d : Int) (h : 0 < runLen history d) :
    truthy history d = true := by
  have := trueBack_runLen history d 0 h
  exact (truthy_iff history d).2 (by simpa using this)

/-! ## The forward pass -/

theorem scanStep_lastDate (history : History) (s : ScanState) (e : Int) :
    (scanStep history s e).lastDate = some e := by
  unfold scanStep
  split <;> rfl

theorem scanStep_of_not_truthy (history : History) (s : ScanState) (e : Int)
    (h : truthy history e = false) :
    (scanStep history s e).tempStreak = 0 ∧ (scanStep history s e).longest = s.longest := by
  unfold scanStep
  simp [h]

theorem scanStep_longest_of_truthy (history : History) (s : ScanState) (e : Int)
    (h : truthy history e = true) :
    (scanStep history s e).longest = max s.longest (scanStep history s e).tempStreak := by
  unfold scanStep
  simp only [h, Bool.true_eq_false, if_false]
  split
  · rename_i hgt; exact (max_eq_right (le_of_lt hgt)).symm
  · rename_i hgt; exact (max_eq_left (not_lt.1 hgt)).symm

/-- One step of the forward pass keeps the invariant: the run counter is the run length at the
date just processed. -/
theorem scanStep_tempStreak (history : History) (s : ScanState) (e : Int) (rest : List Int)
    (hs : (e :: rest).Sorted (· < ·)) (hinv : ScanInv history s (e :: rest)) :
    (scanStep history s e).tempStreak = runLen history e := by
  obtain ⟨h1, h2⟩ := hinv
  have hrest : ∀ x ∈ rest, e < x := fun x hx => List.rel_of_sorted_cons hs x hx
  cases ht : truthy history e with
  | false =>
    rw [(scanStep_of_not_truthy history s e ht).1, runLen_of_not_truthy history e ht]
  | true =>
    rw [runLen_of_truthy history e ht]
    unfold scanStep
    simp only [ht, Bool.true_eq_false, if_false]
    cases hl : s.lastDate with
    | none =>
      have hp : truthy history (e - 1) = false := by
        cases hq : truthy history (e - 1) with
        | false => rfl
        | true =>
          exfalso
          rcases h2 (e - 1) hq with ⟨d, hd, _⟩ | hmem
          · rw [hl] at hd; exact Option.noConfusion hd
          · rcases List.mem_cons.1 hmem with h3 | h3
            · omega
            · have := hrest _ h3; omega
      simp [runLen_of_not_truthy history (e - 1) hp]
    | some d =>
      obtain ⟨h4, h5⟩ := h1 d hl
      have hde : d < e := h5 e (List.mem_cons_self e rest)
      by_cases hdiff : e - d = 1
      · have : e - 1 = d := by omega
        simp [hdiff, this, h4]
      · have hp : truthy history (e - 1) = false := by
          cases hq : truthy history (e - 1) with
          | false => rfl
          | true =>
            exfalso
            rcases h2 (e - 1) hq with ⟨d', hd, hle⟩ | hmem
            · rw [hl] at hd
              have : d = d' := Option.some.inj hd
              omega
            · rcases List.mem_cons.1 hmem with h3 | h3
              · omega
              · have := hrest _ h3; omega
        simp [hdiff, runLen_of_not_truthy history (e - 1) hp]

theorem scanStep_inv (history : History) (s : ScanState) (e : Int) (rest : List Int)
    (hs : (e :: rest).Sorted (· < ·)) (hinv : ScanInv history s (e :: rest)) :
    ScanInv history (scanStep history s e) rest := by
  have htemp := scanStep_tempStreak history s e rest hs hinv
  obtain ⟨h1, h2⟩ := hinv
  have hrest : ∀ x ∈ rest, e < x := fun x hx => List.rel_of_sorted_cons hs x hx
  refine ⟨?_, ?_⟩
  · intro d hd
    rw [scanStep_lastDate] at hd
    have : e = d := Option.some.inj hd
    subst this
    exact ⟨htemp, hrest⟩
  · intro x hx
    rcases h2 x hx with ⟨d, hd, hle⟩ | hmem
    · left
      refine ⟨e, scanStep_lastDate history s e, ?_⟩
      have := (h1 d hd).2 e (List.mem_cons_self e rest)
      omega
    · rcases List.mem_cons.1 hmem with h3 | h3
      · left; exact ⟨e, scanStep_lastDate history s e, le_of_eq h3⟩
      · right; exact h3

theorem scanStep_longest (history : History) (s : ScanState) (e : Int) (rest : List Int)
    (hs : (e :: rest).Sorted (· < ·)) (hinv : ScanInv history s (e :: rest)) :
    (scanStep history s e).longest = max s.longest (runLen history e) := by
  have htemp := scanStep_tempStreak history s e rest hs hinv
  cases ht : truthy history e with
  | false =>
    rw [(scanStep_of_not_truthy history s e ht).2, runLen_of_not_truthy history e ht]
    simp
  | true =>
    rw [scanStep_longest_of_truthy history s e ht, htemp]

/-- The forward pass over a strictly increasing list of dates ends with the largest of the
starting value and the run lengths at the dates of the list. -/
theorem scan_longest (history : History) (rest : List Int) :
    ∀ s : ScanState, rest.Sorted (· < ·) → ScanInv history s rest →
      s.longest ≤ (rest.foldl (scanStep history) s).longest ∧
      (∀ d ∈ rest, runLen history d ≤ (rest.foldl (scanStep history) s).longest) ∧
      ((rest.foldl (scanStep history) s).longest = s.longest ∨
        ∃ d ∈ rest, (rest.foldl (scanStep history) s).longest = runLen history d) := by
  induction rest with
  | nil =>
    intro s _ _
    exact ⟨le_refl _, fun d hd => absurd hd (List.not_mem_nil d), Or.inl rfl⟩
  | cons e rest ih =>
    intro s hs hinv
    have hstep := scanStep_longest history s e rest hs hinv
    have hinv' := scanStep_inv history s e rest hs hinv
    obtain ⟨a1, a2, a3⟩ := ih (scanStep history s e) (List.Sorted.of_cons hs) hinv'
    simp only [List.foldl_cons]
    rw [hstep] at a1 a3
    refine ⟨le_trans (le_max_left _ _) a1, ?_, ?_⟩
    · intro d hd
      rcases List.mem_cons.1 hd with h | h
      · subst h; exact le_trans (le_max_right _ _) a1
      · exact a2 d h
    · rcases a3 with h | ⟨d, hd, h⟩
      · rcases le_total s.longest (runLen history e) with hle | hle
        · right
          exact ⟨e, List.mem_cons_self e rest, by rw [h, max_eq_right hle]⟩
        · left
          rw [h, max_eq_left hle]
      · right
        exact ⟨d, List.mem_cons_of_mem e hd, h⟩

/-! ## calculateStreaks -/

theorem runLen_nil (d : Int) : runLen [] d = 0 :=
  runLen_of_not_truthy [] d rfl

theorem calculateStreaks_nil (today : Int) : calculateStreaks today [] = ⟨0, 0⟩ := by
  simp [calculateStreaks, objKeys]

theorem calculateStreaks_current (today : Int) (history : History) :
    (calculateStreaks today history).current = runLen history today := by
  cases history with
  | nil => rw [calculateStreaks_nil, runLen_nil]
  | cons p rest =>
    have hlen : ¬ ((objKeys (p :: rest)).insertionSort (fun a b => b ≤ a)).length = 0 := by
      rw [(List.perm_insertionSort _ _).length_eq]
      simp [objKeys]
    unfold calculateStreaks
    simp only [hlen, if_false]
    rfl

theorem sortedDatesAsc_sorted (history : History) (hwf : ObjWF history) :
    (((objKeys history).insertionSort (fun a b => b ≤ a)).insertionSort
      (fun a b => a ≤ b)).Sorted (· < ·) := by
  apply List.Sorted.lt_of_le
  · exact List.sorted_insertionSort (fun a b : Int => a ≤ b) _
  · have h1 := List.perm_insertionSort (fun a b : Int => a ≤ b)
      ((objKeys history).insertionSort (fun a b => b ≤ a))
    have h2 := List.perm_insertionSort (fun a b : Int => b ≤ a) (objKeys history)
    exact ((h1.trans h2).nodup_iff).2 hwf

theorem mem_sortedDatesAsc (history : History) (x : Int) :
    x ∈ ((objKeys history).insertionSort (fun a b => b ≤ a)).insertionSort (fun a b => a ≤ b)
      ↔ x ∈ objKeys history := by
  rw [List.mem_insertionSort, List.mem_insertionSort]

/-- The `longest` of `calculateStreaks` is the largest run length over all days. -/
theorem calculateStreaks_longest (today : Int) (history : History) (hwf : ObjWF history) :
    (∀ d, runLen history d ≤ (calculateStreaks today history).longest) ∧
    (∃ d, (calculateStreaks today history).longest = runLen history d) := by
  cases history with
  | nil =>
    rw [calculateStreaks_nil]
    exact ⟨fun d => le_of_eq (runLen_nil d), 0, (runLen_nil 0).symm⟩
  | cons p rest =>
    have hlen : ¬ ((objKeys (p :: rest)).insertionSort (fun a b => b ≤ a)).length = 0 := by
      rw [(List.perm_insertionSort _ _).length_eq]
      simp [objKeys]
    have hinv : ScanInv (p :: rest) ⟨0, 0, none⟩
        (((objKeys (p :: rest)).insertionSort (fun a b => b ≤ a)).insertionSort
          (fun a b => a ≤ b)) := by
      refine ⟨?_, ?_⟩
      · intro d hd; exact Option.noConfusion hd
      · intro x hx
        right
        exact (mem_sortedDatesAsc (p :: rest) x).2 (mem_objKeys_of_truthy _ x hx)
    obtain ⟨_, a2, a3⟩ := scan_longest (p :: rest) _ ⟨0, 0, none⟩
      (sortedDatesAsc_sorted (p :: rest) hwf) hinv
    have hL : (calculateStreaks today (p :: rest)).longest
        = ((((objKeys (p :: rest)).insertionSort (fun a b => b ≤ a)).insertionSort
            (fun a b => a ≤ b)).foldl (scanStep (p :: rest)) ⟨0, 0, none⟩).longest := by
      unfold calculateStreaks
      simp only [hlen, if_false]
    rw [hL]
    refine ⟨?_, ?_⟩
    · intro d
      rcases Nat.eq_zero_or_pos (runLen (p :: rest) d) with h0 | hpos
      · rw [h0]; exact Nat.zero_le _
      · have ht := truthy_of_runLen_pos _ d hpos
        exact a2 d ((mem_sortedDatesAsc (p :: rest) d).2 (mem_objKeys_of_truthy _ d ht))
    · rcases a3 with h | ⟨d, _, h⟩
      · refine ⟨0 - (runLen (p :: rest) 0 : Nat), ?_⟩
        rw [h, runLen_of_not_truthy _ _ (not_truthy_sub_runLen (p :: rest) 0)]
      · exact ⟨d, h⟩

theorem runLen_congr (h1 h2 : History) (heq : ∀ d, truthy h1 d = truthy h2 d) (d : Int) :
    runLen h1 d = runLen h2 d := by
  apply runLen_unique
  · intro i hi
    have := trueBack_runLen h2 d i hi
    rw [← truthy_iff] at this ⊢
    rw [heq]; exact this
  · rw [heq]; exact not_truthy_sub_runLen h2 d

/-- On well-formed histories `calculateStreaks` depends only on which days are truthy. -/
theorem calculateStreaks_congr (today : Int) (h1 h2 : History) (wf1 : ObjWF h1)
    (wf2 : ObjWF h2) (heq : ∀ d, truthy h1 d = truthy h2 d) :
    calculateStreaks today h1 = calculateStreaks today h2 := by
  have hc : (calculateStreaks today h1).current = (calculateStreaks today h2).current := by
    rw [calculateStreaks_current, calculateStreaks_current, runLen_congr h1 h2 heq]
  have hl : (calculateStreaks today h1).longest = (calculateStreaks today h2).longest := by
    obtain ⟨a1, d1, b1⟩ := calculateStreaks_longest today h1 wf1
    obtain ⟨a2, d2, b2⟩ := calculateStreaks_longest today h2 wf2
    apply le_antisymm
    · rw [b1, runLen_congr h1 h2 heq]; exact a2 d1
    · rw [b2, ← runLen_congr h1 h2 heq]; exact a1 d2
  cases hx : calculateStreaks today h1 with
  | mk c1 l1 =>
    cases hy : calculateStreaks today h2 with
    | mk c2 l2 =>
      rw [hx, hy] at hc hl
      simp only at hc hl
      rw [hc, hl]

theorem trueBack_length_le (history : History) (today : Int) (n : Nat)
    (h : TrueBack history today n) : n ≤ history.length := by
  have hsub : (Finset.range n).image (fun i : Nat => today - (i : Int))
      ⊆ (objKeys history).toFinset := by
    intro x hx
    obtain ⟨i, hi, rfl⟩ := Finset.mem_image.1 hx
    rw [List.mem_toFinset]
    exact mem_objKeys_of_objGet history _ true (h i (Finset.mem_range.1 hi))
  have hinj : Function.Injective (fun i : Nat => today - (i : Int)) := by
    intro a b hab
    simp only at hab
    omega
  have hcard := Finset.card_le_card hsub
  rw [Finset.card_image_of_injective _ hinj, Finset.card_range] at hcard
  calc n ≤ (objKeys history).toFinset.card := hcard
    _ ≤ (objKeys history).length := List.toFinset_card_le _
    _ = history.length := by simp [objKeys]

/-! ## Streak claims -/

/-- With a constant UTC offset: for a fixed `today` and every history (a JS object, so with
pairwise distinct date keys; non-empty or not), the result of `calculateStreaks` has
`current ≤ longest`. -/
theorem calculateStreaks_current_le_longest (today : Int) (history : History)
    (hwf : ObjWF history) :
    (calculateStreaks today history).current ≤ (calculateStreaks today history).longest := by
  rw [calculateStreaks_current]
  exact (calculateStreaks_longest today history hwf).1 today

theorem calculateStreaks_current_le_longest_witness :
    ObjWF ([(19723, true), (19724, true), (19725, true)] : History) ∧
    (calculateStreaks 19725 [(19723, true), (19724, true), (19725, true)]).current
      ≤ (calculateStreaks 19725 [(19723, true), (19724, true), (19725, true)]).longest :=
  ⟨by decide, calculateStreaks_current_le_longest 19725 _ (by decide)⟩

/-- C2: for every history, `longest` of `calculateStreaks` is the maximum length of a block of
consecutive calendar days that are all present with value `true`: some block has that length,
no block is longer, and it is 0 when no date is `true`. A day that is `false` and a day that is
missing both fail to be part of a block. The history
`{2024-01-01: true, 2024-01-02: true, 2024-01-03: false, 2024-01-04: true}` gives 2. -/
theorem calculateStreaks_longest_max_block (today : Int) (history : History)
    (hwf : ObjWF history) :
    (∃ start, TrueBlock history start (calculateStreaks today history).longest) ∧
    (∀ start n, TrueBlock history start n → n ≤ (calculateStreaks today history).longest) ∧
    ((∀ d, objGet history d ≠ some true) → (calculateStreaks today history).longest = 0) ∧
    (calculateStreaks 19727
      [(19723, true), (19724, true), (19725, false), (19726, true)]).longest = 2 := by
  obtain ⟨hmax, d, hd⟩ := calculateStreaks_longest today history hwf
  have hblock : ∀ start n, TrueBlock history start n →
      n ≤ (calculateStreaks today history).longest := by
    intro start n hb
    rcases Nat.eq_zero_or_pos n with h0 | hpos
    · rw [h0]; exact Nat.zero_le _
    · have hback : TrueBack history (start + ((n - 1 : Nat) : Int)) n := by
        intro i hi
        have := hb (n - 1 - i) (by omega)
        have e : start + ((n - 1 : Nat) : Int) - (i : Int)
            = start + ((n - 1 - i : Nat) : Int) := by omega
        rw [e]; exact this
      exact le_trans (le_runLen history _ n hback) (hmax _)
  refine ⟨?_, hblock, ?_, by decide⟩
  · refine ⟨d - ((calculateStreaks today history).longest : Int) + 1, ?_⟩
    intro i hi
    have hi' : (calculateStreaks today history).longest - 1 - i < runLen history d := by
      rw [← hd]; omega
    have := trueBack_runLen history d _ hi'
    have e : d - (((calculateStreaks today history).longest - 1 - i : Nat) : Int)
        = d - ((calculateStreaks today history).longest : Int) + 1 + (i : Int) := by omega
    rw [e] at this; exact this
  · intro hnone
    by_contra hne
    have hpos : 0 < runLen history d := by
      rw [← hd]; exact Nat.pos_of_ne_zero hne
    exact hnone d ((truthy_iff history d).1 (truthy_of_runLen_pos history d hpos))

theorem calculateStreaks_longest_max_block_witness :
    ObjWF ([(19723, true), (19724, true), (19725, false), (19726, true)] : History) ∧
    TrueBlock [(19723, true), (19724, true), (19725, false), (19726, true)] 19723 2 ∧
    2 ≤ (calculateStreaks 19727
      [(19723, true), (19724, true), (19725, false), (19726, true)]).longest := by
  have hb : TrueBlock [(19723, true), (19724, true), (19725, false), (19726, true)] 19723 2 := by
    intro i hi
    interval_cases i <;> decide
  exact ⟨by decide, hb,
    (calculateStreaks_longest_max_block 19727 _ (by decide)).2.1 19723 2 hb⟩

/-- With a constant UTC offset: for every finite history and every `today`, the backward walk
of `calculateStreaks` ends (it is a total function and makes at most as many counting turns as
the history has entries), and `current` is the largest `n` such that the `n` days
`today, today-1, ..., today-(n-1)` are all present with a truthy value. In particular
`current = 0` whenever today is absent or `false`, whatever yesterday is, and the empty
history yields `{current: 0, longest: 0}`. -/
theorem calculateStreaks_current_walk (today : Int) (history : History) :
    TrueBack history today (calculateStreaks today history).current ∧
    (∀ n, TrueBack history today n → n ≤ (calculateStreaks today history).current) ∧
    (calculateStreaks today history).current ≤ history.length ∧
    (objGet history today ≠ some true → (calculateStreaks today history).current = 0) ∧
    calculateStreaks today [] = ⟨0, 0⟩ := by
  rw [calculateStreaks_current]
  refine ⟨trueBack_runLen history today, fun n hn => le_runLen history today n hn,
    trueBack_length_le history today _ (trueBack_runLen history today), ?_,
    calculateStreaks_nil today⟩
  intro hnot
  apply runLen_of_not_truthy
  cases ht : truthy history today with
  | false => rfl
  | true => exact absurd ((truthy_iff history today).1 ht) hnot

/-! ## Toggling a habit -/

theorem mem_objSet {κ α : Type} [DecidableEq κ] (obj : Obj κ α) (k : κ) (v : α) :
    ∀ x ∈ objSet obj k v, x ∈ obj ∨ x = (k, v) := by
  induction obj with
  | nil => intro x hx; right; simpa [objSet] using hx
  | cons p rest ih =>
    obtain ⟨a, w⟩ := p
    intro x hx
    by_cases h : a = k
    · subst h
      simp only [objSet, if_true, List.mem_cons] at hx ⊢
      rcases hx with hx | hx
      · exact Or.inr hx
      · exact Or.inl (Or.inr hx)
    · simp only [objSet, h, if_false, List.mem_cons] at hx ⊢
      rcases hx with hx | hx
      · exact Or.inl (Or.inl hx)
      · rcases ih x hx with h1 | h1
        · exact Or.inl (Or.inr h1)
        · exact Or.inr h1

theorem objKeys_objSet_of_get {κ α : Type} [DecidableEq κ] (obj : Obj κ α) (k : κ) (v w : α)
    (h : objGet obj k = some w) : objKeys (objSet obj k v) = objKeys obj := by
  induction obj with
  | nil => simp [objGet] at h
  | cons p rest ih =>
    obtain ⟨a, u⟩ := p
    by_cases hk : a = k
    · simp [objSet, objKeys, hk]
    · simp only [objGet, hk, if_false] at h
      have := ih h
      simp only [objKeys] at this
      simp [objSet, objKeys, hk, this]

theorem toggleHabit_eq (today : Int) (habitKey : String) (habits : Habits) (habit : HabitState)
    (hget : objGet habits habitKey = some habit) :
    toggleHabit today habitKey habits = some (objSet habits habitKey
      ⟨objSet habit.history today (!(truthy habit.history today)),
        (calculateStreaks today
          (objSet habit.history today (!(truthy habit.history today)))).current,
        (calculateStreaks today
          (objSet habit.history today (!(truthy habit.history today)))).longest⟩) := by
  unfold toggleHabit
  rw [hget]

theorem toggleHabit_some (today : Int) (habitKey : String) (habits habits' : Habits)
    (h : toggleHabit today habitKey habits = some habits') :
    ∃ habit, objGet habits habitKey = some habit := by
  cases hg : objGet habits habitKey with
  | none => simp [toggleHabit, hg] at h
  | some habit => exact ⟨habit, rfl⟩

theorem truthy_objSet (history : History) (today d : Int) (v : Bool) :
    truthy (objSet history today v) d = if today = d then v else truthy history d := by
  unfold truthy
  rw [objGet_objSet]
  by_cases h : today = d <;> simp [h]

/-- C4, the statement as claimed fails: a habit with no entry for today has, after two toggles,
the entry `false` for today, not its prior value, which is no entry at all. -/
theorem toggleHabit_twice_absent_becomes_false :
    ∃ h1 h2 habit2,
      toggleHabit 19727 "study" [("study", ⟨[], 0, 0⟩)] = some h1 ∧
      toggleHabit 19727 "study" h1 = some h2 ∧
      objGet h2 "study" = some habit2 ∧
      objGet ([] : History) 19727 = none ∧
      objGet habit2.history 19727 = some false := by
  refine ⟨_, _, _, toggleHabit_eq 19727 "study" _ _ rfl, toggleHabit_eq 19727 "study" _ _ rfl,
    rfl, rfl, rfl⟩

/-- C4, amended: for every habit state and fixed `today`, two successive `toggleHabit` calls on
the same habit both return, leave every other date of its history as it was, and return the
entry for today to its prior value when there was one and to `false` when there was none (the
same truthiness in both cases); the habit's `streak` and `longest` fields return to the values
`calculateStreaks` gives for the prior history. -/
theorem toggleHabit_twice (today : Int) (habitKey : String) (habits : Habits)
    (habit : HabitState) (hget : objGet habits habitKey = some habit)
    (hwf : ObjWF habit.history) :
    ∃ h1 h2 habit2,
      toggleHabit today habitKey habits = some h1 ∧
      toggleHabit today habitKey h1 = some h2 ∧
      objGet h2 habitKey = some habit2 ∧
      truthy habit2.history today = truthy habit.history today ∧
      (∀ v, objGet habit.history today = some v → objGet habit2.history today = some v) ∧
      (objGet habit.history today = none → objGet habit2.history today = some false) ∧
      (∀ d, d ≠ today → objGet habit2.history d = objGet habit.history d) ∧
      habit2.streak = (calculateStreaks today habit.history).current ∧
      habit2.longest = (calculateStreaks today habit.history).longest := by
  have e1 := toggleHabit_eq today habitKey habits habit hget
  have hget1 := objGet_objSet habits habitKey habitKey
    ⟨objSet habit.history today (!(truthy habit.history today)),
      (calculateStreaks today
        (objSet habit.history today (!(truthy habit.history today)))).current,
      (calculateStreaks today
        (objSet habit.history today (!(truthy habit.history today)))).longest⟩
  simp only [if_true] at hget1
  have e2 := toggleHabit_eq today habitKey _ _ hget1
  have ht1 : truthy (objSet habit.history today (!(truthy habit.history today))) today
      = !(truthy habit.history today) := by
    rw [truthy_objSet]; simp
  simp only [ht1, Bool.not_not] at e2
  have hget2 := objGet_objSet (objSet habits habitKey
    ⟨objSet habit.history today (!(truthy habit.history today)),
      (calculateStreaks today
        (objSet habit.history today (!(truthy habit.history today)))).current,
      (calculateStreaks today
        (objSet habit.history today (!(truthy habit.history today)))).longest⟩) habitKey habitKey
    ⟨objSet (objSet habit.history today (!(truthy habit.history today))) today
        (truthy habit.history today),
      (calculateStreaks today (objSet (objSet habit.history today
        (!(truthy habit.history today))) today (truthy habit.history today))).current,
      (calculateStreaks today (objSet (objSet habit.history today
        (!(truthy habit.history today))) today (truthy habit.history today))).longest⟩
  simp only [if_true] at hget2
  have htr : ∀ d, truthy (objSet (objSet habit.history today
      (!(truthy habit.history today))) today (truthy habit.history today)) d
      = truthy habit.history d := by
    intro d
    rw [truthy_objSet, truthy_objSet]
    by_cases h : today = d
    · subst h; simp
    · simp [h]
  have hwf2 : ObjWF (objSet (objSet habit.history today
      (!(truthy habit.history today))) today (truthy habit.history today)) :=
    objWF_objSet _ _ _ (objWF_objSet _ _ _ hwf)
  have hcs := calculateStreaks_congr today _ _ hwf2 hwf htr
  refine ⟨_, _, _, e1, e2, hget2, htr today, ?_, ?_, ?_, ?_, ?_⟩
  · intro v hv
    simp only [objGet_objSet, if_true]
    simp [truthy, hv]
  · intro hnone
    simp only [objGet_objSet, if_true]
    simp [truthy, hnone]
  · intro d hd
    simp only [objGet_objSet, if_neg (Ne.symm hd)]
  · simp only [hcs]
  · simp only [hcs]

theorem toggleHabit_twice_witness :
    ∃ h1 h2 habit2,
      toggleHabit 19727 "study" [("study", ⟨[(19726, true)], 1, 1⟩)] = some h1 ∧
      toggleHabit 19727 "study" h1 = some h2 ∧
      objGet h2 "study" = some habit2 ∧
      truthy habit2.history 19727 = truthy [(19726, true)] 19727 ∧
      (∀ v, objGet ([(19726, true)] : History) 19727 = some v →
        objGet habit2.history 19727 = some v) ∧
      (objGet ([(19726, true)] : History) 19727 = none →
        objGet habit2.history 19727 = some false) ∧
      (∀ d, d ≠ 19727 → objGet habit2.history d = objGet ([(19726, true)] : History) d) ∧
      habit2.streak = (calculateStreaks 19727 [(19726, true)]).current ∧
      habit2.longest = (calculateStreaks 19727 [(19726, true)]).longest :=
  toggleHabit_twice 19727 "study" [("study", ⟨[(19726, true)], 1, 1⟩)]
    ⟨[(19726, true)], 1, 1⟩ rfl (by decide)

/-! ## The cached streak fields -/

theorem cacheOK_recomputeOnLoad (today : Int) (stored : Habits) :
    CacheOK today (recomputeOnLoad today stored) := by
  intro k habit hmem
  unfold recomputeOnLoad at hmem
  obtain ⟨p, _, hp⟩ := List.mem_map.1 hmem
  have e : habit = ⟨p.2.history, (calculateStreaks today p.2.history).current,
      (calculateStreaks today p.2.history).longest⟩ := (congrArg Prod.snd hp).symm
  rw [e]
  exact ⟨rfl, rfl⟩

theorem cacheOK_toggleHabit (today : Int) (k : String) (habits habits' : Habits)
    (hok : CacheOK today habits) (h : toggleHabit today k habits = some habits') :
    CacheOK today habits' := by
  obtain ⟨habit, hget⟩ := toggleHabit_some today k habits habits' h
  rw [toggleHabit_eq today k habits habit hget] at h
  have e := Option.some.inj h
  intro k' habit' hmem
  rw [← e] at hmem
  rcases mem_objSet habits k _ (k', habit') hmem with h1 | h1
  · exact hok k' habit' h1
  · have e2 := congrArg Prod.snd h1
    simp only at e2
    rw [e2]
    exact ⟨rfl, rfl⟩

/-- C5: for a fixed `today`, after the recomputation on load and after every `toggleHabit(k)`
that follows, each habit's cached `streak` and `longest` equal `calculateStreaks` of that
habit's history. A `toggleHabit(k)` that returns negates the truthiness of today's entry of
habit `k`, leaves every other date of that history as it was, removes no date key, keeps the
set of habit keys and leaves the state of every other habit unchanged. -/
theorem habit_caches_consistent (today : Int) (stored : Habits) :
    (∀ habits, Reachable today stored habits → CacheOK today habits) ∧
    (∀ (habits : Habits) (k : String) (habits' : Habits),
      toggleHabit today k habits = some habits' →
      ∃ habit habit', objGet habits k = some habit ∧ objGet habits' k = some habit' ∧
        objGet habit'.history today = some (!(truthy habit.history today)) ∧
        (∀ d, d ≠ today → objGet habit'.history d = objGet habit.history d) ∧
        (∀ d ∈ objKeys habit.history, d ∈ objKeys habit'.history) ∧
        objKeys habits' = objKeys habits ∧
        (∀ k', k' ≠ k → objGet habits' k' = objGet habits k')) := by
  refine ⟨?_, ?_⟩
  · intro habits hr
    induction hr with
    | load => exact cacheOK_recomputeOnLoad today stored
    | toggle k habits habits' _ hstep ih => exact cacheOK_toggleHabit today k habits habits' ih hstep
  · intro habits k habits' h
    obtain ⟨habit, hget⟩ := toggleHabit_some today k habits habits' h
    rw [toggleHabit_eq today k habits habit hget] at h
    have e := Option.some.inj h
    subst e
    refine ⟨habit, ⟨objSet habit.history today (!(truthy habit.history today)),
      (calculateStreaks today
        (objSet habit.history today (!(truthy habit.history today)))).current,
      (calculateStreaks today
        (objSet habit.history today (!(truthy habit.history today)))).longest⟩,
      hget, ?_, ?_, ?_, ?_, ?_, ?_⟩
    · rw [objGet_objSet]; simp only [if_true]
    · simp only [objGet_objSet, if_true]
    · intro d hd
      simp only [objGet_objSet, if_neg (Ne.symm hd)]
    · intro d hd
      exact objKeys_objSet_subset habit.history today _ d hd
    · exact objKeys_objSet_of_get habits k _ habit hget
    · intro k' hk'
      rw [objGet_objSet, if_neg (Ne.symm hk')]

/-! ## Expense totals -/

theorem startsWith_iff (s p : String) : startsWith s p = true ↔ ∃ t : String, s = p ++ t := by
  unfold startsWith
  rw [List.isPrefixOf_iff_prefix]
  constructor
  · rintro ⟨t, ht⟩
    refine ⟨⟨t⟩, ?_⟩
    apply String.ext
    simp [String.toList] at ht
    simp [ht]
  · rintro ⟨t, rfl⟩
    exact ⟨t.toList, by simp [String.toList]⟩

theorem foldl_amount (l : List ExpenseRecord) (a : ℚ) :
    l.foldl (fun acc exp => acc + exp.amount) a = a + (l.map (fun exp => exp.amount)).sum := by
  induction l generalizing a with
  | nil => simp
  | cons x rest ih => simp [List.foldl_cons, ih, add_assoc]

theorem foldl_waste (l : List ExpenseRecord) (a : ℚ) :
    l.foldl (fun acc exp => if exp.category = "Waste" then acc + exp.amount else acc) a
      = a + ((l.filter (fun exp => decide (exp.category = "Waste"))).map
          (fun exp => exp.amount)).sum := by
  induction l generalizing a with
  | nil => simp
  | cons x rest ih =>
    by_cases h : x.category = "Waste"
    · simp [List.foldl_cons, ih, h, List.filter_cons, add_assoc]
    · simp [List.foldl_cons, ih, h, List.filter_cons]

theorem sum_amount_perm (l₁ l₂ : List ExpenseRecord) (h : l₁.Perm l₂) :
    (l₁.map (fun exp => exp.amount)).sum = (l₂.map (fun exp => exp.amount)).sum :=
  (h.map _).sum_eq

/-- The amounts `renderExpenses` reports, for any value of the month input: without a filter
every record counts. -/
theorem renderExpenses_sums (dateValue : String → Int) (expenses : List ExpenseRecord)
    (monthlyBudget : ℚ) (m : String) :
    (renderExpenses dateValue expenses monthlyBudget m).rows.Perm
      (if m ≠ "" then expenses.filter (fun exp => startsWith exp.date m) else expenses) ∧
    (renderExpenses dateValue expenses monthlyBudget m).monthlyTotal
      = ((renderExpenses dateValue expenses monthlyBudget m).rows.map
          (fun exp => exp.amount)).sum ∧
    (renderExpenses dateValue expenses monthlyBudget m).wasteTotal
      = (((renderExpenses dateValue expenses monthlyBudget m).rows.filter
          (fun exp => decide (exp.category = "Waste"))).map (fun exp => exp.amount)).sum ∧
    (renderExpenses dateValue expenses monthlyBudget m).remainingAmount
      = monthlyBudget - (renderExpenses dateValue expenses monthlyBudget m).monthlyTotal := by
  refine ⟨?_, ?_, ?_, rfl⟩
  · exact List.perm_insertionSort _ _
  · simp only [renderExpenses]
    rw [foldl_amount, zero_add]
  · simp only [renderExpenses]
    rw [foldl_waste, zero_add]

/-- C6: for every list of expense records, budget and non-empty month key `m`, the list shown
by `renderExpenses` is a rearrangement of the records whose date has `m` as a string prefix,
the monthly total is the sum of their amounts, the waste total is the sum of the amounts of
those among them whose category is `Waste`, and the remaining amount is the budget minus the
monthly total. The records (100, Food, 2024-03-01) and (50, Waste, 2024-03-15) with budget
1000 and `m = 2024-03` give 150, 50 and 850. -/
theorem renderExpenses_totals (dateValue : String → Int) (expenses : List ExpenseRecord)
    (monthlyBudget : ℚ) (m : String) (hm : m ≠ "") :
    (∀ s p : String, startsWith s p = true ↔ ∃ t : String, s = p ++ t) ∧
    (renderExpenses dateValue expenses monthlyBudget m).rows.Perm
      (expenses.filter (fun exp => startsWith exp.date m)) ∧
    (renderExpenses dateValue expenses monthlyBudget m).monthlyTotal
      = ((expenses.filter (fun exp => startsWith exp.date m)).map
          (fun exp => exp.amount)).sum ∧
    (renderExpenses dateValue expenses monthlyBudget m).wasteTotal
      = (((expenses.filter (fun exp => startsWith exp.date m)).filter
          (fun exp => decide (exp.category = "Waste"))).map (fun exp => exp.amount)).sum ∧
    (renderExpenses dateValue expenses monthlyBudget m).remainingAmount
      = monthlyBudget - ((expenses.filter (fun exp => startsWith exp.date m)).map
          (fun exp => exp.amount)).sum ∧
    (renderExpenses dateValue
      [⟨"a", 100, "Food", "", "2024-03-01"⟩, ⟨"b", 50, "Waste", "", "2024-03-15"⟩]
      1000 "2024-03").monthlyTotal = 150 ∧
    (renderExpenses dateValue
      [⟨"a", 100, "Food", "", "2024-03-01"⟩, ⟨"b", 50, "Waste", "", "2024-03-15"⟩]
      1000 "2024-03").wasteTotal = 50 ∧
    (renderExpenses dateValue
      [⟨"a", 100, "Food", "", "2024-03-01"⟩, ⟨"b", 50, "Waste", "", "2024-03-15"⟩]
      1000 "2024-03").remainingAmount = 850 := by
  have key : ∀ (l : List ExpenseRecord) (b : ℚ) (k : String), k ≠ "" →
      (renderExpenses dateValue l b k).rows.Perm (l.filter (fun exp => startsWith exp.date k)) ∧
      (renderExpenses dateValue l b k).monthlyTotal
        = ((l.filter (fun exp => startsWith exp.date k)).map (fun exp => exp.amount)).sum ∧
      (renderExpenses dateValue l b k).wasteTotal
        = (((l.filter (fun exp => startsWith exp.date k)).filter
            (fun exp => decide (exp.category = "Waste"))).map (fun exp => exp.amount)).sum ∧
      (renderExpenses dateValue l b k).remainingAmount
        = b - ((l.filter (fun exp => startsWith exp.date k)).map
            (fun exp => exp.amount)).sum := by
    intro l b k hk
    obtain ⟨h1, h2, h3, h4⟩ := renderExpenses_sums dateValue l b k
    rw [if_pos hk] at h1
    have e2 := h2.trans (sum_amount_perm _ _ h1)
    refine ⟨h1, e2, ?_, ?_⟩
    · rw [h3]
      exact sum_amount_perm _ _ (h1.filter _)
    · rw [h4, e2]
  obtain ⟨a1, a2, a3, a4⟩ := key expenses monthlyBudget m hm
  obtain ⟨_, b2, b3, b4⟩ := key
    [⟨"a", 100, "Food", "", "2024-03-01"⟩, ⟨"b", 50, "Waste", "", "2024-03-15"⟩]
    1000 "2024-03" (by decide)
  have f1 : startsWith "2024-03-01" "2024-03" = true := by decide
  have f2 : startsWith "2024-03-15" "2024-03" = true := by decide
  refine ⟨startsWith_iff, a1, a2, a3, a4, ?_, ?_, ?_⟩
  · rw [b2]; simp [List.filter_cons, f1, f2]; norm_num
  · rw [b3]; simp [List.filter_cons, f1, f2]
  · rw [b4]; simp [List.filter_cons, f1, f2]; norm_num

theorem renderExpenses_totals_witness :
    "2024-03" ≠ "" ∧
    (renderExpenses (fun _ => 0)
      [⟨"a", 100, "Food", "", "2024-03-01"⟩, ⟨"b", 50, "Waste", "", "2024-03-15"⟩,
        ⟨"c", 7, "Food", "", "2024-04-02"⟩]
      1000 "2024-03").monthlyTotal
      = ((([⟨"a", 100, "Food", "", "2024-03-01"⟩, ⟨"b", 50, "Waste", "", "2024-03-15"⟩,
        ⟨"c", 7, "Food", "", "2024-04-02"⟩] : List ExpenseRecord).filter
          (fun exp => startsWith exp.date "2024-03")).map (fun exp => exp.amount)).sum :=
  ⟨by decide, (renderExpenses_totals (fun _ => 0) _ 1000 "2024-03" (by decide)).2.2.1⟩

/-! ## Waste thresholds -/

theorem renderExpenses_wasteTotal_of_no_rows (dateValue : String → Int)
    (expenses : List ExpenseRecord) (monthlyBudget : ℚ) (m : String)
    (h : (renderExpenses dateValue expenses monthlyBudget m).rows.length = 0) :
    (renderExpenses dateValue expenses monthlyBudget m).wasteTotal = 0 := by
  rw [(renderExpenses_sums dateValue expenses monthlyBudget m).2.2.1,
    List.length_eq_zero.1 h]
  rfl

theorem renderExpenses_warningIssues (dateValue : String → Int)
    (expenses : List ExpenseRecord) (monthlyBudget : ℚ) (m : String) :
    (renderExpenses dateValue expenses monthlyBudget m).warningIssues
      = if (renderExpenses dateValue expenses monthlyBudget m).rows.length = 0 then []
        else if (renderExpenses dateValue expenses monthlyBudget m).wasteTotal
              > monthlyBudget * (15 / 100) ∧
            (renderExpenses dateValue expenses monthlyBudget m).wasteTotal
              ≤ monthlyBudget * (2 / 10) then ["Waste spending is high"]
        else [] := rfl

theorem renderExpenses_criticalIssues (dateValue : String → Int)
    (expenses : List ExpenseRecord) (monthlyBudget : ℚ) (m : String) :
    (renderExpenses dateValue expenses monthlyBudget m).criticalIssues
      = if (renderExpenses dateValue expenses monthlyBudget m).rows.length = 0 then []
        else if (renderExpenses dateValue expenses monthlyBudget m).wasteTotal
              > monthlyBudget * (2 / 10) then ["Waste spending exceeded limit"]
        else [] := rfl

/-- C7: in `renderExpenses`, for every budget (not negative, as every budget the program holds)
and the waste total of any list of records, in exact arithmetic: the waste warning is raised
iff 15% of budget < waste ≤ 20% of budget, and the waste critical is raised iff
waste > 20% of budget. So the two are never raised together, waste equal to 20% of budget is
not critical, and waste equal to 15% of budget is not a warning. -/
theorem renderExpenses_waste_thresholds (dateValue : String → Int)
    (expenses : List ExpenseRecord) (monthlyBudget : ℚ) (m : String)
    (hb : 0 ≤ monthlyBudget) :
    ("Waste spending is high" ∈ (renderExpenses dateValue expenses monthlyBudget m).warningIssues
      ↔ monthlyBudget * (15 / 100) < (renderExpenses dateValue expenses monthlyBudget m).wasteTotal
        ∧ (renderExpenses dateValue expenses monthlyBudget m).wasteTotal
          ≤ monthlyBudget * (20 / 100)) ∧
    ("Waste spending exceeded limit"
        ∈ (renderExpenses dateValue expenses monthlyBudget m).criticalIssues
      ↔ monthlyBudget * (20 / 100)
          < (renderExpenses dateValue expenses monthlyBudget m).wasteTotal) ∧
    ¬ ((renderExpenses dateValue expenses monthlyBudget m).warningIssues ≠ [] ∧
       (renderExpenses dateValue expenses monthlyBudget m).criticalIssues ≠ []) ∧
    ((renderExpenses dateValue expenses monthlyBudget m).wasteTotal = monthlyBudget * (20 / 100)
      → (renderExpenses dateValue expenses monthlyBudget m).criticalIssues = []) ∧
    ((renderExpenses dateValue expenses monthlyBudget m).wasteTotal = monthlyBudget * (15 / 100)
      → (renderExpenses dateValue expenses monthlyBudget m).warningIssues = []) := by
  rw [renderExpenses_warningIssues, renderExpenses_criticalIssues]
  have e20 : monthlyBudget * (20 / 100) = monthlyBudget * (2 / 10) := by ring
  rw [e20]
  have hzero := renderExpenses_wasteTotal_of_no_rows dateValue expenses monthlyBudget m
  generalize (renderExpenses dateValue expenses monthlyBudget m).wasteTotal = W at hzero ⊢
  generalize (renderExpenses dateValue expenses monthlyBudget m).rows.length = n at hzero ⊢
  have h15 : 0 ≤ monthlyBudget * (15 / 100) := by positivity
  have h20 : 0 ≤ monthlyBudget * (2 / 10) := by positivity
  refine ⟨?_, ?_, ?_, ?_, ?_⟩
  · by_cases hn : n = 0
    · have hW := hzero hn
      rw [if_pos hn]
      constructor
      · intro h; exact absurd h (List.not_mem_nil _)
      · intro h; rw [hW] at h; exact absurd h.1 (not_lt.2 h15)
    · rw [if_neg hn]
      by_cases hw : W > monthlyBudget * (15 / 100) ∧ W ≤ monthlyBudget * (2 / 10)
      · rw [if_pos hw]
        exact ⟨fun _ => hw, fun _ => List.mem_singleton.2 rfl⟩
      · rw [if_neg hw]
        exact ⟨fun h => absurd h (List.not_mem_nil _), fun h => absurd h hw⟩
  · by_cases hn : n = 0
    · have hW := hzero hn
      rw [if_pos hn]
      constructor
      · intro h; exact absurd h (List.not_mem_nil _)
      · intro h; rw [hW] at h; exact absurd h (not_lt.2 h20)
    · rw [if_neg hn]
      by_cases hc : W > monthlyBudget * (2 / 10)
      · rw [if_pos hc]
        exact ⟨fun _ => hc, fun _ => List.mem_singleton.2 rfl⟩
      · rw [if_neg hc]
        exact ⟨fun h => absurd h (List.not_mem_nil _), fun h => absurd h hc⟩
  · rintro ⟨hw, hc⟩
    by_cases hn : n = 0
    · rw [if_pos hn] at hw; exact hw rfl
    · rw [if_neg hn] at hw hc
      by_cases hc' : W > monthlyBudget * (2 / 10)
      · have hnw : ¬ (W > monthlyBudget * (15 / 100) ∧ W ≤ monthlyBudget * (2 / 10)) :=
          fun h => absurd hc' (not_lt.2 h.2)
        rw [if_neg hnw] at hw; exact hw rfl
      · rw [if_neg hc'] at hc; exact hc rfl
  · intro hW
    by_cases hn : n = 0
    · rw [if_pos hn]
    · rw [if_neg hn, if_neg (by rw [hW]; exact lt_irrefl _)]
  · intro hW
    by_cases hn : n = 0
    · rw [if_pos hn]
    · have hnw : ¬ (W > monthlyBudget * (15 / 100) ∧ W ≤ monthlyBudget * (2 / 10)) :=
        fun h => absurd h.1 (by rw [hW]; exact lt_irrefl _)
      rw [if_neg hn, if_neg hnw]

theorem renderExpenses_waste_thresholds_witness :
    (0 : ℚ) ≤ 1000 ∧
    ((renderExpenses (fun _ => 0) [⟨"a", 200, "Waste", "", "2024-03-01"⟩] 1000
        "2024-03").wasteTotal = 1000 * (20 / 100)
      → (renderExpenses (fun _ => 0) [⟨"a", 200, "Waste", "", "2024-03-01"⟩] 1000
        "2024-03").criticalIssues = []) :=
  ⟨by norm_num,
    (renderExpenses_waste_thresholds (fun _ => 0) [⟨"a", 200, "Waste", "", "2024-03-01"⟩] 1000
      "2024-03" (by norm_num)).2.2.2.1⟩

/-! ## The budget seen by the three modules -/

theorem storedBudgetOrDefault_setBudget (newBudget : Option ℚ) (st : AppState) :
    storedBudgetOrDefault (setBudget newBudget st).store = storedBudgetOrDefault st.store := by
  cases newBudget with
  | none => rfl
  | some b =>
    by_cases hb : b > 0
    · have hk : ¬ ("MONTHLY_BUDGET" = "monthlyBudget") := by decide
      simp only [setBudget, hb, if_true, saveData, storedBudgetOrDefault, parseIntItem,
        objGet_objSet, if_neg hk]
    · simp only [setBudget, hb, if_false]

/-- C8, evaluated where it fails: after `setBudget` accepts 5000 on a fresh store,
`renderExpenses` uses the waste limit 1000 (20% of 5000), while `updateHabitStates` and
`updatePriorityWidget` (through `updateTruthSummaryCards`) still use 2000 (20% of 10000);
and no call of `setBudget` ever changes the budget those two read, since it writes the key
`MONTHLY_BUDGET` and they read the key `monthlyBudget`. -/
theorem setBudget_not_read_by_habits_and_cards :
    (setBudget (some 5000) (loadApp [])).monthlyBudget = 5000 ∧
    (renderExpenses (fun _ => 0) (setBudget (some 5000) (loadApp [])).expenses
      (setBudget (some 5000) (loadApp [])).monthlyBudget "").criticalWasteLimit = 1000 ∧
    (updateHabitStates 1704456000000 "2024-01" (setBudget (some 5000) (loadApp [])).habits
      (setBudget (some 5000) (loadApp [])).store).wasteLimit = 2000 ∧
    (updateTruthSummaryCards 1704456000000 "2024-01"
      (setBudget (some 5000) (loadApp [])).store).wasteLimit = 2000 ∧
    (∀ (newBudget : Option ℚ) (st : AppState),
      storedBudgetOrDefault (setBudget newBudget st).store = storedBudgetOrDefault st.store) := by
  have hst : setBudget (some 5000) (loadApp [])
      = ⟨[], 5000, defaultHabits, [], [("MONTHLY_BUDGET", Blob.num 5000)]⟩ := by
    simp [setBudget, loadApp, getData, objGet, saveData, objSet]
  have hsb : storedBudgetOrDefault [("MONTHLY_BUDGET", Blob.num 5000)] = 10000 := by
    have hk : ¬ ("MONTHLY_BUDGET" = "monthlyBudget") := by decide
    simp [storedBudgetOrDefault, parseIntItem, objGet, hk]
  rw [hst]
  refine ⟨rfl, ?_, ?_, ?_, storedBudgetOrDefault_setBudget⟩
  · simp only [renderExpenses]; norm_num
  · simp only [updateHabitStates, hsb]; norm_num
  · simp only [updateTruthSummaryCards, priorityWasteLimit, hsb]; norm_num

/-! ## Weekly totals -/

/-- C9, evaluated where it fails: at noon of 2024-01-05 with the single time log
`2024-01-06: {screen: 5, productive: 1}` (dated tomorrow), `renderTimeSummary` counts nothing,
while `updateHabitStates` and `updateTruthSummaryCards` count the entry: their filter
`new Date(date) >= weekStart` has no upper bound. -/
theorem weekly_totals_disagree_on_future_log :
    todayOf 1704456000000 = 19727 ∧
    (renderTimeSummary 1704456000000 [(19728, ⟨5, 1⟩)]).totalScreen = 0 ∧
    (renderTimeSummary 1704456000000 [(19728, ⟨5, 1⟩)]).totalProductive = 0 ∧
    (updateHabitStates 1704456000000 "2024-01" defaultHabits
      [(KEY_TIME_LOGS, Blob.timeLogs [(19728, ⟨5, 1⟩)])]).totalScreen = 5 ∧
    (updateHabitStates 1704456000000 "2024-01" defaultHabits
      [(KEY_TIME_LOGS, Blob.timeLogs [(19728, ⟨5, 1⟩)])]).totalProductive = 1 ∧
    (updateTruthSummaryCards 1704456000000 "2024-01"
      [(KEY_TIME_LOGS, Blob.timeLogs [(19728, ⟨5, 1⟩)])]).totalScreen = 5 ∧
    (updateTruthSummaryCards 1704456000000 "2024-01"
      [(KEY_TIME_LOGS, Blob.timeLogs [(19728, ⟨5, 1⟩)])]).totalProductive = 1 := by
  have hget : getData [(KEY_TIME_LOGS, Blob.timeLogs [(19728, ⟨5, 1⟩)])] KEY_TIME_LOGS
      = some (Blob.timeLogs [(19728, ⟨5, 1⟩)]) := by
    simp [getData, objGet]
  have hweek : weekLogs 1704456000000 [(19728, ⟨5, 1⟩)] = [(19728, ⟨5, 1⟩)] := by
    simp [weekLogs, MS_PER_DAY]
  have htot : weekTotals [(19728, ⟨5, 1⟩)] = (1, 5) := by
    simp [weekTotals]
  have h7 : last7Days 1704456000000 = [19727, 19726, 19725, 19724, 19723, 19722, 19721] := by
    decide
  refine ⟨by decide, ?_, ?_, ?_, ?_, ?_, ?_⟩
  · simp [renderTimeSummary, h7, objGet]
  · simp [renderTimeSummary, h7, objGet]
  · simp only [updateHabitStates, hget, hweek, htot]
  · simp only [updateHabitStates, hget, hweek, htot]
  · simp only [updateTruthSummaryCards, hget, hweek, htot]
  · simp only [updateTruthSummaryCards, hget, hweek, htot]

/-! ## Wasted hours -/

/-- C10, the statement as claimed fails for `renderTimeSummary`: with one log for today of
1 screen hour and 2 productive hours its wasted-hours value is -1, not `max(0, 1 - 2) = 0`. -/
theorem renderTimeSummary_wastedHours_negative :
    (renderTimeSummary 1704456000000 [(19727, ⟨1, 2⟩)]).totalScreen = 1 ∧
    (renderTimeSummary 1704456000000 [(19727, ⟨1, 2⟩)]).totalProductive = 2 ∧
    (renderTimeSummary 1704456000000 [(19727, ⟨1, 2⟩)]).wastedHours = -1 ∧
    (renderTimeSummary 1704456000000 [(19727, ⟨1, 2⟩)]).wastedHours
      ≠ max 0 ((renderTimeSummary 1704456000000 [(19727, ⟨1, 2⟩)]).totalScreen
          - (renderTimeSummary 1704456000000 [(19727, ⟨1, 2⟩)]).totalProductive) := by
  have h7 : last7Days 1704456000000 = [19727, 19726, 19725, 19724, 19723, 19722, 19721] := by
    decide
  have hr : renderTimeSummary 1704456000000 [(19727, ⟨1, 2⟩)] = ⟨1, 2, -1⟩ := by
    simp [renderTimeSummary, h7, objGet]
    norm_num
  rw [hr]
  refine ⟨rfl, rfl, rfl, ?_⟩
  norm_num

/-- C10, amended: for every pair of weekly totals, the wasted-hours value computed in
`updateHabitStates` and in `updateTruthSummaryCards` is `max(0, screen - productive)` and is
never negative; the value computed in `renderTimeSummary` is the signed difference
`screen - productive`, which equals `max(0, screen - productive)` exactly when the productive
total does not exceed the screen total. -/
theorem wasted_hours_values (now : Int) (currentMonth : String) (habits : Habits)
    (store : Store) (timeLogs : TimeLogs) :
    (updateHabitStates now currentMonth habits store).wasteHours
      = max 0 ((updateHabitStates now currentMonth habits store).totalScreen
          - (updateHabitStates now currentMonth habits store).totalProductive) ∧
    0 ≤ (updateHabitStates now currentMonth habits store).wasteHours ∧
    (updateTruthSummaryCards now currentMonth store).timeWasted
      = max 0 ((updateTruthSummaryCards now currentMonth store).totalScreen
          - (updateTruthSummaryCards now currentMonth store).totalProductive) ∧
    0 ≤ (updateTruthSummaryCards now currentMonth store).timeWasted ∧
    (renderTimeSummary now timeLogs).wastedHours
      = (renderTimeSummary now timeLogs).totalScreen
          - (renderTimeSummary now timeLogs).totalProductive ∧
    ((renderTimeSummary now timeLogs).wastedHours
        = max 0 ((renderTimeSummary now timeLogs).totalScreen
            - (renderTimeSummary now timeLogs).totalProductive)
      ↔ (renderTimeSummary now timeLogs).totalProductive
          ≤ (renderTimeSummary now timeLogs).totalScreen) := by
  have h5 : (renderTimeSummary now timeLogs).wastedHours
      = (renderTimeSummary now timeLogs).totalScreen
          - (renderTimeSummary now timeLogs).totalProductive := rfl
  refine ⟨rfl, le_max_left _ _, rfl, le_max_left _ _, h5, ?_⟩
  rw [h5]
  constructor
  · intro h
    have := le_max_left (0 : ℚ) ((renderTimeSummary now timeLogs).totalScreen
      - (renderTimeSummary now timeLogs).totalProductive)
    rw [← h] at this
    linarith
  · intro h
    rw [max_eq_right (by linarith)]

/-! ## Productivity with no screen time, and the time panel -/

theorem hasTimeLogs_of_ne_nil (timeLogs : TimeLogs) (h : timeLogs ≠ []) :
    decide ((objKeys timeLogs).length > 0) = true := by
  cases timeLogs with
  | nil => exact absurd rfl h
  | cons p rest => simp [objKeys]

theorem last7Days_noon : last7Days 1704456000000
    = [19727, 19726, 19725, 19724, 19723, 19722, 19721] := by
  decide

/-- At noon of 2024-01-05 with the single time log `2024-01-05: {screen: 0, productive: 2}`
the screen total is 0 and the wasted-hours value that `renderTimeSummary` hands to
`updateTimeStates` is -2, the signed difference. With the same log in the store,
`updateTruthSummaryCards` has screen total 0 and productivity 0, and the widget shows the
low-productivity issue. -/
theorem zero_screen_wasted_hours_negative :
    (renderTimeSummary 1704456000000 [(19727, ⟨0, 2⟩)]).totalScreen = 0 ∧
    (renderTimeSummary 1704456000000 [(19727, ⟨0, 2⟩)]).wastedHours = -2 ∧
    (updateTruthSummaryCards 1704456000000 "2024-01"
      [(KEY_TIME_LOGS, Blob.timeLogs [(19727, ⟨0, 2⟩)])]).totalScreen = 0 ∧
    (updateTruthSummaryCards 1704456000000 "2024-01"
      [(KEY_TIME_LOGS, Blob.timeLogs [(19727, ⟨0, 2⟩)])]).productivity = 0 ∧
    priorityWidgetOfCards 1704456000000 "2024-01"
      [(KEY_TIME_LOGS, Blob.timeLogs [(19727, ⟨0, 2⟩)])] = [productivityIssue] := by
  have hr : renderTimeSummary 1704456000000 [(19727, ⟨0, 2⟩)] = ⟨0, 2, -2⟩ := by
    simp [renderTimeSummary, last7Days_noon, objGet]
  have hget : getData [(KEY_TIME_LOGS, Blob.timeLogs [(19727, ⟨0, 2⟩)])] KEY_TIME_LOGS
      = some (Blob.timeLogs [(19727, ⟨0, 2⟩)]) := by
    simp [getData, objGet]
  have hgetE : getData [(KEY_TIME_LOGS, Blob.timeLogs [(19727, ⟨0, 2⟩)])] KEY_EXPENSES
      = none := by
    have hk : ¬ (KEY_TIME_LOGS = KEY_EXPENSES) := by decide
    simp [getData, objGet, hk]
  have hgetH : getData [(KEY_TIME_LOGS, Blob.timeLogs [(19727, ⟨0, 2⟩)])] KEY_HABITS
      = none := by
    have hk : ¬ (KEY_TIME_LOGS = KEY_HABITS) := by decide
    simp [getData, objGet, hk]
  have hweek : weekLogs 1704456000000 [(19727, ⟨0, 2⟩)] = [(19727, ⟨0, 2⟩)] := by
    simp [weekLogs, MS_PER_DAY]
  have htot : weekTotals [(19727, ⟨0, 2⟩)] = (2, 0) := by
    simp [weekTotals]
  have hcards : (updateTruthSummaryCards 1704456000000 "2024-01"
      [(KEY_TIME_LOGS, Blob.timeLogs [(19727, ⟨0, 2⟩)])]).totalScreen = 0 ∧
      (updateTruthSummaryCards 1704456000000 "2024-01"
      [(KEY_TIME_LOGS, Blob.timeLogs [(19727, ⟨0, 2⟩)])]).productivity = 0 ∧
      (updateTruthSummaryCards 1704456000000 "2024-01"
      [(KEY_TIME_LOGS, Blob.timeLogs [(19727, ⟨0, 2⟩)])]).timeWasted = 0 ∧
      (updateTruthSummaryCards 1704456000000 "2024-01"
      [(KEY_TIME_LOGS, Blob.timeLogs [(19727, ⟨0, 2⟩)])]).budget = 10000 := by
    have hk : ¬ (KEY_TIME_LOGS = "monthlyBudget") := by decide
    simp only [updateTruthSummaryCards, hget, hweek, htot, storedBudgetOrDefault, parseIntItem,
      objGet, hk, if_false]
    norm_num
  obtain ⟨c1, c2, c3, c4⟩ := hcards
  refine ⟨by rw [hr], by rw [hr], c1, c2, ?_⟩
  simp only [priorityWidgetOfCards, c2, c3, c4, storedExpenses, storedHabits, hgetE, hgetH,
    updatePriorityWidget, collectIssues, priorityWasteTotal, priorityWasteLimit, brokenStreaks,
    objKeys]
  norm_num [List.insertionSort, List.orderedInsert]

/-- Whenever the total screen time is 0, the productivity ratio is 1.0 in `updateTimeStates`
(where a log exists; otherwise it is not computed) and in `updateHabitStates`, and their
low-productivity rules are not raised; the wasted-hours value is `max(0, -productive)` in
`updateHabitStates` and `updateTruthSummaryCards`, so 0 when the productive total is not
negative, and is the signed `-productive` in `renderTimeSummary`, which hands it to
`updateTimeStates`. -/
theorem zero_screen_defaults (now : Int) (currentMonth : String) (habits : Habits)
    (store : Store) (timeLogs : TimeLogs) (totalProductive wastedHours : ℚ) :
    (timeLogs ≠ [] →
      (updateTimeStates timeLogs 0 totalProductive wastedHours).productivity = some 1 ∧
      "Productivity is below 50%"
        ∉ (updateTimeStates timeLogs 0 totalProductive wastedHours).warningIssues ∧
      "Productivity is critically low"
        ∉ (updateTimeStates timeLogs 0 totalProductive wastedHours).criticalIssues) ∧
    ((renderTimeSummary now timeLogs).totalScreen = 0 →
      (renderTimeSummary now timeLogs).wastedHours
        = -(renderTimeSummary now timeLogs).totalProductive) ∧
    ((updateHabitStates now currentMonth habits store).totalScreen = 0 →
      (updateHabitStates now currentMonth habits store).productivity = 1 ∧
      "Productivity down (below 50% this week)"
        ∉ (updateHabitStates now currentMonth habits store).warningIssues ∧
      (updateHabitStates now currentMonth habits store).wasteHours
        = max 0 (-(updateHabitStates now currentMonth habits store).totalProductive) ∧
      (0 ≤ (updateHabitStates now currentMonth habits store).totalProductive →
        (updateHabitStates now currentMonth habits store).wasteHours = 0)) ∧
    ((updateTruthSummaryCards now currentMonth store).totalScreen = 0 →
      (updateTruthSummaryCards now currentMonth store).timeWasted
        = max 0 (-(updateTruthSummaryCards now currentMonth store).totalProductive) ∧
      (0 ≤ (updateTruthSummaryCards now currentMonth store).totalProductive →
        (updateTruthSummaryCards now currentMonth store).timeWasted = 0)) := by
  refine ⟨?_, ?_, ?_, ?_⟩
  · intro hne
    have hl := hasTimeLogs_of_ne_nil timeLogs hne
    have h1 : ¬ ((1 : ℚ) < 5 / 10 ∧ (0 : ℚ) > 5) := by norm_num
    have h2 : ¬ ((1 : ℚ) < 25 / 100 ∧ (0 : ℚ) > 10) := by norm_num
    refine ⟨?_, ?_, ?_⟩
    · simp only [updateTimeStates, hl, if_true, gt_iff_lt, lt_irrefl, if_false]
    · simp only [updateTimeStates, hl, if_true, gt_iff_lt, lt_irrefl, if_false]
      intro hmem
      simp only [gt_iff_lt] at h1
      simp only [h1, if_false, List.append_nil] at hmem
      split at hmem
      · simp at hmem
      · simp at hmem
    · simp only [updateTimeStates, hl, if_true, gt_iff_lt, lt_irrefl, if_false]
      intro hmem
      simp only [gt_iff_lt] at h2
      simp only [h2, if_false, List.append_nil] at hmem
      split at hmem
      · simp at hmem
      · simp at hmem
  · intro h0
    have e : (renderTimeSummary now timeLogs).wastedHours
        = (renderTimeSummary now timeLogs).totalScreen
          - (renderTimeSummary now timeLogs).totalProductive := rfl
    rw [e, h0, zero_sub]
  · intro h0
    have hp : (updateHabitStates now currentMonth habits store).productivity
        = if (updateHabitStates now currentMonth habits store).totalScreen > 0 then
            (updateHabitStates now currentMonth habits store).totalProductive
              / (updateHabitStates now currentMonth habits store).totalScreen
          else 1 := rfl
    have hw : (updateHabitStates now currentMonth habits store).wasteHours
        = max 0 ((updateHabitStates now currentMonth habits store).totalScreen
          - (updateHabitStates now currentMonth habits store).totalProductive) := rfl
    have hi : (updateHabitStates now currentMonth habits store).warningIssues
        = (if (updateHabitStates now currentMonth habits store).productivity < 5 / 10 then
            ["Productivity down (below 50% this week)"] else [])
          ++ (if (updateHabitStates now currentMonth habits store).wasteTotal > 5000 then
            ["Waste spending is high"] else []) := rfl
    rw [h0] at hp hw
    simp only [gt_iff_lt, lt_irrefl, if_false] at hp
    rw [zero_sub] at hw
    refine ⟨hp, ?_, hw, ?_⟩
    · rw [hi, hp]
      have h1 : ¬ ((1 : ℚ) < 5 / 10) := by norm_num
      simp only [h1, if_false, List.nil_append]
      split
      · simp
      · simp
    · intro hnn
      rw [hw]
      exact max_eq_left (by linarith)
  · intro h0
    have hw : (updateTruthSummaryCards now currentMonth store).timeWasted
        = max 0 ((updateTruthSummaryCards now currentMonth store).totalScreen
          - (updateTruthSummaryCards now currentMonth store).totalProductive) := rfl
    rw [h0, zero_sub] at hw
    refine ⟨hw, ?_⟩
    intro hnn
    rw [hw]
    exact max_eq_left (by linarith)

/-- C12: in `updateTimeStates`, when at least one time log exists and with
ratio = productive/screen (1 when screen is not positive): a time warning is raised iff
wasted hours > 10 or (ratio < 50% and screen > 5), a time critical is raised iff
wasted hours > 20 or (ratio < 25% and screen > 10), and the critical state is shown whenever a
critical is raised, the warning state only when a warning and no critical is raised. -/
theorem updateTimeStates_thresholds (timeLogs : TimeLogs)
    (totalScreen totalProductive wastedHours : ℚ) (hlogs : timeLogs ≠ []) :
    ((updateTimeStates timeLogs totalScreen totalProductive wastedHours).warningIssues ≠ []
      ↔ wastedHours > 10 ∨
        ((if totalScreen > 0 then totalProductive / totalScreen else 1) < 50 / 100
          ∧ totalScreen > 5)) ∧
    ((updateTimeStates timeLogs totalScreen totalProductive wastedHours).criticalIssues ≠ []
      ↔ wastedHours > 20 ∨
        ((if totalScreen > 0 then totalProductive / totalScreen else 1) < 25 / 100
          ∧ totalScreen > 10)) ∧
    ((updateTimeStates timeLogs totalScreen totalProductive wastedHours).shown = Panel.critical
      ↔ (updateTimeStates timeLogs totalScreen totalProductive wastedHours).criticalIssues
          ≠ []) ∧
    ((updateTimeStates timeLogs totalScreen totalProductive wastedHours).shown = Panel.warning
      ↔ (updateTimeStates timeLogs totalScreen totalProductive wastedHours).criticalIssues = []
        ∧ (updateTimeStates timeLogs totalScreen totalProductive wastedHours).warningIssues
          ≠ []) := by
  have hl := hasTimeLogs_of_ne_nil timeLogs hlogs
  have e50 : (50 / 100 : ℚ) = 5 / 10 := by norm_num
  rw [e50]
  generalize hr : (if totalScreen > 0 then totalProductive / totalScreen else 1) = r
  have hW : (updateTimeStates timeLogs totalScreen totalProductive wastedHours).warningIssues
      = (if wastedHours > 10 then ["You wasted hours this week"] else [])
        ++ (if r < 5 / 10 ∧ totalScreen > 5 then ["Productivity is below 50%"] else []) := by
    simp only [updateTimeStates, hl, if_true, hr]
  have hC : (updateTimeStates timeLogs totalScreen totalProductive wastedHours).criticalIssues
      = (if wastedHours > 20 then ["You wasted hours this week, per day"] else [])
        ++ (if r < 25 / 100 ∧ totalScreen > 10 then ["Productivity is critically low"]
            else []) := by
    simp only [updateTimeStates, hl, if_true, hr]
  have hS : (updateTimeStates timeLogs totalScreen totalProductive wastedHours).shown
      = if (updateTimeStates timeLogs totalScreen totalProductive
              wastedHours).criticalIssues.length > 0 then Panel.critical
        else if (updateTimeStates timeLogs totalScreen totalProductive
              wastedHours).warningIssues.length > 0 then Panel.warning
        else Panel.normal := by
    simp only [updateTimeStates, hl, if_true, hr, Bool.true_eq_false, if_false]
  have hne : ∀ l : List String, l.length > 0 ↔ l ≠ [] := by
    intro l
    cases l with
    | nil => simp
    | cons a t => simp
  refine ⟨?_, ?_, ?_, ?_⟩
  · rw [hW]
    by_cases h1 : wastedHours > 10 <;> by_cases h2 : r < 5 / 10 ∧ totalScreen > 5 <;>
      simp [h1, h2]
  · rw [hC]
    by_cases h1 : wastedHours > 20 <;> by_cases h2 : r < 25 / 100 ∧ totalScreen > 10 <;>
      simp [h1, h2]
  · rw [hS]
    by_cases hc : (updateTimeStates timeLogs totalScreen totalProductive
        wastedHours).criticalIssues.length > 0
    · rw [if_pos hc]
      exact ⟨fun _ => (hne _).1 hc, fun _ => rfl⟩
    · rw [if_neg hc]
      constructor
      · intro h
        split at h <;> exact absurd h (by decide)
      · intro h
        exact absurd ((hne _).2 h) hc
  · rw [hS]
    by_cases hc : (updateTimeStates timeLogs totalScreen totalProductive
        wastedHours).criticalIssues.length > 0
    · rw [if_pos hc]
      constructor
      · intro h; exact absurd h (by decide)
      · intro h; exact absurd h.1 ((hne _).1 hc)
    · rw [if_neg hc]
      have hcn : (updateTimeStates timeLogs totalScreen totalProductive
          wastedHours).criticalIssues = [] := by
        by_contra hx
        exact hc ((hne _).2 hx)
      by_cases hw : (updateTimeStates timeLogs totalScreen totalProductive
          wastedHours).warningIssues.length > 0
      · rw [if_pos hw]
        exact ⟨fun _ => ⟨hcn, (hne _).1 hw⟩, fun _ => rfl⟩
      · rw [if_neg hw]
        constructor
        · intro h; exact absurd h (by decide)
        · intro h; exact absurd ((hne _).2 h.2) hw

theorem updateTimeStates_thresholds_witness :
    ([(19727, ⟨12, 1⟩)] : TimeLogs) ≠ [] ∧
    ((updateTimeStates [(19727, ⟨12, 1⟩)] 12 1 11).shown = Panel.critical
      ↔ (updateTimeStates [(19727, ⟨12, 1⟩)] 12 1 11).criticalIssues ≠ []) :=
  ⟨by decide, (updateTimeStates_thresholds [(19727, ⟨12, 1⟩)] 12 1 11 (by decide)).2.2.1⟩

/-! ## Stability of the insertion sort -/

theorem filter_orderedInsert {α : Type} (r : α → α → Prop) [DecidableRel r] (p : α → Bool)
    (a : α) (h : ∀ b, p a = true → p b = true → r a b) (l : List α) :
    (l.orderedInsert r a).filter p = if p a = true then a :: l.filter p else l.filter p := by
  induction l with
  | nil => cases hp : p a <;> simp [hp]
  | cons b t ih =>
    by_cases hr : r a b
    · rw [List.orderedInsert, if_pos hr]
      cases hp : p a <;> simp [List.filter_cons, hp]
    · rw [List.orderedInsert, if_neg hr, List.filter_cons, ih]
      cases hp : p a with
      | false => simp [List.filter_cons]
      | true =>
        have hb : p b = false := by
          cases hq : p b with
          | false => rfl
          | true => exact absurd (h b hp hq) hr
        simp [List.filter_cons, hb]

/-- A sort by insertion keeps, among the elements selected by `p`, the order they had, as long
as the elements selected by `p` count as equal for the ordering. -/
theorem filter_insertionSort {α : Type} (r : α → α → Prop) [DecidableRel r] (p : α → Bool)
    (h : ∀ a b, p a = true → p b = true → r a b) (l : List α) :
    (l.insertionSort r).filter p = l.filter p := by
  induction l with
  | nil => rfl
  | cons a t ih =>
    rw [List.insertionSort, filter_orderedInsert r p a (h a), ih]
    cases hp : p a <;> simp [List.filter_cons, hp]

/-! ## The priority widget -/

theorem mem_collectIssues (today : Int) (currentMonth : String)
    (expenses : List ExpenseRecord) (habits : Habits) (budget : ℚ) (productivity : Int)
    (timeWasted : ℚ) (i : Issue) :
    i ∈ collectIssues today currentMonth expenses habits budget productivity timeWasted ↔
      (i = noHabitIssue ∧ (habits.filter (fun p => truthy p.2.history today)).length = 0
          ∧ (objKeys habits).length > 0) ∨
      (i = wasteIssue ∧ priorityWasteTotal currentMonth expenses > priorityWasteLimit budget) ∨
      (i = productivityIssue ∧ productivity < 40) ∨
      (i = timeWastedIssue ∧ timeWasted > 5) ∨
      (i = brokenStreakIssue (brokenStreaks habits) ∧ (brokenStreaks habits).length > 0) := by
  unfold collectIssues
  simp only [List.mem_append]
  by_cases c1 : (habits.filter (fun p => truthy p.2.history today)).length = 0
      ∧ (objKeys habits).length > 0 <;>
  by_cases c2 : priorityWasteTotal currentMonth expenses > priorityWasteLimit budget <;>
  by_cases c3 : productivity < 40 <;>
  by_cases c4 : timeWasted > 5 <;>
  by_cases c5 : (brokenStreaks habits).length > 0 <;>
  simp only [c1, c2, c3, c4, c5, if_true, if_false, List.mem_singleton, List.not_mem_nil,
    and_true, and_false, or_false, false_or, and_self, true_and] <;>
  first
    | rfl
    | (constructor <;> intro h <;> simp only [and_assoc] at h ⊢ <;> tauto)

theorem brokenStreakIssue_icon (names : List String) :
    (brokenStreakIssue names).icon = "🔥" := rfl

theorem brokenStreakIssue_priority (names : List String) :
    (brokenStreakIssue names).priority = 1 := rfl

theorem brokenStreaks_length_pos (habits : Habits) :
    (brokenStreaks habits).length > 0 ↔ ∃ p ∈ habits, p.2.streak = 0 ∧ p.2.longest > 0 := by
  unfold brokenStreaks
  rw [List.length_map, gt_iff_lt, List.length_pos, ne_eq, List.filter_eq_nil_iff]
  constructor
  · intro h
    by_contra hno
    apply h
    intro p hp hc
    simp only [Bool.and_eq_true, decide_eq_true_eq] at hc
    exact hno ⟨p, hp, hc⟩
  · rintro ⟨p, hp, hc⟩ h
    exact h p hp (by simpa using hc)

theorem no_habit_condition (today : Int) (habits : Habits) :
    ((habits.filter (fun p => truthy p.2.history today)).length = 0
        ∧ (objKeys habits).length > 0)
      ↔ habits ≠ [] ∧ ∀ p ∈ habits, truthy p.2.history today = false := by
  rw [List.length_eq_zero, List.filter_eq_nil_iff]
  unfold objKeys
  rw [List.length_map, gt_iff_lt, List.length_pos]
  constructor
  · rintro ⟨h1, h2⟩
    refine ⟨h2, fun p hp => ?_⟩
    cases ht : truthy p.2.history today with
    | false => rfl
    | true => exact absurd ht (h1 p hp)
  · rintro ⟨h1, h2⟩
    refine ⟨fun p hp => ?_, h1⟩
    rw [h2 p hp]
    exact Bool.false_ne_true

theorem priorityWasteTotal_eq_sum (currentMonth : String) (expenses : List ExpenseRecord) :
    priorityWasteTotal currentMonth expenses
      = (((expenses.filter (fun exp => startsWith exp.date currentMonth)).filter
          (fun exp => decide (exp.category = "Waste"))).map (fun exp => exp.amount)).sum := by
  unfold priorityWasteTotal
  rw [foldl_amount, zero_add]

theorem nodup_optional5 {α : Type} (a b c d e : α) (hab : a ≠ b) (hac : a ≠ c)
    (had : a ≠ d) (hae : a ≠ e) (hbc : b ≠ c) (hbd : b ≠ d) (hbe : b ≠ e) (hcd : c ≠ d)
    (hce : c ≠ e) (hde : d ≠ e) (A B C D E : Prop) [Decidable A] [Decidable B] [Decidable C]
    [Decidable D] [Decidable E] :
    ((if A then [a] else []) ++ (if B then [b] else []) ++ (if C then [c] else [])
      ++ (if D then [d] else []) ++ (if E then [e] else [])).Nodup := by
  by_cases hA : A <;> by_cases hB : B <;> by_cases hC : C <;> by_cases hD : D <;>
    by_cases hE : E <;> simp [hA, hB, hC, hD, hE, hab, hac, had, hae, hbc, hbd, hbe, hcd, hce, hde]

/-- C13: in `updatePriorityWidget`, for every input, the issues collected before sorting are
exactly: the tier-1 "no habits" issue iff at least one habit exists and none has a truthy
history entry for today; the tier-1 waste issue iff this month's Waste total > 20% of budget;
the tier-1 broken-streak issue iff some habit has streak = 0 and longest > 0; the tier-2
productivity issue iff productivity < 40; the tier-2 time issue iff wasted hours > 5. No other
issue is collected and none twice. -/
theorem updatePriorityWidget_collected (today : Int) (currentMonth : String)
    (expenses : List ExpenseRecord) (habits : Habits) (budget : ℚ) (productivity : Int)
    (timeWasted : ℚ) :
    (noHabitIssue ∈ collectIssues today currentMonth expenses habits budget productivity
        timeWasted
      ↔ habits ≠ [] ∧ ∀ p ∈ habits, objGet p.2.history today ≠ some true) ∧
    (wasteIssue ∈ collectIssues today currentMonth expenses habits budget productivity
        timeWasted
      ↔ (((expenses.filter (fun exp => startsWith exp.date currentMonth)).filter
          (fun exp => decide (exp.category = "Waste"))).map (fun exp => exp.amount)).sum
          > budget * (20 / 100)) ∧
    (brokenStreakIssue (brokenStreaks habits) ∈ collectIssues today currentMonth expenses
        habits budget productivity timeWasted
      ↔ ∃ p ∈ habits, p.2.streak = 0 ∧ p.2.longest > 0) ∧
    (productivityIssue ∈ collectIssues today currentMonth expenses habits budget productivity
        timeWasted
      ↔ productivity < 40) ∧
    (timeWastedIssue ∈ collectIssues today currentMonth expenses habits budget productivity
        timeWasted
      ↔ timeWasted > 5) ∧
    (∀ i ∈ collectIssues today currentMonth expenses habits budget productivity timeWasted,
      i = noHabitIssue ∨ i = wasteIssue ∨ i = brokenStreakIssue (brokenStreaks habits) ∨
        i = productivityIssue ∨ i = timeWastedIssue) ∧
    (collectIssues today currentMonth expenses habits budget productivity timeWasted).Nodup ∧
    noHabitIssue.priority = 1 ∧ wasteIssue.priority = 1 ∧
    (brokenStreakIssue (brokenStreaks habits)).priority = 1 ∧
    productivityIssue.priority = 2 ∧ timeWastedIssue.priority = 2 := by
  have hb1 : brokenStreakIssue (brokenStreaks habits) ≠ noHabitIssue :=
    fun h => absurd (congrArg Issue.icon h) (by rw [brokenStreakIssue_icon]; decide)
  have hb2 : brokenStreakIssue (brokenStreaks habits) ≠ wasteIssue :=
    fun h => absurd (congrArg Issue.icon h) (by rw [brokenStreakIssue_icon]; decide)
  have hb3 : brokenStreakIssue (brokenStreaks habits) ≠ productivityIssue :=
    fun h => absurd (congrArg Issue.priority h) (by rw [brokenStreakIssue_priority]; decide)
  have hb4 : brokenStreakIssue (brokenStreaks habits) ≠ timeWastedIssue :=
    fun h => absurd (congrArg Issue.priority h) (by rw [brokenStreakIssue_priority]; decide)
  have n12 : noHabitIssue ≠ wasteIssue := by decide
  have n13 : noHabitIssue ≠ productivityIssue := by decide
  have n14 : noHabitIssue ≠ timeWastedIssue := by decide
  have n23 : wasteIssue ≠ productivityIssue := by decide
  have n24 : wasteIssue ≠ timeWastedIssue := by decide
  have n34 : productivityIssue ≠ timeWastedIssue := by decide
  have hlimit : priorityWasteLimit budget = budget * (20 / 100) := by
    unfold priorityWasteLimit; ring
  have htruthy : (∀ p ∈ habits, truthy p.2.history today = false)
      ↔ ∀ p ∈ habits, objGet p.2.history today ≠ some true := by
    constructor
    · intro h p hp hget
      have := (truthy_iff p.2.history today).2 hget
      rw [h p hp] at this
      exact Bool.false_ne_true this
    · intro h p hp
      cases ht : truthy p.2.history today with
      | false => rfl
      | true => exact absurd ((truthy_iff p.2.history today).1 ht) (h p hp)
  refine ⟨?_, ?_, ?_, ?_, ?_, ?_, ?_, rfl, rfl, rfl, rfl, rfl⟩
  · rw [mem_collectIssues, ← htruthy, ← no_habit_condition]
    simp only [n12, n13, n14, Ne.symm hb1, false_and, or_false, true_and]
  · rw [mem_collectIssues, ← priorityWasteTotal_eq_sum, ← hlimit]
    simp only [Ne.symm n12, n23, n24, Ne.symm hb2, false_and, or_false, false_or, true_and]
  · rw [mem_collectIssues, ← brokenStreaks_length_pos]
    simp only [hb1, hb2, hb3, hb4, false_and, false_or, true_and]
  · rw [mem_collectIssues]
    simp only [Ne.symm n13, Ne.symm n23, n34, Ne.symm hb3, false_and, or_false, false_or,
      true_and]
  · rw [mem_collectIssues]
    simp only [Ne.symm n14, Ne.symm n24, Ne.symm n34, Ne.symm hb4, false_and, or_false,
      false_or, true_and]
  · intro i hi
    rcases (mem_collectIssues today currentMonth expenses habits budget productivity
      timeWasted i).1 hi with h | h | h | h | h
    · exact Or.inl h.1
    · exact Or.inr (Or.inl h.1)
    · exact Or.inr (Or.inr (Or.inr (Or.inl h.1)))
    · exact Or.inr (Or.inr (Or.inr (Or.inr h.1)))
    · exact Or.inr (Or.inr (Or.inl h.1))
  · unfold collectIssues
    exact nodup_optional5 _ _ _ _ _ n12 n13 n14 (Ne.symm hb1) n23 n24 (Ne.symm hb2) n34
      (Ne.symm hb3) (Ne.symm hb4) _ _ _ _ _

theorem fallbackIssue_not_mem_collectIssues (today : Int) (currentMonth : String)
    (expenses : List ExpenseRecord) (habits : Habits) (budget : ℚ) (productivity : Int)
    (timeWasted : ℚ) :
    fallbackIssue ∉ collectIssues today currentMonth expenses habits budget productivity
      timeWasted := by
  intro hmem
  have hp : ∀ i : Issue, i.priority ≠ 3 → fallbackIssue ≠ i :=
    fun i hi h => hi (by rw [← h]; rfl)
  rcases (mem_collectIssues today currentMonth expenses habits budget productivity
    timeWasted fallbackIssue).1 hmem with h | h | h | h | h
  · exact hp _ (by decide) h.1
  · exact hp _ (by decide) h.1
  · exact hp _ (by decide) h.1
  · exact hp _ (by decide) h.1
  · exact hp _ (by rw [brokenStreakIssue_priority]; decide) h.1

/-- C14: for every input, the list shown by `updatePriorityWidget` is the first three
elements of the stable sort by ascending tier of all collected issues (the fallback alone when
none was collected): the sorted list is ordered by tier, is a rearrangement of the issues and
keeps the issues of each tier in the order they were pushed. The list shown is never empty, has
at most 3 items, and its tiers are non-decreasing; it contains the tier-3 fallback iff no
tier-1 or tier-2 rule fired, and is then that single item. -/
theorem updatePriorityWidget_shown (today : Int) (currentMonth : String)
    (expenses : List ExpenseRecord) (habits : Habits) (budget : ℚ) (productivity : Int)
    (timeWasted : ℚ) :
    updatePriorityWidget today currentMonth expenses habits budget productivity timeWasted
      = ((if collectIssues today currentMonth expenses habits budget productivity timeWasted
              = [] then [fallbackIssue]
          else collectIssues today currentMonth expenses habits budget productivity
              timeWasted).insertionSort (fun a b => a.priority ≤ b.priority)).take 3 ∧
    (∀ issues : List Issue,
      (issues.insertionSort (fun a b => a.priority ≤ b.priority)).Sorted
          (fun a b => a.priority ≤ b.priority) ∧
      (issues.insertionSort (fun a b => a.priority ≤ b.priority)).Perm issues ∧
      ∀ tier : Nat,
        (issues.insertionSort (fun a b => a.priority ≤ b.priority)).filter
            (fun i => decide (i.priority = tier))
          = issues.filter (fun i => decide (i.priority = tier))) ∧
    updatePriorityWidget today currentMonth expenses habits budget productivity timeWasted
      ≠ [] ∧
    (updatePriorityWidget today currentMonth expenses habits budget productivity
      timeWasted).length ≤ 3 ∧
    (updatePriorityWidget today currentMonth expenses habits budget productivity
      timeWasted).Sorted (fun a b => a.priority ≤ b.priority) ∧
    (fallbackIssue ∈ updatePriorityWidget today currentMonth expenses habits budget
        productivity timeWasted
      ↔ collectIssues today currentMonth expenses habits budget productivity timeWasted
          = []) ∧
    (collectIssues today currentMonth expenses habits budget productivity timeWasted = [] →
      updatePriorityWidget today currentMonth expenses habits budget productivity timeWasted
        = [fallbackIssue]) ∧
    fallbackIssue.priority = 3 := by
  have hsorted : ∀ issues : List Issue,
      (issues.insertionSort (fun a b => a.priority ≤ b.priority)).Sorted
        (fun a b => a.priority ≤ b.priority) := by
    intro issues
    haveI : IsTotal Issue (fun a b => a.priority ≤ b.priority) :=
      ⟨fun a b => le_total a.priority b.priority⟩
    haveI : IsTrans Issue (fun a b => a.priority ≤ b.priority) :=
      ⟨fun _ _ _ h1 h2 => le_trans h1 h2⟩
    exact List.sorted_insertionSort _ issues
  have hdef : updatePriorityWidget today currentMonth expenses habits budget productivity
      timeWasted
      = ((if collectIssues today currentMonth expenses habits budget productivity timeWasted
              = [] then [fallbackIssue]
          else collectIssues today currentMonth expenses habits budget productivity
              timeWasted).insertionSort (fun a b => a.priority ≤ b.priority)).take 3 := by
    unfold updatePriorityWidget
    simp only [List.length_eq_zero]
  have hempty : collectIssues today currentMonth expenses habits budget productivity
      timeWasted = [] →
      updatePriorityWidget today currentMonth expenses habits budget productivity timeWasted
        = [fallbackIssue] := by
    intro h
    rw [hdef, if_pos h]
    rfl
  refine ⟨hdef, ?_, ?_, ?_, ?_, ?_, hempty, rfl⟩
  · intro issues
    refine ⟨hsorted issues, List.perm_insertionSort _ issues, fun tier => ?_⟩
    apply filter_insertionSort
    intro a b ha hb
    simp only [decide_eq_true_eq] at ha hb
    rw [ha, hb]
  · rw [hdef]
    intro h
    have hlen := congrArg List.length h
    rw [List.length_take, (List.perm_insertionSort _ _).length_eq] at hlen
    simp only [List.length_nil] at hlen
    by_cases hc : collectIssues today currentMonth expenses habits budget productivity
        timeWasted = []
    · rw [if_pos hc] at hlen
      simp at hlen
    · rw [if_neg hc] at hlen
      have := List.length_pos.2 hc
      omega
  · rw [hdef]
    exact List.length_take_le _ _
  · rw [hdef]
    exact (hsorted _).sublist (List.take_sublist _ _)
  · constructor
    · intro hmem
      by_contra hc
      rw [hdef, if_neg hc] at hmem
      have h1 := List.mem_of_mem_take hmem
      rw [List.mem_insertionSort] at h1
      exact fallbackIssue_not_mem_collectIssues today currentMonth expenses habits budget
        productivity timeWasted h1
    · intro hc
      rw [hempty hc]
      exact List.mem_singleton.2 rfl

/-! ## Reset -/

theorem objGet_removeData (store : Store) (key k : String) :
    objGet (removeData store key) k = if k = key then none else objGet store k := by
  unfold removeData
  induction store with
  | nil => simp [objGet]
  | cons p rest ih =>
    obtain ⟨a, v⟩ := p
    by_cases ha : a = key
    · subst ha
      rw [List.filter_cons]
      simp only [ne_eq, not_true_eq_false, decide_False, Bool.false_eq_true, if_false]
      rw [ih]
      by_cases hk : k = a
      · simp [hk]
      · simp [hk, objGet, Ne.symm hk]
    · rw [List.filter_cons]
      simp only [ne_eq, ha, not_false_eq_true, decide_True, if_true]
      by_cases hk : k = key
      · subst hk
        simp only [objGet, ha, if_false, ih, if_true]
      · by_cases hak : a = k
        · simp [objGet, hak, hk]
        · simp only [objGet, hak, if_false, ih, hk]

theorem objGet_clearAllAppData (store : Store) (k : String) :
    objGet (clearAllAppData store) k
      = if k = KEY_EXPENSES ∨ k = KEY_HABITS ∨ k = KEY_TIME_LOGS then none
        else objGet store k := by
  unfold clearAllAppData
  simp only [List.foldl_cons, List.foldl_nil, objGet_removeData]
  by_cases h1 : k = KEY_EXPENSES <;> by_cases h2 : k = KEY_HABITS <;>
    by_cases h3 : k = KEY_TIME_LOGS <;> simp [h1, h2, h3]

/-- C15, evaluated where it fails: `clearAllAppData` removes the three entries named in
`STORAGE_KEYS` from any store and leaves every other entry as it was. On a store that also
holds the budget 5000 under `MONTHLY_BUDGET` and the theme `dark` under `theme`, both are
still there afterwards, and the reloaded page has the budget 5000 again. -/
theorem clearAllAppData_keeps_budget_and_theme :
    (∀ store : Store,
      getData (clearAllAppData store) KEY_EXPENSES = none ∧
      getData (clearAllAppData store) KEY_HABITS = none ∧
      getData (clearAllAppData store) KEY_TIME_LOGS = none ∧
      getData (clearAllAppData store) "MONTHLY_BUDGET" = getData store "MONTHLY_BUDGET" ∧
      getData (clearAllAppData store) "theme" = getData store "theme") ∧
    getData (clearAllAppData
      [(KEY_EXPENSES, Blob.expenses [⟨"a", 100, "Food", "", "2024-03-01"⟩]),
        ("MONTHLY_BUDGET", Blob.num 5000), ("theme", Blob.text "dark")])
      "MONTHLY_BUDGET" = some (Blob.num 5000) ∧
    getData (clearAllAppData
      [(KEY_EXPENSES, Blob.expenses [⟨"a", 100, "Food", "", "2024-03-01"⟩]),
        ("MONTHLY_BUDGET", Blob.num 5000), ("theme", Blob.text "dark")])
      "theme" = some (Blob.text "dark") ∧
    (loadApp (clearAllAppData
      [(KEY_EXPENSES, Blob.expenses [⟨"a", 100, "Food", "", "2024-03-01"⟩]),
        ("MONTHLY_BUDGET", Blob.num 5000), ("theme", Blob.text "dark")])).monthlyBudget
      = 5000 := by
  have hb : ¬ ("MONTHLY_BUDGET" = KEY_EXPENSES ∨ "MONTHLY_BUDGET" = KEY_HABITS
      ∨ "MONTHLY_BUDGET" = KEY_TIME_LOGS) := by decide
  have ht : ¬ ("theme" = KEY_EXPENSES ∨ "theme" = KEY_HABITS ∨ "theme" = KEY_TIME_LOGS) := by
    decide
  have hgen : ∀ store : Store,
      getData (clearAllAppData store) KEY_EXPENSES = none ∧
      getData (clearAllAppData store) KEY_HABITS = none ∧
      getData (clearAllAppData store) KEY_TIME_LOGS = none ∧
      getData (clearAllAppData store) "MONTHLY_BUDGET" = getData store "MONTHLY_BUDGET" ∧
      getData (clearAllAppData store) "theme" = getData store "theme" := by
    intro store
    unfold getData
    refine ⟨?_, ?_, ?_, ?_, ?_⟩
    · rw [objGet_clearAllAppData]; simp
    · rw [objGet_clearAllAppData]; simp
    · rw [objGet_clearAllAppData]; simp
    · rw [objGet_clearAllAppData, if_neg hb]
    · rw [objGet_clearAllAppData, if_neg ht]
  have k1 : ¬ (KEY_EXPENSES = "MONTHLY_BUDGET") := by decide
  have k2 : ¬ (KEY_EXPENSES = "theme") := by decide
  have k3 : ¬ ("MONTHLY_BUDGET" = "theme") := by decide
  have e1 : getData [(KEY_EXPENSES, Blob.expenses [⟨"a", 100, "Food", "", "2024-03-01"⟩]),
      ("MONTHLY_BUDGET", Blob.num 5000), ("theme", Blob.text "dark")] "MONTHLY_BUDGET"
      = some (Blob.num 5000) := by
    simp [getData, objGet, k1]
  have e2 : getData [(KEY_EXPENSES, Blob.expenses [⟨"a", 100, "Food", "", "2024-03-01"⟩]),
      ("MONTHLY_BUDGET", Blob.num 5000), ("theme", Blob.text "dark")] "theme"
      = some (Blob.text "dark") := by
    simp [getData, objGet, k2, k3]
  have e3 := (hgen [(KEY_EXPENSES, Blob.expenses [⟨"a", 100, "Food", "", "2024-03-01"⟩]),
      ("MONTHLY_BUDGET", Blob.num 5000), ("theme", Blob.text "dark")]).2.2.2
  refine ⟨hgen, e3.1.trans e1, e3.2.trans e2, ?_⟩
  simp only [loadApp, e3.1.trans e1]
  norm_num

/-! ## Invalid input -/

/-- C16: invalid input is a no-op. `addExpense` with a non-numeric amount, an empty category
or an empty date, `logTime` with an empty date or a non-numeric screen or productive value,
and `setBudget` with a non-numeric value each return the state they were given: the in-memory
collections, the budget and the store are exactly as they were. -/
theorem invalid_input_noop (dateValue : String → Int) (filterMonth id : String)
    (amount : Option ℚ) (category note date : String) (day : Option Int)
    (screen productive : Option ℚ) (st : AppState) :
    addExpense dateValue filterMonth id none category note date st = st ∧
    addExpense dateValue filterMonth id amount "" note date st = st ∧
    addExpense dateValue filterMonth id amount category note "" st = st ∧
    logTime none screen productive st = st ∧
    logTime day none productive st = st ∧
    logTime day screen none st = st ∧
    setBudget none st = st := by
  refine ⟨rfl, ?_, ?_, ?_, ?_, ?_, rfl⟩
  · cases amount with
    | none => rfl
    | some a => simp [addExpense]
  · cases amount with
    | none => rfl
    | some a => simp [addExpense]
  · rfl
  · cases day <;> rfl
  · cases day <;> cases screen <;> rfl

/-! ## The expense collection under adding and deleting -/

theorem renderExpenses_expenses_eq (dateValue : String → Int)
    (expenses : List ExpenseRecord) (monthlyBudget : ℚ) (filterMonth : String) :
    (renderExpenses dateValue expenses monthlyBudget filterMonth).expenses
      = if filterMonth ≠ "" then expenses
        else expenses.insertionSort (fun a b => dateValue b.date ≤ dateValue a.date) := by
  by_cases h : filterMonth ≠ ""
  · simp only [renderExpenses]
    rw [if_pos h, if_pos h]
  · simp only [renderExpenses]
    rw [if_neg h, if_neg h, if_neg h]

theorem renderExpenses_expenses_perm (dateValue : String → Int)
    (expenses : List ExpenseRecord) (monthlyBudget : ℚ) (filterMonth : String) :
    (renderExpenses dateValue expenses monthlyBudget filterMonth).expenses.Perm expenses := by
  rw [renderExpenses_expenses_eq]
  by_cases h : filterMonth ≠ ""
  · rw [if_pos h]
  · rw [if_neg h]
    exact List.perm_insertionSort _ _

theorem renderExpenses_expenses_of_filter (dateValue : String → Int)
    (expenses : List ExpenseRecord) (monthlyBudget : ℚ) (filterMonth : String)
    (h : filterMonth ≠ "") :
    (renderExpenses dateValue expenses monthlyBudget filterMonth).expenses = expenses := by
  rw [renderExpenses_expenses_eq, if_pos h]

theorem renderExpenses_expenses_of_sorted (dateValue : String → Int)
    (expenses : List ExpenseRecord) (monthlyBudget : ℚ) (filterMonth : String)
    (h : expenses.Sorted (fun a b => dateValue b.date ≤ dateValue a.date)) :
    (renderExpenses dateValue expenses monthlyBudget filterMonth).expenses = expenses := by
  by_cases hf : filterMonth ≠ ""
  · exact renderExpenses_expenses_of_filter dateValue expenses monthlyBudget filterMonth hf
  · rw [renderExpenses_expenses_eq, if_neg hf]
    exact List.Sorted.insertionSort_eq h

theorem mem_applyExpenseOp (dateValue : String → Int) (st : AppState) (op : ExpenseOp)
    (r : ExpenseRecord) (h : r ∈ (applyExpenseOp dateValue st op).expenses) :
    r ∈ st.expenses ∨ (op.submitted = some r.amount ∧ r.amount ≠ 0) := by
  cases op with
  | add filterMonth id amount category note date =>
    simp only [applyExpenseOp, addExpense] at h
    cases amount with
    | none => exact Or.inl h
    | some a =>
      simp only at h
      by_cases hc : a = 0 ∨ category = "" ∨ date = ""
      · rw [if_pos hc] at h; exact Or.inl h
      · rw [if_neg hc] at h
        have h1 := (renderExpenses_expenses_perm dateValue
          (st.expenses ++ [⟨id, a, category, note, date⟩]) st.monthlyBudget
          filterMonth).mem_iff.1 h
        rcases List.mem_append.1 h1 with h2 | h2
        · exact Or.inl h2
        · right
          have e := List.mem_singleton.1 h2
          subst e
          exact ⟨rfl, fun h0 => hc (Or.inl h0)⟩
  | delete filterMonth id =>
    simp only [applyExpenseOp, deleteExpense] at h
    have h1 := (renderExpenses_expenses_perm dateValue
      (st.expenses.filter (fun exp => decide (exp.id ≠ id))) st.monthlyBudget
      filterMonth).mem_iff.1 h
    exact Or.inl (List.mem_of_mem_filter h1)
  | clear filterMonth =>
    simp only [applyExpenseOp, clearSelectedMonth] at h
    by_cases hf : filterMonth = ""
    · rw [if_pos hf] at h; exact Or.inl h
    · rw [if_neg hf] at h
      have h1 := (renderExpenses_expenses_perm dateValue
        (st.expenses.filter (fun exp => !(startsWith exp.date filterMonth))) st.monthlyBudget
        filterMonth).mem_iff.1 h
      exact Or.inl (List.mem_of_mem_filter h1)

theorem mem_foldl_applyExpenseOp (dateValue : String → Int) (ops : List ExpenseOp) :
    ∀ (st : AppState) (r : ExpenseRecord),
      r ∈ (ops.foldl (applyExpenseOp dateValue) st).expenses →
      r ∈ st.expenses ∨ (r.amount ≠ 0 ∧ ∃ op ∈ ops, op.submitted = some r.amount) := by
  induction ops with
  | nil => intro st r h; exact Or.inl h
  | cons op rest ih =>
    intro st r h
    rw [List.foldl_cons] at h
    rcases ih _ r h with h1 | ⟨h1, op', hop', h2⟩
    · rcases mem_applyExpenseOp dateValue st op r h1 with h3 | ⟨h3, h4⟩
      · exact Or.inl h3
      · exact Or.inr ⟨h4, op, List.mem_cons_self op rest, h3⟩
    · exact Or.inr ⟨h1, op', List.mem_cons_of_mem op hop', h2⟩

/-- C17, the statement as claimed fails: `addExpense` with the amount -5 on the empty
collection stores a record with the amount -5. -/
theorem addExpense_accepts_negative_amount :
    (addExpense dateDigits "" "x" (some (-5)) "Food" "" "2024-03-01" (loadApp [])).expenses
      = [⟨"x", -5, "Food", "", "2024-03-01"⟩] ∧
    ¬ ∀ r ∈ (addExpense dateDigits "" "x" (some (-5)) "Food" "" "2024-03-01"
        (loadApp [])).expenses, 0 ≤ r.amount := by
  have e : (addExpense dateDigits "" "x" (some (-5)) "Food" "" "2024-03-01"
      (loadApp [])).expenses = [⟨"x", -5, "Food", "", "2024-03-01"⟩] := by
    have hc : ¬ ((-5 : ℚ) = 0 ∨ "Food" = "" ∨ "2024-03-01" = "") := by
      refine fun h => h.elim (by norm_num) (fun h => h.elim (by decide) (by decide))
    simp only [addExpense, if_neg hc, loadApp, getData, objGet, List.nil_append, renderExpenses,
      ne_eq, not_true_eq_false, if_false, List.insertionSort, List.orderedInsert]
  refine ⟨e, ?_⟩
  rw [e]
  intro h
  have := h _ (List.mem_singleton.2 rfl)
  norm_num at this

/-- C17, amended: starting from the empty collection, after every sequence of `addExpense`,
`deleteExpense` and `clearSelectedMonth` every record carries an amount that some `addExpense`
of the sequence submitted, and that amount is not 0; the sign is not checked. So all amounts
are non-negative (indeed positive) whenever every submitted amount is non-negative. -/
theorem expense_amounts_invariant (dateValue : String → Int) (ops : List ExpenseOp)
    (st : AppState) (hempty : st.expenses = []) :
    (∀ r ∈ (ops.foldl (applyExpenseOp dateValue) st).expenses,
      r.amount ≠ 0 ∧ ∃ op ∈ ops, op.submitted = some r.amount) ∧
    ((∀ op ∈ ops, ∀ a, op.submitted = some a → 0 ≤ a) →
      ∀ r ∈ (ops.foldl (applyExpenseOp dateValue) st).expenses, 0 < r.amount) := by
  have h1 : ∀ r ∈ (ops.foldl (applyExpenseOp dateValue) st).expenses,
      r.amount ≠ 0 ∧ ∃ op ∈ ops, op.submitted = some r.amount := by
    intro r hr
    rcases mem_foldl_applyExpenseOp dateValue ops st r hr with h | h
    · rw [hempty] at h; exact absurd h (List.not_mem_nil r)
    · exact h
  refine ⟨h1, ?_⟩
  intro hnn r hr
  obtain ⟨hne, op, hop, hsub⟩ := h1 r hr
  exact lt_of_le_of_ne (hnn op hop _ hsub) (Ne.symm hne)

theorem expense_amounts_invariant_witness :
    (loadApp []).expenses = [] ∧
    ∀ r ∈ ([ExpenseOp.add "" "x" (some 7) "Food" "" "2024-03-01",
        ExpenseOp.delete "" "y"].foldl (applyExpenseOp dateDigits) (loadApp [])).expenses,
      r.amount ≠ 0 ∧ ∃ op ∈ [ExpenseOp.add "" "x" (some 7) "Food" "" "2024-03-01",
        ExpenseOp.delete "" "y"], op.submitted = some r.amount :=
  ⟨rfl, (expense_amounts_invariant dateDigits _ (loadApp []) rfl).1⟩

/-! ## Deleting -/

theorem dateDigits_examples :
    dateDigits "2024-01-01" = 20240101 ∧ dateDigits "2024-02-01" = 20240201 ∧
    dateDigits "2024-03-01" = 20240301 := by
  decide

/-- Why the order of the remaining records needs the list to be in display order: on the list
`[a (2024-01-01), b (2024-02-01), c (2024-03-01)]` with no month filter, a state no page
reaches, `deleteExpense('c')` would leave `[b, a]`, because the unfiltered `renderExpenses` it
calls sorts the array in place. -/
theorem deleteExpense_reorders_unfiltered :
    (deleteExpense dateDigits "" "c"
      ⟨[⟨"a", 1, "Food", "", "2024-01-01"⟩, ⟨"b", 2, "Food", "", "2024-02-01"⟩,
        ⟨"c", 3, "Food", "", "2024-03-01"⟩], 10000, [], [], []⟩).expenses
      = [⟨"b", 2, "Food", "", "2024-02-01"⟩, ⟨"a", 1, "Food", "", "2024-01-01"⟩] ∧
    ([⟨"a", 1, "Food", "", "2024-01-01"⟩, ⟨"b", 2, "Food", "", "2024-02-01"⟩,
        ⟨"c", 3, "Food", "", "2024-03-01"⟩] : List ExpenseRecord).filter
        (fun exp => decide (exp.id ≠ "c"))
      = [⟨"a", 1, "Food", "", "2024-01-01"⟩, ⟨"b", 2, "Food", "", "2024-02-01"⟩] := by
  obtain ⟨d1, d2, _⟩ := dateDigits_examples
  have hf : ([⟨"a", 1, "Food", "", "2024-01-01"⟩, ⟨"b", 2, "Food", "", "2024-02-01"⟩,
        ⟨"c", 3, "Food", "", "2024-03-01"⟩] : List ExpenseRecord).filter
        (fun exp => decide (exp.id ≠ "c"))
      = [⟨"a", 1, "Food", "", "2024-01-01"⟩, ⟨"b", 2, "Food", "", "2024-02-01"⟩] := by
    have h1 : ¬ ("a" = "c") := by decide
    have h2 : ¬ ("b" = "c") := by decide
    simp [List.filter_cons, h1, h2]
  refine ⟨?_, hf⟩
  simp only [deleteExpense, hf, renderExpenses_expenses_eq, ne_eq, not_true_eq_false,
    if_false, List.insertionSort, List.orderedInsert, d1, d2]
  norm_num

/-- For every module state, `deleteExpense(id)` writes to the store exactly the records whose
id differs from `id`, in their previous relative order, and leaves in memory the same records,
in that order whenever a month filter is set or the list was in display order (date
descending). `clearSelectedMonth` with a non-empty month key `m` leaves, in memory and in the
store, exactly the records whose date does not start with `m`, in their previous relative
order, so that filtering the result by `m` gives the empty list; with an empty month key it
changes nothing. -/
theorem deletion_removes_exactly (dateValue : String → Int) (filterMonth id : String)
    (st : AppState) :
    getData (deleteExpense dateValue filterMonth id st).store KEY_EXPENSES
      = some (Blob.expenses (st.expenses.filter (fun exp => decide (exp.id ≠ id)))) ∧
    (st.expenses.filter (fun exp => decide (exp.id ≠ id))).Sublist st.expenses ∧
    (∀ r, r ∈ st.expenses.filter (fun exp => decide (exp.id ≠ id))
      ↔ r ∈ st.expenses ∧ r.id ≠ id) ∧
    (deleteExpense dateValue filterMonth id st).expenses.Perm
      (st.expenses.filter (fun exp => decide (exp.id ≠ id))) ∧
    (filterMonth ≠ "" ∨ st.expenses.Sorted (fun a b => dateValue b.date ≤ dateValue a.date) →
      (deleteExpense dateValue filterMonth id st).expenses
        = st.expenses.filter (fun exp => decide (exp.id ≠ id))) ∧
    (filterMonth ≠ "" →
      (clearSelectedMonth dateValue filterMonth st).expenses
        = st.expenses.filter (fun exp => !(startsWith exp.date filterMonth)) ∧
      getData (clearSelectedMonth dateValue filterMonth st).store KEY_EXPENSES
        = some (Blob.expenses
            (st.expenses.filter (fun exp => !(startsWith exp.date filterMonth)))) ∧
      (st.expenses.filter (fun exp => !(startsWith exp.date filterMonth))).Sublist
        st.expenses ∧
      (∀ r, r ∈ (clearSelectedMonth dateValue filterMonth st).expenses
        ↔ r ∈ st.expenses ∧ startsWith r.date filterMonth = false) ∧
      (clearSelectedMonth dateValue filterMonth st).expenses.filter
        (fun exp => startsWith exp.date filterMonth) = []) ∧
    clearSelectedMonth dateValue "" st = st := by
  have hstore : ∀ (store : Store) (b : Blob),
      getData (saveData store KEY_EXPENSES b) KEY_EXPENSES = some b := by
    intro store b
    unfold getData saveData
    rw [objGet_objSet, if_pos rfl]
  have hdel : (deleteExpense dateValue filterMonth id st).expenses
      = (renderExpenses dateValue (st.expenses.filter (fun exp => decide (exp.id ≠ id)))
          st.monthlyBudget filterMonth).expenses := rfl
  refine ⟨hstore _ _, List.filter_sublist _, ?_, ?_, ?_, ?_, ?_⟩
  · intro r
    rw [List.mem_filter, decide_eq_true_eq]
  · rw [hdel]
    exact renderExpenses_expenses_perm _ _ _ _
  · intro h
    rw [hdel]
    rcases h with h | h
    · exact renderExpenses_expenses_of_filter _ _ _ _ h
    · exact renderExpenses_expenses_of_sorted _ _ _ _ (h.sublist (List.filter_sublist _))
  · intro hf
    have hclr : clearSelectedMonth dateValue filterMonth st
        = ⟨(renderExpenses dateValue
            (st.expenses.filter (fun exp => !(startsWith exp.date filterMonth)))
            st.monthlyBudget filterMonth).expenses,
          st.monthlyBudget, st.habits, st.timeLogs,
          saveData st.store KEY_EXPENSES (Blob.expenses
            (st.expenses.filter (fun exp => !(startsWith exp.date filterMonth))))⟩ := by
      unfold clearSelectedMonth
      rw [if_neg hf]
    have hexp : (clearSelectedMonth dateValue filterMonth st).expenses
        = st.expenses.filter (fun exp => !(startsWith exp.date filterMonth)) := by
      rw [hclr]
      exact renderExpenses_expenses_of_filter dateValue
        (st.expenses.filter (fun exp => !(startsWith exp.date filterMonth)))
        st.monthlyBudget filterMonth hf
    refine ⟨hexp, ?_, List.filter_sublist _, ?_, ?_⟩
    · rw [hclr]
      exact hstore _ _
    · intro r
      rw [hexp, List.mem_filter]
      simp
    · rw [hexp, List.filter_filter]
      apply List.filter_eq_nil_iff.2
      intro r _
      cases startsWith r.date filterMonth <;> simp
  · unfold clearSelectedMonth
    rw [if_pos rfl]

/-! ## Display order -/

theorem renderExpenses_rows_eq (dateValue : String → Int) (expenses : List ExpenseRecord)
    (monthlyBudget : ℚ) (filterMonth : String) :
    (renderExpenses dateValue expenses monthlyBudget filterMonth).rows
      = (if filterMonth ≠ "" then expenses.filter (fun exp => startsWith exp.date filterMonth)
          else expenses).insertionSort (fun a b => dateValue b.date ≤ dateValue a.date) := rfl

theorem sorted_by_date_desc (dateValue : String → Int) (l : List ExpenseRecord) :
    (l.insertionSort (fun a b => dateValue b.date ≤ dateValue a.date)).Sorted
      (fun a b => dateValue b.date ≤ dateValue a.date) := by
  haveI : IsTotal ExpenseRecord (fun a b => dateValue b.date ≤ dateValue a.date) :=
    ⟨fun a b => le_total (dateValue b.date) (dateValue a.date)⟩
  haveI : IsTrans ExpenseRecord (fun a b => dateValue b.date ≤ dateValue a.date) :=
    ⟨fun _ _ _ h1 h2 => le_trans h2 h1⟩
  exact List.sorted_insertionSort _ l

theorem same_date_order_kept (dateValue : String → Int) (l : List ExpenseRecord) (d : Int) :
    (l.insertionSort (fun a b => dateValue b.date ≤ dateValue a.date)).filter
        (fun exp => decide (dateValue exp.date = d))
      = l.filter (fun exp => decide (dateValue exp.date = d)) := by
  apply filter_insertionSort
  intro a b ha hb
  simp only [decide_eq_true_eq] at ha hb
  rw [ha, hb]

theorem renderExpenses_expenses_same_date (dateValue : String → Int)
    (expenses : List ExpenseRecord) (monthlyBudget : ℚ) (filterMonth : String) (d : Int) :
    (renderExpenses dateValue expenses monthlyBudget filterMonth).expenses.filter
        (fun exp => decide (dateValue exp.date = d))
      = expenses.filter (fun exp => decide (dateValue exp.date = d)) := by
  rw [renderExpenses_expenses_eq]
  by_cases h : filterMonth ≠ ""
  · rw [if_pos h]
  · rw [if_neg h]
    exact same_date_order_kept dateValue expenses d

theorem renderRepeatedly_kept (dateValue : String → Int) (monthlyBudget : ℚ)
    (filterMonths : List String) :
    ∀ expenses : List ExpenseRecord,
      (renderRepeatedly dateValue monthlyBudget expenses filterMonths).Perm expenses ∧
      ∀ d : Int,
        (renderRepeatedly dateValue monthlyBudget expenses filterMonths).filter
            (fun exp => decide (dateValue exp.date = d))
          = expenses.filter (fun exp => decide (dateValue exp.date = d)) := by
  induction filterMonths with
  | nil => intro expenses; exact ⟨List.Perm.refl _, fun _ => rfl⟩
  | cons m rest ih =>
    intro expenses
    obtain ⟨h1, h2⟩ := ih (renderExpenses dateValue expenses monthlyBudget m).expenses
    refine ⟨?_, fun d => ?_⟩
    · exact h1.trans (renderExpenses_expenses_perm dateValue expenses monthlyBudget m)
    · exact (h2 d).trans (renderExpenses_expenses_same_date dateValue expenses monthlyBudget m d)

/-- C19: for every expense list and every month filter (including none), the list shown by
`renderExpenses` is a rearrangement of the filtered records, is ordered by date descending,
and lists the records of any one date in the order they have in the collection; the in-memory
collection holds the same records after rendering, with the records of any one date still in
their previous order, also after any number of further renders with any filters, and
`addExpense` puts a new record after the earlier records of its date. So records of the same
date are always shown in the order they were inserted. -/
theorem renderExpenses_display_order (dateValue : String → Int)
    (expenses : List ExpenseRecord) (monthlyBudget : ℚ) (filterMonth : String) :
    (renderExpenses dateValue expenses monthlyBudget filterMonth).rows.Perm
      (if filterMonth ≠ "" then expenses.filter (fun exp => startsWith exp.date filterMonth)
        else expenses) ∧
    (renderExpenses dateValue expenses monthlyBudget filterMonth).rows.Sorted
      (fun a b => dateValue b.date ≤ dateValue a.date) ∧
    (∀ d : Int,
      (renderExpenses dateValue expenses monthlyBudget filterMonth).rows.filter
          (fun exp => decide (dateValue exp.date = d))
        = (if filterMonth ≠ "" then
              expenses.filter (fun exp => startsWith exp.date filterMonth)
            else expenses).filter (fun exp => decide (dateValue exp.date = d))) ∧
    (renderExpenses dateValue expenses monthlyBudget filterMonth).expenses.Perm expenses ∧
    (∀ d : Int,
      (renderExpenses dateValue expenses monthlyBudget filterMonth).expenses.filter
          (fun exp => decide (dateValue exp.date = d))
        = expenses.filter (fun exp => decide (dateValue exp.date = d))) ∧
    (∀ filterMonths : List String,
      (renderRepeatedly dateValue monthlyBudget expenses filterMonths).Perm expenses ∧
      ∀ d : Int,
        (renderRepeatedly dateValue monthlyBudget expenses filterMonths).filter
            (fun exp => decide (dateValue exp.date = d))
          = expenses.filter (fun exp => decide (dateValue exp.date = d))) ∧
    (∀ (st : AppState) (id : String) (a : ℚ) (category note date : String) (d : Int),
      ¬ (a = 0 ∨ category = "" ∨ date = "") →
      (addExpense dateValue filterMonth id (some a) category note date st).expenses.filter
          (fun exp => decide (dateValue exp.date = d))
        = st.expenses.filter (fun exp => decide (dateValue exp.date = d))
          ++ (if dateValue date = d then [⟨id, a, category, note, date⟩] else [])) := by
  refine ⟨?_, ?_, ?_, renderExpenses_expenses_perm _ _ _ _,
    renderExpenses_expenses_same_date _ _ _ _,
    fun filterMonths => renderRepeatedly_kept dateValue monthlyBudget filterMonths expenses,
    ?_⟩
  rotate_left 3
  · intro st id a category note date d hc
    have e : (addExpense dateValue filterMonth id (some a) category note date st).expenses
        = (renderExpenses dateValue (st.expenses ++ [⟨id, a, category, note, date⟩])
            st.monthlyBudget filterMonth).expenses := by
      simp only [addExpense, if_neg hc]
    rw [e, renderExpenses_expenses_same_date, List.filter_append]
    by_cases hd : dateValue date = d
    · simp [List.filter_cons, hd]
    · simp [List.filter_cons, hd]
  · rw [renderExpenses_rows_eq]
    exact List.perm_insertionSort _ _
  · rw [renderExpenses_rows_eq]
    exact sorted_by_date_desc dateValue _
  · intro d
    rw [renderExpenses_rows_eq]
    exact same_date_order_kept dateValue _ d

/-! ## Best streak -/

theorem bestStreak_eq_zero (habits : Habits) : bestStreak habits = 0 := by
  have hk : ¬ ("currentStreak" = "streak") := by decide
  have hk2 : ¬ ("currentStreak" = "longest") := by decide
  have h : ∀ (l : Habits) (best : Nat),
      l.foldl (fun best p =>
        if (habitNumField p.2 "currentStreak").getD 0 > best then
          (habitNumField p.2 "currentStreak").getD 0
        else best) best = best := by
    intro l
    induction l with
    | nil => intro best; rfl
    | cons p rest ih =>
      intro best
      rw [List.foldl_cons]
      have e : (habitNumField p.2 "currentStreak").getD 0 = 0 := by
        simp [habitNumField, hk, hk2]
      rw [e, if_neg (Nat.not_lt_zero best)]
      exact ih best
  exact h habits 0

/-- C20, evaluated where it fails: with the stored habits
`{study: {history: {2024-01-05: true}, streak: 1, longest: 1}}` the best streak computed by
`updateTruthSummaryCards` is 0, while the largest `streak` field is 1; indeed the computed
value is 0 for every `habits` object, since the loop reads `habit.currentStreak`, a field no
habit state has. -/
theorem bestStreak_ignores_streak_field :
    bestStreak [("study", ⟨[(19727, true)], 1, 1⟩)] = 0 ∧
    habitNumField ⟨[(19727, true)], 1, 1⟩ "streak" = some 1 ∧
    habitNumField ⟨[(19727, true)], 1, 1⟩ "currentStreak" = none ∧
    (toggleHabit 19727 "study" [("study", ⟨[], 0, 0⟩)]).map
        (fun habits => (objGet habits "study").map (fun habit => habit.streak))
      = some (some 1) ∧
    (∀ habits : Habits, bestStreak habits = 0) := by
  refine ⟨bestStreak_eq_zero _, by decide, by decide, ?_, bestStreak_eq_zero⟩
  rw [toggleHabit_eq 19727 "study" [("study", ⟨[], 0, 0⟩)] ⟨[], 0, 0⟩ rfl]
  simp only [Option.map, objGet_objSet, if_true, calculateStreaks_current]
  have ht : truthy ([] : History) 19727 = false := rfl
  have h1 : truthy (objSet ([] : History) 19727 true) 19727 = true := by decide
  have h0 : truthy (objSet ([] : History) 19727 true) (19727 - 1) = false := by decide
  rw [ht, Bool.not_false, runLen_of_truthy _ _ h1, runLen_of_not_truthy _ _ h0]

/-! ## What the cut to three issues drops -/

theorem tierOnes_optional5 (a b c d e : Issue) (ha : a.priority = 1) (hb : b.priority = 1)
    (hc : c.priority = 2) (hd : d.priority = 2) (he : e.priority = 1) (A B C D E : Prop)
    [Decidable A] [Decidable B] [Decidable C] [Decidable D] [Decidable E] :
    tierOnes ((if A then [a] else []) ++ (if B then [b] else []) ++ (if C then [c] else [])
        ++ (if D then [d] else []) ++ (if E then [e] else []))
      = (if A then [a] else []) ++ (if B then [b] else []) ++ (if E then [e] else []) := by
  unfold tierOnes
  by_cases hA : A <;> by_cases hB : B <;> by_cases hC : C <;> by_cases hD : D <;>
    by_cases hE : E <;> simp [hA, hB, hC, hD, hE, List.filter_cons, ha, hb, hc, hd, he]

theorem tierTwos_optional5 (a b c d e : Issue) (ha : a.priority = 1) (hb : b.priority = 1)
    (hc : c.priority = 2) (hd : d.priority = 2) (he : e.priority = 1) (A B C D E : Prop)
    [Decidable A] [Decidable B] [Decidable C] [Decidable D] [Decidable E] :
    tierTwos ((if A then [a] else []) ++ (if B then [b] else []) ++ (if C then [c] else [])
        ++ (if D then [d] else []) ++ (if E then [e] else []))
      = (if C then [c] else []) ++ (if D then [d] else []) := by
  unfold tierTwos
  by_cases hA : A <;> by_cases hB : B <;> by_cases hC : C <;> by_cases hD : D <;>
    by_cases hE : E <;> simp [hA, hB, hC, hD, hE, List.filter_cons, ha, hb, hc, hd, he]

theorem tierOnes_collectIssues (today : Int) (currentMonth : String)
    (expenses : List ExpenseRecord) (habits : Habits) (budget : ℚ) (productivity : Int)
    (timeWasted : ℚ) :
    tierOnes (collectIssues today currentMonth expenses habits budget productivity timeWasted)
      = (if (habits.filter (fun p => truthy p.2.history today)).length = 0
            ∧ (objKeys habits).length > 0 then [noHabitIssue] else [])
        ++ (if priorityWasteTotal currentMonth expenses > priorityWasteLimit budget then
            [wasteIssue] else [])
        ++ (if (brokenStreaks habits).length > 0 then
            [brokenStreakIssue (brokenStreaks habits)] else []) := by
  unfold collectIssues
  exact tierOnes_optional5 _ _ _ _ _ rfl rfl rfl rfl rfl _ _ _ _ _

theorem tierTwos_collectIssues (today : Int) (currentMonth : String)
    (expenses : List ExpenseRecord) (habits : Habits) (budget : ℚ) (productivity : Int)
    (timeWasted : ℚ) :
    tierTwos (collectIssues today currentMonth expenses habits budget productivity timeWasted)
      = (if productivity < 40 then [productivityIssue] else [])
        ++ (if timeWasted > 5 then [timeWastedIssue] else []) := by
  unfold collectIssues
  exact tierTwos_optional5 _ _ _ _ _ rfl rfl rfl rfl rfl _ _ _ _ _

theorem length_optional3_le {α : Type} (a b e : α) (A B E : Prop) [Decidable A]
    [Decidable B] [Decidable E] :
    ((if A then [a] else []) ++ (if B then [b] else []) ++ (if E then [e] else [])).length
      ≤ 3 := by
  by_cases hA : A <;> by_cases hB : B <;> by_cases hE : E <;> simp [hA, hB, hE]

/-- A list sorted by tier whose tiers are all 1 or 2 is its tier-1 part followed by its
tier-2 part. -/
theorem sorted_two_tiers (l : List Issue)
    (hs : l.Sorted (fun a b => a.priority ≤ b.priority))
    (h12 : ∀ i ∈ l, i.priority = 1 ∨ i.priority = 2) :
    l = tierOnes l ++ tierTwos l := by
  induction l with
  | nil => rfl
  | cons x t ih =>
    have hst : t.Sorted (fun a b => a.priority ≤ b.priority) := List.Sorted.of_cons hs
    have ht12 : ∀ i ∈ t, i.priority = 1 ∨ i.priority = 2 :=
      fun i hi => h12 i (List.mem_cons_of_mem x hi)
    have iht := ih hst ht12
    rcases h12 x (List.mem_cons_self x t) with hx | hx
    · have e1 : tierOnes (x :: t) = x :: tierOnes t := by
        simp [tierOnes, List.filter_cons, hx]
      have e2 : tierTwos (x :: t) = tierTwos t := by
        simp [tierTwos, List.filter_cons, hx]
      rw [e1, e2, List.cons_append, ← iht]
    · have hall : ∀ i ∈ t, i.priority = 2 := by
        intro i hi
        have hle : x.priority ≤ i.priority := List.rel_of_sorted_cons hs i hi
        rcases ht12 i hi with h | h
        · omega
        · exact h
      have e1 : tierOnes (x :: t) = [] := by
        unfold tierOnes
        apply List.filter_eq_nil_iff.2
        intro i hi
        rcases List.mem_cons.1 hi with h | h
        · simp [h, hx]
        · simp [hall i h]
      have e2 : tierTwos (x :: t) = x :: t := by
        unfold tierTwos
        apply List.filter_eq_self.2
        intro i hi
        rcases List.mem_cons.1 hi with h | h
        · simp [h, hx]
        · simp [hall i h]
      rw [e1, e2, List.nil_append]

theorem collectIssues_tier (today : Int) (currentMonth : String)
    (expenses : List ExpenseRecord) (habits : Habits) (budget : ℚ) (productivity : Int)
    (timeWasted : ℚ) :
    ∀ i ∈ collectIssues today currentMonth expenses habits budget productivity timeWasted,
      i.priority = 1 ∨ i.priority = 2 := by
  intro i hi
  rcases (mem_collectIssues today currentMonth expenses habits budget productivity
    timeWasted i).1 hi with h | h | h | h | h
  · left; rw [h.1]; rfl
  · left; rw [h.1]; rfl
  · right; rw [h.1]; rfl
  · right; rw [h.1]; rfl
  · left; rw [h.1]; rfl

/-- The list shown when something was collected: the tier-1 issues in push order, then the
tier-2 issues in push order, cut to three. -/
theorem updatePriorityWidget_of_collected (today : Int) (currentMonth : String)
    (expenses : List ExpenseRecord) (habits : Habits) (budget : ℚ) (productivity : Int)
    (timeWasted : ℚ)
    (hne : collectIssues today currentMonth expenses habits budget productivity timeWasted
      ≠ []) :
    updatePriorityWidget today currentMonth expenses habits budget productivity timeWasted
      = (tierOnes (collectIssues today currentMonth expenses habits budget productivity
            timeWasted)
          ++ tierTwos (collectIssues today currentMonth expenses habits budget productivity
            timeWasted)).take 3 := by
  have hlen : ¬ (collectIssues today currentMonth expenses habits budget productivity
      timeWasted).length = 0 := fun h => hne (List.length_eq_zero.1 h)
  have hdef : updatePriorityWidget today currentMonth expenses habits budget productivity
      timeWasted
      = ((collectIssues today currentMonth expenses habits budget productivity
          timeWasted).insertionSort (fun a b => a.priority ≤ b.priority)).take 3 := by
    unfold updatePriorityWidget
    simp only [if_neg hlen]
  have hsorted : ((collectIssues today currentMonth expenses habits budget productivity
      timeWasted).insertionSort (fun a b => a.priority ≤ b.priority)).Sorted
        (fun a b => a.priority ≤ b.priority) := by
    haveI : IsTotal Issue (fun a b => a.priority ≤ b.priority) :=
      ⟨fun a b => le_total a.priority b.priority⟩
    haveI : IsTrans Issue (fun a b => a.priority ≤ b.priority) :=
      ⟨fun _ _ _ h1 h2 => le_trans h1 h2⟩
    exact List.sorted_insertionSort _ _
  have h12 : ∀ i ∈ (collectIssues today currentMonth expenses habits budget productivity
      timeWasted).insertionSort (fun a b => a.priority ≤ b.priority),
      i.priority = 1 ∨ i.priority = 2 := by
    intro i hi
    exact collectIssues_tier today currentMonth expenses habits budget productivity timeWasted
      i ((List.mem_insertionSort _).1 hi)
  have hsplit := sorted_two_tiers _ hsorted h12
  have hk : ∀ tier : Nat, ((collectIssues today currentMonth expenses habits budget
      productivity timeWasted).insertionSort (fun a b => a.priority ≤ b.priority)).filter
        (fun i => decide (i.priority = tier))
      = (collectIssues today currentMonth expenses habits budget productivity
          timeWasted).filter (fun i => decide (i.priority = tier)) := by
    intro tier
    apply filter_insertionSort
    intro a b ha hb
    simp only [decide_eq_true_eq] at ha hb
    rw [ha, hb]
  have h1 : tierOnes ((collectIssues today currentMonth expenses habits budget productivity
      timeWasted).insertionSort (fun a b => a.priority ≤ b.priority))
      = tierOnes (collectIssues today currentMonth expenses habits budget productivity
          timeWasted) := hk 1
  have h2 : tierTwos ((collectIssues today currentMonth expenses habits budget productivity
      timeWasted).insertionSort (fun a b => a.priority ≤ b.priority))
      = tierTwos (collectIssues today currentMonth expenses habits budget productivity
          timeWasted) := hk 2
  rw [hdef, hsplit, h1, h2]

theorem take_three_tiers (t1 t2 : List Issue) (h : t1.length ≤ 3) :
    (t1 ++ t2).take 3 = t1 ++ t2.take (3 - t1.length) := by
  rw [List.take_append_eq_append_take, List.take_of_length_le h]

theorem mem_optional2 {α : Type} (c d i : α) (C D : Prop) [Decidable C] [Decidable D]
    (hi : i ∈ (if C then [c] else []) ++ (if D then [d] else []))
    (hn : i ∉ ((if C then [c] else []) ++ (if D then [d] else [])).take 1) :
    i = d ∧ c ∈ (if C then [c] else []) ++ (if D then [d] else []) := by
  by_cases hC : C <;> by_cases hD : D
  · simp only [hC, hD, if_true, List.singleton_append, List.take_succ_cons, List.take_zero,
      List.mem_cons, List.mem_singleton, List.not_mem_nil, or_false] at hi hn ⊢
    rcases hi with h | h
    · exact absurd h hn
    · exact ⟨h, Or.inl trivial⟩
  · simp only [hC, hD, if_true, if_false, List.append_nil, List.take_succ_cons, List.take_zero,
      List.mem_singleton] at hi hn
    exact absurd hi hn
  · simp only [hC, hD, if_true, if_false, List.nil_append, List.take_succ_cons, List.take_zero,
      List.mem_singleton] at hi hn
    exact absurd hi hn
  · simp only [hC, hD, if_false, List.append_nil, List.not_mem_nil] at hi

theorem length_optional2_le {α : Type} (c d : α) (C D : Prop) [Decidable C] [Decidable D] :
    ((if C then [c] else []) ++ (if D then [d] else [])).length ≤ 2 := by
  by_cases hC : C <;> by_cases hD : D <;> simp [hC, hD]

theorem take_one_optional2 {α : Type} (c d : α) (C D : Prop) [Decidable C] [Decidable D]
    (hc : c ∈ (if C then [c] else []) ++ (if D then [d] else [])) (hcd : c ≠ d) :
    ((if C then [c] else []) ++ (if D then [d] else [])).take 1 = [c] := by
  by_cases hC : C
  · simp [hC]
  · by_cases hD : D
    · simp only [hC, hD, if_true, if_false, List.nil_append, List.mem_singleton] at hc
      exact absurd hc hcd
    · simp only [hC, hD, if_false, List.append_nil, List.not_mem_nil] at hc

/-- An input on which the cut drops an issue: one habit with a broken streak and nothing
done today, productivity 10 and 8 wasted hours. Two tier-1 and two tier-2 issues are
collected; the list shown has both tier-1 issues and the productivity issue, and the time
issue is dropped. -/
theorem updatePriorityWidget_cut_example :
    collectIssues 19727 "2024-01" [] [("study", ⟨[], 0, 1⟩)] 10000 10 8
      = [noHabitIssue, productivityIssue, timeWastedIssue,
          brokenStreakIssue (brokenStreaks [("study", ⟨[], 0, 1⟩)])] ∧
    updatePriorityWidget 19727 "2024-01" [] [("study", ⟨[], 0, 1⟩)] 10000 10 8
      = [noHabitIssue, brokenStreakIssue (brokenStreaks [("study", ⟨[], 0, 1⟩)]),
          productivityIssue] := by
  have c1 : (([("study", ⟨[], 0, 1⟩)] : Habits).filter
      (fun p => truthy p.2.history 19727)).length = 0
      ∧ (objKeys ([("study", ⟨[], 0, 1⟩)] : Habits)).length > 0 := by decide
  have c2 : ¬ (priorityWasteTotal "2024-01" [] > priorityWasteLimit 10000) := by
    norm_num [priorityWasteTotal, priorityWasteLimit]
  have c3 : (10 : Int) < 40 := by decide
  have c4 : (8 : ℚ) > 5 := by norm_num
  have c5 : (brokenStreaks [("study", ⟨[], 0, 1⟩)]).length > 0 := by
    simp [brokenStreaks]
  have hcol : collectIssues 19727 "2024-01" [] [("study", ⟨[], 0, 1⟩)] 10000 10 8
      = [noHabitIssue, productivityIssue, timeWastedIssue,
          brokenStreakIssue (brokenStreaks [("study", ⟨[], 0, 1⟩)])] := by
    simp only [collectIssues]
    rw [if_pos c1, if_neg c2, if_pos c3, if_pos c4, if_pos c5]
    rfl
  refine ⟨hcol, ?_⟩
  have hne : collectIssues 19727 "2024-01" [] [("study", ⟨[], 0, 1⟩)] 10000 10 8 ≠ [] := by
    rw [hcol]; exact List.cons_ne_nil _ _
  rw [updatePriorityWidget_of_collected 19727 "2024-01" [] _ 10000 10 8 hne,
    tierOnes_collectIssues, tierTwos_collectIssues, if_pos c1, if_neg c2, if_pos c3, if_pos c4,
    if_pos c5]
  rfl

/-- C21: the cut to three never hides a tier-1 issue. For every input of
`updatePriorityWidget`: every collected tier-1 issue is in the list shown; at most three
tier-1 issues are collected and every collected issue has tier 1 or 2; the list shown is the
tier-1 issues followed by the tier-2 issues, cut to three; and a collected tier-2 issue is
missing from the list shown exactly when three tier-1 issues were collected, or two tier-1
issues were collected and it is the second tier-2 issue (the time issue, behind the
productivity issue). -/
theorem updatePriorityWidget_cut (today : Int) (currentMonth : String)
    (expenses : List ExpenseRecord) (habits : Habits) (budget : ℚ) (productivity : Int)
    (timeWasted : ℚ) :
    (∀ i ∈ collectIssues today currentMonth expenses habits budget productivity timeWasted,
      i.priority = 1 →
      i ∈ updatePriorityWidget today currentMonth expenses habits budget productivity
        timeWasted) ∧
    (tierOnes (collectIssues today currentMonth expenses habits budget productivity
      timeWasted)).length ≤ 3 ∧
    (∀ i ∈ collectIssues today currentMonth expenses habits budget productivity timeWasted,
      i.priority = 1 ∨ i.priority = 2) ∧
    (collectIssues today currentMonth expenses habits budget productivity timeWasted ≠ [] →
      updatePriorityWidget today currentMonth expenses habits budget productivity timeWasted
        = (tierOnes (collectIssues today currentMonth expenses habits budget productivity
              timeWasted)
            ++ tierTwos (collectIssues today currentMonth expenses habits budget productivity
              timeWasted)).take 3) ∧
    (∀ i ∈ collectIssues today currentMonth expenses habits budget productivity timeWasted,
      i.priority = 2 →
      (i ∉ updatePriorityWidget today currentMonth expenses habits budget productivity
          timeWasted
        ↔ (tierOnes (collectIssues today currentMonth expenses habits budget productivity
              timeWasted)).length = 3 ∨
          ((tierOnes (collectIssues today currentMonth expenses habits budget productivity
              timeWasted)).length = 2 ∧ i = timeWastedIssue ∧
            productivityIssue ∈ collectIssues today currentMonth expenses habits budget
              productivity timeWasted))) := by
  have hlen1 : (tierOnes (collectIssues today currentMonth expenses habits budget productivity
      timeWasted)).length ≤ 3 := by
    rw [tierOnes_collectIssues]
    exact length_optional3_le _ _ _ _ _ _
  have hshown : ∀ i ∈ collectIssues today currentMonth expenses habits budget productivity
      timeWasted,
      updatePriorityWidget today currentMonth expenses habits budget productivity timeWasted
        = tierOnes (collectIssues today currentMonth expenses habits budget productivity
            timeWasted)
          ++ (tierTwos (collectIssues today currentMonth expenses habits budget productivity
            timeWasted)).take (3 - (tierOnes (collectIssues today currentMonth expenses habits
              budget productivity timeWasted)).length) := by
    intro i hi
    rw [updatePriorityWidget_of_collected today currentMonth expenses habits budget
      productivity timeWasted (List.ne_nil_of_mem hi), take_three_tiers _ _ hlen1]
  have hpt : productivityIssue ≠ timeWastedIssue := by decide
  refine ⟨?_, hlen1,
    collectIssues_tier today currentMonth expenses habits budget productivity timeWasted,
    updatePriorityWidget_of_collected today currentMonth expenses habits budget productivity
      timeWasted, ?_⟩
  · intro i hi hp
    rw [hshown i hi]
    apply List.mem_append_left
    unfold tierOnes
    exact List.mem_filter.2 ⟨hi, by simpa using hp⟩
  · intro i hi hp
    have hi2 : i ∈ tierTwos (collectIssues today currentMonth expenses habits budget
        productivity timeWasted) := by
      unfold tierTwos
      exact List.mem_filter.2 ⟨hi, by simpa using hp⟩
    have hnot1 : i ∉ tierOnes (collectIssues today currentMonth expenses habits budget
        productivity timeWasted) := by
      unfold tierOnes
      intro hmem
      have := (List.mem_filter.1 hmem).2
      simp only [decide_eq_true_eq] at this
      omega
    rw [hshown i hi, List.mem_append, not_or]
    have hlen2 : (tierTwos (collectIssues today currentMonth expenses habits budget
        productivity timeWasted)).length ≤ 2 := by
      rw [tierTwos_collectIssues]
      exact length_optional2_le _ _ _ _
    constructor
    · rintro ⟨_, hdrop⟩
      by_cases h3 : (tierOnes (collectIssues today currentMonth expenses habits budget
          productivity timeWasted)).length = 3
      · exact Or.inl h3
      · right
        by_cases h2 : (tierOnes (collectIssues today currentMonth expenses habits budget
            productivity timeWasted)).length = 2
        · rw [h2] at hdrop
          rw [tierTwos_collectIssues] at hi2 hdrop
          obtain ⟨e1, e2⟩ := mem_optional2 productivityIssue timeWastedIssue i _ _ hi2 hdrop
          refine ⟨h2, e1, ?_⟩
          rw [← tierTwos_collectIssues today currentMonth expenses habits budget productivity
            timeWasted] at e2
          unfold tierTwos at e2
          exact List.mem_of_mem_filter e2
        · exfalso
          apply hdrop
          rw [List.take_of_length_le (by omega)]
          exact hi2
    · intro h
      refine ⟨hnot1, ?_⟩
      rcases h with h3 | ⟨h2, hid, hc⟩
      · rw [h3]
        simp
      · rw [h2]
        have hc2 : productivityIssue ∈ tierTwos (collectIssues today currentMonth expenses
            habits budget productivity timeWasted) := by
          unfold tierTwos
          exact List.mem_filter.2 ⟨hc, by decide⟩
        rw [tierTwos_collectIssues] at hc2 ⊢
        show i ∉ List.take 1 _
        rw [take_one_optional2 productivityIssue timeWastedIssue _ _ hc2 hpt, hid,
          List.mem_singleton]
        exact Ne.symm hpt

/-! ## The backward walk across a change of the UTC offset -/

theorem todayOf_sub_day (t : Int) : todayOf (t - MS_PER_DAY) = todayOf t - 1 := by
  unfold todayOf MS_PER_DAY
  omega

theorem previousLocalDay_fixed (offset t : Int) :
    previousLocalDay (Zone.fixed offset) t = t - MS_PER_DAY := by
  unfold previousLocalDay Zone.fixed
  simp only
  omega

/-- With a constant UTC offset the walk of the code is `walkBack` from today's date, as soon
as the fuel exceeds the number of counting turns. -/
theorem walkBackZoned_fixed (offset : Int) (history : History) :
    ∀ (fuel : Nat) (t : Int) (c : Nat), runLen history (todayOf t) < fuel →
      walkBackZoned (Zone.fixed offset) history fuel t c
        = some (c + runLen history (todayOf t)) := by
  intro fuel
  induction fuel with
  | zero => intro t c h; exact absurd h (Nat.not_lt_zero _)
  | succ n ih =>
    intro t c h
    cases ht : truthy history (todayOf t) with
    | false =>
      rw [walkBackZoned, if_neg (by rw [ht]; exact Bool.false_ne_true),
        runLen_of_not_truthy history _ ht]
      rfl
    | true =>
      have hrun := runLen_of_truthy history (todayOf t) ht
      rw [walkBackZoned, if_pos ht, previousLocalDay_fixed, ih _ _ (by
        rw [todayOf_sub_day]; omega), todayOf_sub_day, hrun]
      congr 1
      omega

theorem calculateStreaksZoned_fixed (offset : Int) (fuel : Nat) (now : Int)
    (history : History) (hfuel : history.length < fuel) :
    calculateStreaksZoned (Zone.fixed offset) fuel now history
      = some (calculateStreaks (todayOf now) history) := by
  have hlt : runLen history (todayOf now) < fuel :=
    lt_of_le_of_lt (trueBack_length_le history _ _ (trueBack_runLen history _)) hfuel
  have hw := walkBackZoned_fixed offset history fuel now 0 hlt
  rw [Nat.zero_add] at hw
  by_cases hlen : ((objKeys history).insertionSort (fun a b => b ≤ a)).length = 0
  · simp only [calculateStreaksZoned, calculateStreaks, hlen, if_true]
  · simp only [calculateStreaksZoned, calculateStreaks, hlen, if_false, hw]
    rfl

theorem walkBackZoned_newYork (fuel : Nat) :
    walkBackZoned newYorkMarch2024 [(19792, true)] (fuel + 3) 1710113400000 0 = some 2 := by
  have t0 : truthy [(19792, true)] (todayOf 1710113400000) = true := by decide
  have p0 : previousLocalDay newYorkMarch2024 1710113400000 = 1710030600000 := by decide
  have t1 : truthy [(19792, true)] (todayOf 1710030600000) = true := by decide
  have p1 : previousLocalDay newYorkMarch2024 1710030600000 = 1709944200000 := by decide
  have t2 : ¬ (truthy [(19792, true)] (todayOf 1709944200000) = true) := by decide
  rw [walkBackZoned, if_pos t0, p0, walkBackZoned, if_pos t1, p1, walkBackZoned, if_neg t2]

/-- C1, evaluated where it fails: in the zone America/New_York at the clock reading
2024-03-10T23:30Z (19:30 local, on the day the clocks went forward) with the history
`{2024-03-10: true}`, `calculateStreaks` returns current 2 and longest 1. The walk reads the
UTC date but steps one local day, and 19:30 of the previous local day is 2024-03-10T00:30Z, so
the date 2024-03-10 is counted twice. With a constant UTC offset the function does return,
and returns `current ≤ longest`. -/
theorem calculateStreaksZoned_current_exceeds_longest :
    todayOf 1710113400000 = 19792 ∧
    (∀ fuel : Nat,
      calculateStreaksZoned newYorkMarch2024 (fuel + 3) 1710113400000 [(19792, true)]
        = some ⟨2, 1⟩) ∧
    ¬ ((⟨2, 1⟩ : Streaks).current ≤ (⟨2, 1⟩ : Streaks).longest) ∧
    (∀ (offset : Int) (fuel : Nat) (now : Int) (history : History),
      ObjWF history → history.length < fuel →
      ∃ r, calculateStreaksZoned (Zone.fixed offset) fuel now history = some r ∧
        r.current ≤ r.longest) := by
  refine ⟨by decide, ?_, by decide, ?_⟩
  · intro fuel
    have hlen : ¬ ((objKeys ([(19792, true)] : History)).insertionSort
        (fun a b => b ≤ a)).length = 0 := by decide
    have hlong : ((((objKeys ([(19792, true)] : History)).insertionSort
        (fun a b => b ≤ a)).insertionSort (fun a b => a ≤ b)).foldl
          (scanStep [(19792, true)]) ⟨0, 0, none⟩).longest = 1 := by decide
    simp only [calculateStreaksZoned, hlen, if_false, walkBackZoned_newYork, hlong]
  · intro offset fuel now history hwf hfuel
    refine ⟨_, calculateStreaksZoned_fixed offset fuel now history hfuel, ?_⟩
    rw [calculateStreaks_current]
    exact (calculateStreaks_longest (todayOf now) history hwf).1 (todayOf now)

/-- C3, evaluated where it fails: in the zone America/New_York at the clock reading
2024-03-10T23:30Z with the history `{2024-03-10: true}`, the backward walk ends with current 2,
although only today is present: the largest `n` with the `n` days today, today-1, ... all
truthy is 1. The first two turns of the walk both read the date 2024-03-10. With a constant
UTC offset the walk ends with the run length at today's date. -/
theorem walkBackZoned_counts_a_date_twice :
    (∀ fuel : Nat,
      walkBackZoned newYorkMarch2024 [(19792, true)] (fuel + 3) 1710113400000 0 = some 2) ∧
    todayOf 1710113400000 = 19792 ∧
    todayOf (previousLocalDay newYorkMarch2024 1710113400000) = 19792 ∧
    TrueBack [(19792, true)] 19792 1 ∧
    ¬ TrueBack [(19792, true)] 19792 2 ∧
    (∀ (offset : Int) (fuel : Nat) (now : Int) (history : History),
      history.length < fuel →
      walkBackZoned (Zone.fixed offset) history fuel now 0
        = some (runLen history (todayOf now))) := by
  refine ⟨walkBackZoned_newYork, by decide, by decide, ?_, ?_, ?_⟩
  · intro i hi
    interval_cases i
    decide
  · intro h
    have := h 1 (by decide)
    revert this
    decide
  · intro offset fuel now history hfuel
    have hlt : runLen history (todayOf now) < fuel :=
      lt_of_le_of_lt (trueBack_length_le history _ _ (trueBack_runLen history _)) hfuel
    have hw := walkBackZoned_fixed offset history fuel now 0 hlt
    rw [Nat.zero_add] at hw
    exact hw

/-! ## The productivity shown on the cards with no screen time -/

theorem cards_productivity_of_no_screen (now : Int) (currentMonth : String) (store : Store)
    (h : (updateTruthSummaryCards now currentMonth store).totalScreen ≤ 0) :
    (updateTruthSummaryCards now currentMonth store).productivity = 0 := by
  have hp : (updateTruthSummaryCards now currentMonth store).productivity
      = if (updateTruthSummaryCards now currentMonth store).totalScreen > 0 then
          Int.floor ((updateTruthSummaryCards now currentMonth store).totalProductive
            / (updateTruthSummaryCards now currentMonth store).totalScreen * 100 + 1 / 2)
        else 0 := rfl
  rw [hp, if_neg (not_lt.2 h)]

/-- C11, evaluated where it fails: at noon of 2024-01-05 with the single time log
`2024-01-05: {screen: 0, productive: 0}` in the store, the screen total is 0 and
`updateHabitStates` has the ratio 1, but `updateTruthSummaryCards` has productivity 0, not
100, and `updatePriorityWidget` shows the low-productivity issue. The same happens whenever
the screen total is not positive: the cards' productivity is 0 and the issue is collected. -/
theorem cards_productivity_zero_without_screen :
    (updateTruthSummaryCards 1704456000000 "2024-01"
      [(KEY_TIME_LOGS, Blob.timeLogs [(19727, ⟨0, 0⟩)])]).totalScreen = 0 ∧
    (updateHabitStates 1704456000000 "2024-01" []
      [(KEY_TIME_LOGS, Blob.timeLogs [(19727, ⟨0, 0⟩)])]).productivity = 1 ∧
    (updateTruthSummaryCards 1704456000000 "2024-01"
      [(KEY_TIME_LOGS, Blob.timeLogs [(19727, ⟨0, 0⟩)])]).productivity = 0 ∧
    priorityWidgetOfCards 1704456000000 "2024-01"
      [(KEY_TIME_LOGS, Blob.timeLogs [(19727, ⟨0, 0⟩)])] = [productivityIssue] ∧
    (∀ (now : Int) (currentMonth : String) (store : Store),
      (updateTruthSummaryCards now currentMonth store).totalScreen ≤ 0 →
      (updateTruthSummaryCards now currentMonth store).productivity = 0 ∧
      productivityIssue ∈ collectIssues (todayOf now) currentMonth (storedExpenses store)
        (storedHabits store) (updateTruthSummaryCards now currentMonth store).budget
        (updateTruthSummaryCards now currentMonth store).productivity
        (updateTruthSummaryCards now currentMonth store).timeWasted) := by
  have hget : getData [(KEY_TIME_LOGS, Blob.timeLogs [(19727, ⟨0, 0⟩)])] KEY_TIME_LOGS
      = some (Blob.timeLogs [(19727, ⟨0, 0⟩)]) := by
    simp [getData, objGet]
  have hgetE : getData [(KEY_TIME_LOGS, Blob.timeLogs [(19727, ⟨0, 0⟩)])] KEY_EXPENSES
      = none := by
    have hk : ¬ (KEY_TIME_LOGS = KEY_EXPENSES) := by decide
    simp [getData, objGet, hk]
  have hgetH : getData [(KEY_TIME_LOGS, Blob.timeLogs [(19727, ⟨0, 0⟩)])] KEY_HABITS
      = none := by
    have hk : ¬ (KEY_TIME_LOGS = KEY_HABITS) := by decide
    simp [getData, objGet, hk]
  have hweek : weekLogs 1704456000000 [(19727, ⟨0, 0⟩)] = [(19727, ⟨0, 0⟩)] := by
    simp [weekLogs, MS_PER_DAY]
  have htot : weekTotals [(19727, ⟨0, 0⟩)] = (0, 0) := by
    simp [weekTotals]
  have hk : ¬ (KEY_TIME_LOGS = "monthlyBudget") := by decide
  have hcards : (updateTruthSummaryCards 1704456000000 "2024-01"
      [(KEY_TIME_LOGS, Blob.timeLogs [(19727, ⟨0, 0⟩)])]).totalScreen = 0 ∧
      (updateTruthSummaryCards 1704456000000 "2024-01"
      [(KEY_TIME_LOGS, Blob.timeLogs [(19727, ⟨0, 0⟩)])]).productivity = 0 ∧
      (updateTruthSummaryCards 1704456000000 "2024-01"
      [(KEY_TIME_LOGS, Blob.timeLogs [(19727, ⟨0, 0⟩)])]).timeWasted = 0 ∧
      (updateTruthSummaryCards 1704456000000 "2024-01"
      [(KEY_TIME_LOGS, Blob.timeLogs [(19727, ⟨0, 0⟩)])]).budget = 10000 := by
    simp only [updateTruthSummaryCards, hget, hweek, htot, storedBudgetOrDefault, parseIntItem,
      objGet, hk, if_false]
    norm_num
  obtain ⟨c1, c2, c3, c4⟩ := hcards
  have hhabits : (updateHabitStates 1704456000000 "2024-01" []
      [(KEY_TIME_LOGS, Blob.timeLogs [(19727, ⟨0, 0⟩)])]).productivity = 1 := by
    simp only [updateHabitStates, hget, hweek, htot]
    norm_num
  refine ⟨c1, hhabits, c2, ?_, ?_⟩
  · simp only [priorityWidgetOfCards, c2, c3, c4, storedExpenses, storedHabits, hgetE, hgetH,
      updatePriorityWidget, collectIssues, priorityWasteTotal, priorityWasteLimit,
      brokenStreaks, objKeys]
    norm_num [List.insertionSort, List.orderedInsert]
  · intro now currentMonth store h
    have hp := cards_productivity_of_no_screen now currentMonth store h
    refine ⟨hp, ?_⟩
    rw [mem_collectIssues, hp]
    right; right; left
    exact ⟨rfl, by decide⟩

/-! ## Deleting on the page -/

theorem renderExpenses_expenses_sorted (dateValue : String → Int)
    (expenses : List ExpenseRecord) (monthlyBudget : ℚ) :
    (renderExpenses dateValue expenses monthlyBudget "").expenses.Sorted
      (fun a b => dateValue b.date ≤ dateValue a.date) := by
  rw [renderExpenses_expenses_eq, if_neg (by simp)]
  exact sorted_by_date_desc dateValue expenses

/-- Every page reached has its in-memory list in display order when no month filter is set:
each handler that can leave the month input empty ends with an unfiltered `renderExpenses`. -/
theorem displayOrdered_of_reachable (dateValue : String → Int) (store : Store)
    (filterAtLoad : String) (pg : ExpensePage)
    (hr : PageReachable dateValue store filterAtLoad pg) : DisplayOrdered dateValue pg := by
  induction hr with
  | load =>
    intro hf
    simp only [pageLoad] at hf ⊢
    subst hf
    exact renderExpenses_expenses_sorted dateValue _ _
  | step pg ev _ ih =>
    intro hf
    cases ev with
    | changeFilter m =>
      simp only [pageStep] at hf ⊢
      subst hf
      exact renderExpenses_expenses_sorted dateValue _ _
    | add id amount category note date =>
      simp only [pageStep] at hf ⊢
      have hs := ih hf
      cases amount with
      | none => exact hs
      | some a =>
        by_cases hc : a = 0 ∨ category = "" ∨ date = ""
        · simp only [addExpense, if_pos hc]
          exact hs
        · simp only [addExpense, if_neg hc]
          rw [hf]
          exact renderExpenses_expenses_sorted dateValue _ _
    | delete id =>
      simp only [pageStep] at hf ⊢
      simp only [deleteExpense]
      rw [hf]
      exact renderExpenses_expenses_sorted dateValue _ _
    | clearMonth =>
      simp only [pageStep] at hf ⊢
      have hs := ih hf
      simp only [clearSelectedMonth, if_pos hf]
      exact hs
    | setBudget newBudget =>
      cases newBudget with
      | none => exact ih hf
      | some b =>
        by_cases hb : b > 0
        · simp only [pageStep, if_pos hb] at hf ⊢
          rw [hf]
          exact renderExpenses_expenses_sorted dateValue _ _
        · simp only [pageStep, if_neg hb] at hf ⊢
          exact ih hf

/-- C18: deletion removes exactly the targeted records. On every page state (the page as
loaded from any store, after any events), `deleteExpense(id)` leaves in memory and writes to
the store exactly the records whose id differs from `id`, and `clearSelectedMonth` with a
non-empty month key `m` leaves exactly the records whose date does not start with `m`, so
that filtering the result by `m` gives the empty list; in both cases the remaining records
keep their previous relative order. `clearSelectedMonth` with an empty month key changes
nothing. -/
theorem deletion_exact_on_page (dateValue : String → Int) (store : Store)
    (filterAtLoad : String) (pg : ExpensePage)
    (hr : PageReachable dateValue store filterAtLoad pg) (id : String) :
    (pageStep dateValue pg (ExpenseEvent.delete id)).app.expenses
      = pg.app.expenses.filter (fun exp => decide (exp.id ≠ id)) ∧
    getData (pageStep dateValue pg (ExpenseEvent.delete id)).app.store KEY_EXPENSES
      = some (Blob.expenses (pg.app.expenses.filter (fun exp => decide (exp.id ≠ id)))) ∧
    (∀ r, r ∈ (pageStep dateValue pg (ExpenseEvent.delete id)).app.expenses
      ↔ r ∈ pg.app.expenses ∧ r.id ≠ id) ∧
    (pageStep dateValue pg (ExpenseEvent.delete id)).app.expenses.Sublist pg.app.expenses ∧
    (pg.filterMonth ≠ "" →
      (pageStep dateValue pg ExpenseEvent.clearMonth).app.expenses
        = pg.app.expenses.filter (fun exp => !(startsWith exp.date pg.filterMonth)) ∧
      getData (pageStep dateValue pg ExpenseEvent.clearMonth).app.store KEY_EXPENSES
        = some (Blob.expenses
            (pg.app.expenses.filter (fun exp => !(startsWith exp.date pg.filterMonth)))) ∧
      (∀ r, r ∈ (pageStep dateValue pg ExpenseEvent.clearMonth).app.expenses
        ↔ r ∈ pg.app.expenses ∧ startsWith r.date pg.filterMonth = false) ∧
      (pageStep dateValue pg ExpenseEvent.clearMonth).app.expenses.Sublist pg.app.expenses ∧
      (pageStep dateValue pg ExpenseEvent.clearMonth).app.expenses.filter
        (fun exp => startsWith exp.date pg.filterMonth) = []) ∧
    (pg.filterMonth = "" → pageStep dateValue pg ExpenseEvent.clearMonth = pg) := by
  have hinv := displayOrdered_of_reachable dateValue store filterAtLoad pg hr
  obtain ⟨d1, _, d3, _, d5, d6, _⟩ :=
    deletion_removes_exactly dateValue pg.filterMonth id pg.app
  have hord : pg.filterMonth ≠ "" ∨
      pg.app.expenses.Sorted (fun a b => dateValue b.date ≤ dateValue a.date) := by
    by_cases hf : pg.filterMonth = ""
    · exact Or.inr (hinv hf)
    · exact Or.inl hf
  have hdel : (pageStep dateValue pg (ExpenseEvent.delete id)).app.expenses
      = pg.app.expenses.filter (fun exp => decide (exp.id ≠ id)) := d5 hord
  refine ⟨hdel, d1, ?_, ?_, ?_, ?_⟩
  · intro r
    rw [hdel]
    exact d3 r
  · rw [hdel]
    exact List.filter_sublist _
  · intro hf
    obtain ⟨c1, c2, c3, c4, c5⟩ := d6 hf
    have hclr : (pageStep dateValue pg ExpenseEvent.clearMonth).app.expenses
        = pg.app.expenses.filter (fun exp => !(startsWith exp.date pg.filterMonth)) := c1
    refine ⟨hclr, c2, c4, ?_, c5⟩
    rw [hclr]
    exact c3
  · intro hf
    simp only [pageStep, clearSelectedMonth, if_pos hf]

theorem deletion_exact_on_page_witness :
    PageReachable dateDigits
      [(KEY_EXPENSES, Blob.expenses [⟨"a", 1, "Food", "", "2024-01-01"⟩,
        ⟨"b", 2, "Food", "", "2024-02-01"⟩])] ""
      (pageLoad dateDigits
        [(KEY_EXPENSES, Blob.expenses [⟨"a", 1, "Food", "", "2024-01-01"⟩,
          ⟨"b", 2, "Food", "", "2024-02-01"⟩])] "") ∧
    (pageStep dateDigits
      (pageLoad dateDigits
        [(KEY_EXPENSES, Blob.expenses [⟨"a", 1, "Food", "", "2024-01-01"⟩,
          ⟨"b", 2, "Food", "", "2024-02-01"⟩])] "")
      (ExpenseEvent.delete "a")).app.expenses
      = (pageLoad dateDigits
        [(KEY_EXPENSES, Blob.expenses [⟨"a", 1, "Food", "", "2024-01-01"⟩,
          ⟨"b", 2, "Food", "", "2024-02-01"⟩])] "").app.expenses.filter
          (fun exp => decide (exp.id ≠ "a")) :=
  ⟨PageReachable.load,
    (deletion_exact_on_page dateDigits _ "" _ PageReachable.load "a").1⟩

end PCS
